import Mathlib

/-!
# Customize Toolbar (Notepad++ plugin): toolbar identity and layout persistence

A shallow embedding of the layout engine of `src/src/PluginDefinition.cpp`:
the two hash functions, `stripMenuString`, `findPluginParentMenuString`,
`findCmdIDForMenuStrings`, `saveToolbarLayout`, `restoreToolbarLayout`,
`resetToolbarLayout`, the menu commands that change the two states and the
loop of `addToolbarButtons` over the `.btn` file, together with the Win32 calls
they make on the menu, the toolbar string pool and the two files.

Machine integers are naturals or integers with explicit reduction modulo `2^32`.
A `TCHAR` buffer is the list of code units it holds; every loop of the source
that runs `while buffer[i] != 0` stops at the first zero unit or at the end of
the list, whichever comes first.
-/

namespace CustomizeToolbar

/-! ## Machine words -/

/-- One UTF-16 code unit of a `TCHAR` buffer. -/
abbrev TCHAR := Nat

/-- A 32-bit unsigned value (`DWORD`, `UINT`); meaningful below `2^32`. -/
abbrev DWORD := Nat

/-- The C conversion of an `int` to a 32-bit unsigned value. -/
def toDWORD (x : Int) : DWORD := (x % 4294967296).toNat

/-- The C reading of a 32-bit pattern as a signed `int`. -/
def toInt (w : DWORD) : Int :=
  if w % 4294967296 < 2147483648 then ((w % 4294967296 : Nat) : Int)
  else ((w % 4294967296 : Nat) : Int) - 4294967296

/-- 32-bit left shift. -/
def shl32 (a n : Nat) : DWORD := (a <<< n) % 4294967296

/-- 32-bit wrapping subtraction. -/
def sub32 (a b : Nat) : DWORD := (a % 4294967296 + 4294967296 - b % 4294967296) % 4294967296

/-- 32-bit wrapping addition. -/
def add32 (a b : Nat) : DWORD := (a + b) % 4294967296

/-! ## Constants of the source -/

def ID_PLUGINS_CMD : Int := 22000
def ID_PLUGINS_CMD_LIMIT_OLD : Int := 22499
def ID_PLUGINS_CMD_LIMIT_NEW : Int := 22999
def ID_PLUGINS_CMD_DYNAMIC : Int := 23000
def ID_PLUGINS_CMD_DYNAMIC_LIMIT : Int := 24999
def ID_CMD_CUSTOM : Int := 26000
def ID_CMD_CUSTOM_LIMIT : Int := 26099
def MAXSIZE : Nat := 300
def HASHFLAG : DWORD := 0x80000000

/-! ## Data model -/

/-- The Win32 `TBBUTTON` record. -/
structure TBBUTTON where
  iBitmap : Int
  idCommand : Int
  fsState : Nat
  fsStyle : Nat
  dwData : Nat
  iString : Int
  deriving DecidableEq, Repr

mutual
/-- One entry of a Win32 menu: a command item (`GetSubMenu` gives `NULL`) or an
item that opens a submenu. -/
inductive MenuItem where
  | command (id : DWORD) (text : List TCHAR)
  | popup (text : List TCHAR) (sub : Menu)
/-- A Win32 menu (`HMENU`): its items by position. -/
inductive Menu where
  | nil
  | cons (item : MenuItem) (rest : Menu)
end

/-- What the layout functions read but never change: the main menu, the string
pool of the toolbar control and the plugin command limit chosen at start-up. -/
structure Session where
  g_hMainMenu : Menu
  toolbarStrings : Nat → List TCHAR
  g_id_plugins_cmd_limit : Int

/-- The mutable state touched by the layout functions. `g_tbButtons` holds the
first `g_buttonsAvailable` entries of the array, `toolbar` the buttons of the
toolbar control, `datFile` the bytes of `CustomizeToolbar.dat`. -/
structure State where
  g_tbButtons : List TBBUTTON
  g_customButtonsState : Int
  g_wrapToolbarState : Int
  toolbar : List TBBUTTON
  datFile : List Nat

/-- Values of the locals of `restoreToolbarLayout` before their first
assignment (they are declared without initialiser). -/
structure Locals where
  i : Int
  buttonsOnToolbar : Int
  buttonsAvailable : Int
  dword : DWORD

/-! ## Win32 calls -/

/-- `lstrcpyn` into a buffer of `cchMax` units: at most `cchMax - 1` units are
copied, stopping at a terminator. -/
def copyString (text : List TCHAR) (cchMax : Nat) : List TCHAR :=
  (text.takeWhile (fun c => c != 0)).take (cchMax - 1)

/-- `TB_GETSTRING` with `MAKEWPARAM(cchMax, iString)`: the pool entry selected
by the low 16 bits of `iString`. -/
def TB_GETSTRING (env : Session) (cchMax : Nat) (iString : Int) : List TCHAR :=
  copyString (env.toolbarStrings (toDWORD iString % 65536)) cchMax

mutual
/-- The text of the first command item carrying `idCommand`, searching
submenus in position order (the lookup behind `MF_BYCOMMAND`). -/
def MenuItem.lookup (idCommand : DWORD) : MenuItem → Option (List TCHAR)
  | .command id text => if id = idCommand then some text else none
  | .popup _ sub => Menu.lookup idCommand sub
/-- The lookup of `MenuItem.lookup` over the items of one menu. -/
def Menu.lookup (idCommand : DWORD) : Menu → Option (List TCHAR)
  | .nil => none
  | .cons item rest =>
    match MenuItem.lookup idCommand item with
    | some text => some text
    | none => Menu.lookup idCommand rest
end

/-- `GetMenuString(hMenu, idCommand, buffer, cchMax, MF_BYCOMMAND)`: the buffer
afterwards; empty when no item carries the identifier. -/
def GetMenuString (hMenu : Menu) (idCommand : DWORD) (cchMax : Nat) : List TCHAR :=
  match Menu.lookup idCommand hMenu with
  | some text => copyString text cchMax
  | none => []

/-! ## Miscellaneous functions -/

/-- `stripMenuString`: the string left in the buffer. -/
def stripMenuString : List TCHAR → List TCHAR
  | [] => []
  | c :: cs =>
    if c = 0 then []
    else if c = 38 then stripMenuString cs
    else if c = 9 then []
    else c :: stripMenuString cs

/-! ## Hash functions -/

/-- The loop body `hash = ((hash << 5) - hash) + buffer[i]` on `DWORD`. -/
def hashStep (hash : DWORD) (c : TCHAR) : DWORD :=
  add32 (sub32 (shl32 hash 5) hash) c

/-- The loop `for (i = 0; buffer[i] != 0; i++) hash = ...`. -/
def hashLoop (hash : DWORD) : List TCHAR → DWORD
  | [] => hash
  | c :: cs => if c = 0 then hash else hashLoop (hashStep hash c) cs

/-- `calcButtonStringHash`. -/
def calcButtonStringHash (env : Session) (tbButton : TBBUTTON) : DWORD :=
  let hash := 0
  let buffer := TB_GETSTRING env MAXSIZE tbButton.iString
  let hash := hashLoop hash buffer
  hash ||| HASHFLAG

mutual
/-- The body of the loop of `findPluginParentMenuString` at a position whose
entry is `item`: the value returned there (`none` when the loop goes on to the
next position) and the buffer `lpString` afterwards. -/
def findPluginParentMenuItem (idCommand : DWORD) (maxCount : Nat) :
    MenuItem → List TCHAR → Option Int × List TCHAR
  | .command id _, lpString =>
    if id = idCommand then (some 1, lpString) else (none, lpString)
  | .popup text sub, lpString =>
    match findPluginParentMenuString sub idCommand lpString maxCount with
    | (result, lpString1) =>
      if result = 1 then (some 0, copyString text maxCount)
      else if result = 0 then (some result, lpString1)
      else (none, lpString1)
/-- `findPluginParentMenuString`: the returned value and the buffer `lpString`
afterwards. -/
def findPluginParentMenuString (hMenu : Menu) (idCommand : DWORD) (lpString : List TCHAR)
    (maxCount : Nat) : Int × List TCHAR :=
  match hMenu with
  | .nil => (-1, lpString)
  | .cons item rest =>
    match findPluginParentMenuItem idCommand maxCount item lpString with
    | (some result, lpString1) => (result, lpString1)
    | (none, lpString1) => findPluginParentMenuString rest idCommand lpString1 maxCount
end

/-- `calcPluginButtonMenuHash`. -/
def calcPluginButtonMenuHash (env : Session) (tbButton : TBBUTTON) : DWORD :=
  let hash := 0
  let buffer := GetMenuString env.g_hMainMenu (toDWORD tbButton.idCommand) MAXSIZE
  let buffer := stripMenuString buffer
  let hash := hashLoop hash buffer
  let buffer := (findPluginParentMenuString env.g_hMainMenu (toDWORD tbButton.idCommand)
    buffer MAXSIZE).2
  let buffer := stripMenuString buffer
  let hash := hashLoop hash buffer
  hash ||| HASHFLAG

/-! ## The `.dat` file -/

/-- The four bytes of a 32-bit value, least significant first. -/
def dwordBytes (w : DWORD) : List Nat :=
  [w % 256, w / 256 % 256, w / 65536 % 256, w / 16777216 % 256]

/-- `WriteFile(datFile, &v, 4, ...)`: the file contents afterwards. -/
def WriteFile (datFile : List Nat) (v : DWORD) : List Nat :=
  datFile ++ dwordBytes v

/-- `ReadFile(datFile, &v, 4, ...)` on the unread part of the file: the value
of `v` afterwards and the part still unread. Bytes that the file no longer
holds leave the corresponding bytes of `v` as they were. -/
def ReadFile (datFile : List Nat) (v : DWORD) : DWORD × List Nat :=
  match datFile with
  | b0 :: b1 :: b2 :: b3 :: rest =>
    (b0 % 256 + 256 * (b1 % 256) + 65536 * (b2 % 256) + 16777216 * (b3 % 256), rest)
  | [b0, b1, b2] =>
    (b0 % 256 + 256 * (b1 % 256) + 65536 * (b2 % 256) + 16777216 * (v / 16777216 % 256), [])
  | [b0, b1] => (b0 % 256 + 256 * (b1 % 256) + 65536 * (v / 65536 % 65536), [])
  | [b0] => (b0 % 256 + 256 * (v / 256 % 16777216), [])
  | [] => (v, [])

/-! ## Save -/

/-- The first loop of `saveToolbarLayout`, over the buttons `TB_GETBUTTON`
returns for positions `0 .. buttonsOnToolbar - 1`. -/
def saveOnToolbarLoop (env : Session) : List TBBUTTON → List Nat → List Nat
  | [], datFile => datFile
  | tbButton :: rest, datFile =>
    if tbButton.idCommand ≥ ID_PLUGINS_CMD ∧ tbButton.idCommand ≤ env.g_id_plugins_cmd_limit then
      saveOnToolbarLoop env rest (WriteFile datFile (calcPluginButtonMenuHash env tbButton))
    else if tbButton.idCommand ≥ ID_PLUGINS_CMD_DYNAMIC ∧
        tbButton.idCommand ≤ ID_PLUGINS_CMD_DYNAMIC_LIMIT then
      saveOnToolbarLoop env rest (WriteFile datFile (calcButtonStringHash env tbButton))
    else if tbButton.idCommand ≥ ID_CMD_CUSTOM ∧ tbButton.idCommand ≤ ID_CMD_CUSTOM_LIMIT then
      saveOnToolbarLoop env rest (WriteFile datFile (calcButtonStringHash env tbButton))
    else
      saveOnToolbarLoop env rest (WriteFile datFile (toDWORD tbButton.idCommand))

/-- The second loop of `saveToolbarLayout`, over `g_tbButtons[0 .. g_buttonsAvailable - 1]`. -/
def saveAvailableLoop (env : Session) : List TBBUTTON → List Nat → List Nat
  | [], datFile => datFile
  | b :: rest, datFile =>
    if b.idCommand ≥ ID_PLUGINS_CMD ∧ b.idCommand ≤ env.g_id_plugins_cmd_limit then
      saveAvailableLoop env rest (WriteFile datFile (calcPluginButtonMenuHash env b))
    else if b.idCommand ≥ ID_PLUGINS_CMD_DYNAMIC ∧ b.idCommand ≤ ID_PLUGINS_CMD_DYNAMIC_LIMIT then
      saveAvailableLoop env rest (WriteFile datFile (calcButtonStringHash env b))
    else if b.idCommand ≥ ID_CMD_CUSTOM ∧ b.idCommand ≤ ID_CMD_CUSTOM_LIMIT then
      saveAvailableLoop env rest (WriteFile datFile (calcButtonStringHash env b))
    else
      saveAvailableLoop env rest (WriteFile datFile (toDWORD b.idCommand))

/-- `saveToolbarLayout`: the `.dat` file is created afresh (`CREATE_ALWAYS`) and
written; nothing else changes. -/
def saveToolbarLayout (env : Session) (s : State) : State :=
  let datFile : List Nat := []
  let datFile := WriteFile datFile (toDWORD s.g_customButtonsState)
  let datFile := WriteFile datFile (toDWORD s.g_wrapToolbarState)
  let buttonsOnToolbar : Int := s.toolbar.length
  let datFile := WriteFile datFile (toDWORD buttonsOnToolbar)
  let g_buttonsAvailable : Int := s.g_tbButtons.length
  let datFile := WriteFile datFile (toDWORD g_buttonsAvailable)
  let datFile := saveOnToolbarLoop env s.toolbar datFile
  let datFile := saveAvailableLoop env s.g_tbButtons datFile
  { s with datFile := datFile }

/-! ## Restore -/

/-- The inner loop of the on-toolbar pass for an entry with `HASHFLAG`: the
toolbar after `TB_ADDBUTTONS` of the first button whose hash equals `dword`. -/
def restoreAddHashed (env : Session) (dword : DWORD) :
    List TBBUTTON → List TBBUTTON → List TBBUTTON
  | [], toolbar => toolbar
  | b :: rest, toolbar =>
    if b.idCommand ≥ ID_PLUGINS_CMD ∧ b.idCommand ≤ env.g_id_plugins_cmd_limit then
      if dword = calcPluginButtonMenuHash env b then toolbar ++ [b]
      else restoreAddHashed env dword rest toolbar
    else if b.idCommand ≥ ID_PLUGINS_CMD_DYNAMIC ∧ b.idCommand ≤ ID_PLUGINS_CMD_DYNAMIC_LIMIT then
      if dword = calcButtonStringHash env b then toolbar ++ [b]
      else restoreAddHashed env dword rest toolbar
    else if b.idCommand ≥ ID_CMD_CUSTOM ∧ b.idCommand ≤ ID_CMD_CUSTOM_LIMIT then
      if dword = calcButtonStringHash env b then toolbar ++ [b]
      else restoreAddHashed env dword rest toolbar
    else restoreAddHashed env dword rest toolbar

/-- The inner loop of the on-toolbar pass for an entry without `HASHFLAG`. -/
def restoreAddRaw (dword : DWORD) : List TBBUTTON → List TBBUTTON → List TBBUTTON
  | [], toolbar => toolbar
  | b :: rest, toolbar =>
    if dword = toDWORD b.idCommand then toolbar ++ [b]
    else restoreAddRaw dword rest toolbar

/-- The on-toolbar pass `for (i = 0; i < buttonsOnToolbar; i++)`, with the
number of iterations still to run: the unread file, `dword` and the toolbar
afterwards. -/
def restoreOnToolbarLoop (env : Session) (g_tbButtons : List TBBUTTON) :
    Nat → List Nat → DWORD → List TBBUTTON → List Nat × DWORD × List TBBUTTON
  | 0, datFile, dword, toolbar => (datFile, dword, toolbar)
  | n + 1, datFile, dword, toolbar =>
    match ReadFile datFile dword with
    | (dword, datFile) =>
      if dword &&& HASHFLAG ≠ 0 then
        restoreOnToolbarLoop env g_tbButtons n datFile dword
          (restoreAddHashed env dword g_tbButtons toolbar)
      else
        restoreOnToolbarLoop env g_tbButtons n datFile dword
          (restoreAddRaw dword g_tbButtons toolbar)

/-- The inner loop of the available pass for an entry with `HASHFLAG`:
`g_tbButtons` after `dwData = 0` on the first button whose hash equals `dword`. -/
def restoreMarkHashed (env : Session) (dword : DWORD) : List TBBUTTON → List TBBUTTON
  | [] => []
  | b :: rest =>
    if b.idCommand ≥ ID_PLUGINS_CMD ∧ b.idCommand ≤ env.g_id_plugins_cmd_limit then
      if dword = calcPluginButtonMenuHash env b then { b with dwData := 0 } :: rest
      else b :: restoreMarkHashed env dword rest
    else if b.idCommand ≥ ID_PLUGINS_CMD_DYNAMIC ∧ b.idCommand ≤ ID_PLUGINS_CMD_DYNAMIC_LIMIT then
      if dword = calcButtonStringHash env b then { b with dwData := 0 } :: rest
      else b :: restoreMarkHashed env dword rest
    else if b.idCommand ≥ ID_CMD_CUSTOM ∧ b.idCommand ≤ ID_CMD_CUSTOM_LIMIT then
      if dword = calcButtonStringHash env b then { b with dwData := 0 } :: rest
      else b :: restoreMarkHashed env dword rest
    else b :: restoreMarkHashed env dword rest

/-- The inner loop of the available pass for an entry without `HASHFLAG`
(it has no `break`). -/
def restoreMarkRaw (dword : DWORD) : List TBBUTTON → List TBBUTTON
  | [] => []
  | b :: rest =>
    if dword = toDWORD b.idCommand then { b with dwData := 0 } :: restoreMarkRaw dword rest
    else b :: restoreMarkRaw dword rest

/-- The available pass `for (i = 0; i < buttonsAvailable; i++)`: the unread
file, `dword` and `g_tbButtons` afterwards. -/
def restoreAvailableLoop (env : Session) :
    Nat → List Nat → DWORD → List TBBUTTON → List Nat × DWORD × List TBBUTTON
  | 0, datFile, dword, g_tbButtons => (datFile, dword, g_tbButtons)
  | n + 1, datFile, dword, g_tbButtons =>
    match ReadFile datFile dword with
    | (dword, datFile) =>
      if dword &&& HASHFLAG ≠ 0 then
        restoreAvailableLoop env n datFile dword (restoreMarkHashed env dword g_tbButtons)
      else
        restoreAvailableLoop env n datFile dword (restoreMarkRaw dword g_tbButtons)

/-- The last loop of `restoreToolbarLayout`: every button still marked
`dwData == 1` gets `dwData = 0` and is added to the toolbar. The result is
`g_tbButtons` and the toolbar afterwards. -/
def restoreAddNew : List TBBUTTON → List TBBUTTON → List TBBUTTON × List TBBUTTON
  | [], toolbar => ([], toolbar)
  | b :: rest, toolbar =>
    if b.dwData = 1 then
      match restoreAddNew rest (toolbar ++ [{ b with dwData := 0 }]) with
      | (rest1, toolbar1) => ({ b with dwData := 0 } :: rest1, toolbar1)
    else
      match restoreAddNew rest toolbar with
      | (rest1, toolbar1) => (b :: rest1, toolbar1)

/-- `restoreToolbarLayout(menuStates)`. `u` gives the values the locals hold
before their first assignment; a missing file reads as the empty file. -/
def restoreToolbarLayout (env : Session) (menuStates : Bool) (u : Locals) (s : State) : State :=
  match ReadFile s.datFile (toDWORD u.i) with
  | (w1, datFile1) =>
    let i := toInt w1
    let g_customButtonsState := if menuStates then i else s.g_customButtonsState
    match ReadFile datFile1 (toDWORD i) with
    | (w2, datFile2) =>
      let i := toInt w2
      let g_wrapToolbarState := if menuStates then i else s.g_wrapToolbarState
      let toolbar : List TBBUTTON := []
      match ReadFile datFile2 (toDWORD u.buttonsOnToolbar) with
      | (w3, datFile3) =>
        let buttonsOnToolbar := toInt w3
        match ReadFile datFile3 (toDWORD u.buttonsAvailable) with
        | (w4, datFile4) =>
          let buttonsAvailable := toInt w4
          match restoreOnToolbarLoop env s.g_tbButtons buttonsOnToolbar.toNat datFile4
              u.dword toolbar with
          | (datFile5, dword, toolbar) =>
            let g_tbButtons := s.g_tbButtons.map (fun b => { b with dwData := 1 })
            match restoreAvailableLoop env buttonsAvailable.toNat datFile5 dword
                g_tbButtons with
            | (_, _, g_tbButtons) =>
              match restoreAddNew g_tbButtons toolbar with
              | (g_tbButtons, toolbar) =>
                { g_tbButtons := g_tbButtons
                  g_customButtonsState := g_customButtonsState
                  g_wrapToolbarState := g_wrapToolbarState
                  toolbar := toolbar
                  datFile := s.datFile }

/-! ## Notions used in the statements -/

/-- The C string a buffer holds: the units before the first terminator. -/
def cString (buffer : List TCHAR) : List TCHAR :=
  buffer.takeWhile (fun c => c != 0)

/-- The polynomial `h := h * 31 + charCode` folded from `h = 0` over a string,
in unbounded arithmetic. -/
def polyHash (s : List TCHAR) : Nat :=
  s.foldl (fun h c => h * 31 + c) 0

/-- The single-string hash: what `calcButtonStringHash` computes from the
buffer that `TB_GETSTRING` has filled. -/
def stringHash (buffer : List TCHAR) : DWORD :=
  hashLoop 0 buffer ||| HASHFLAG

/-- The command id lies in the range of plugin commands with a menu item. -/
def inMenuRange (env : Session) (c : Int) : Prop :=
  22000 ≤ c ∧ c ≤ env.g_id_plugins_cmd_limit

instance (env : Session) (c : Int) : Decidable (inMenuRange env c) := by
  unfold inMenuRange; infer_instance

/-- The command id lies in the range of plugin commands without menu item or
in the range of custom commands. -/
def inStringRange (c : Int) : Prop :=
  (23000 ≤ c ∧ c ≤ 24999) ∨ (26000 ≤ c ∧ c ≤ 26099)

instance (c : Int) : Decidable (inStringRange c) := by
  unfold inStringRange; infer_instance

/-- The identity of a button as the specification resolves it: the menu hash in
the menu range, the button-string hash in the two other hashed ranges, the raw
command id elsewhere. -/
def resolvedIdentity (env : Session) (b : TBBUTTON) : DWORD :=
  if inMenuRange env b.idCommand then calcPluginButtonMenuHash env b
  else if inStringRange b.idCommand then calcButtonStringHash env b
  else toDWORD b.idCommand

/-- The command id lies in one of the three hashed ranges. -/
def inHashedRange (env : Session) (c : Int) : Prop :=
  inMenuRange env c ∨ inStringRange c

instance (env : Session) (c : Int) : Decidable (inHashedRange env c) := by
  unfold inHashedRange; infer_instance

/-- The test `restoreToolbarLayout` applies, in both passes, between the saved
entry `dword` and the button `b` of `g_tbButtons`. -/
def restoreMatches (env : Session) (dword : DWORD) (b : TBBUTTON) : Bool :=
  if dword &&& HASHFLAG ≠ 0 then
    if b.idCommand ≥ ID_PLUGINS_CMD ∧ b.idCommand ≤ env.g_id_plugins_cmd_limit then
      decide (dword = calcPluginButtonMenuHash env b)
    else if b.idCommand ≥ ID_PLUGINS_CMD_DYNAMIC ∧ b.idCommand ≤ ID_PLUGINS_CMD_DYNAMIC_LIMIT then
      decide (dword = calcButtonStringHash env b)
    else if b.idCommand ≥ ID_CMD_CUSTOM ∧ b.idCommand ≤ ID_CMD_CUSTOM_LIMIT then
      decide (dword = calcButtonStringHash env b)
    else false
  else decide (dword = toDWORD b.idCommand)

/-- The bytes of a record in the layout of versions 3.0-5.3 (header comment of
the source): two states, two counts, the on-toolbar entries, the available
entries. -/
def datRecord (custom wrap : DWORD) (onToolbar available : List DWORD) : List Nat :=
  ([custom, wrap, toDWORD onToolbar.length, toDWORD available.length]
    ++ onToolbar ++ available).flatMap dwordBytes

/-- The counts of a record fit an `int` and its entries are 32-bit values. -/
def ValidRecord (onToolbar available : List DWORD) : Prop :=
  onToolbar.length < 2147483648 ∧ available.length < 2147483648 ∧
    (∀ e ∈ onToolbar, e < 4294967296) ∧ (∀ e ∈ available, e < 4294967296)

/-- The copy of a button that the last loop of `restoreToolbarLayout` adds. -/
def clearData (b : TBBUTTON) : TBBUTTON := { b with dwData := 0 }

/-- For each saved on-toolbar entry, in saved order, the first button of
`g_tbButtons` that matches it, nothing when none matches. -/
def onToolbarPart (env : Session) (onToolbar : List DWORD) (g_tbButtons : List TBBUTTON) :
    List TBBUTTON :=
  onToolbar.flatMap (fun e => (g_tbButtons.find? (restoreMatches env e)).toList)

/-- In start-up order, the buttons of `g_tbButtons` that no saved available
entry matches. -/
def unmatchedPart (env : Session) (available : List DWORD) (g_tbButtons : List TBBUTTON) :
    List TBBUTTON :=
  (g_tbButtons.filter (fun b => !available.any (fun e => restoreMatches env e b))).map clearData

/-- The toolbar contents the specification states for a restore. -/
def claimedToolbar (env : Session) (onToolbar available : List DWORD)
    (g_tbButtons : List TBBUTTON) : List TBBUTTON :=
  onToolbarPart env onToolbar g_tbButtons ++ unmatchedPart env available g_tbButtons

/-- The marks the available pass leaves: its inner loops run for each saved
available entry in turn. -/
def availableMarks (env : Session) (available : List DWORD) (g_tbButtons : List TBBUTTON) :
    List TBBUTTON :=
  available.foldl (fun l e =>
    if e &&& HASHFLAG ≠ 0 then restoreMarkHashed env e l else restoreMarkRaw e l) g_tbButtons

/-- Two buttons that both lie in hashed ranges resolve to different hashes. -/
def distinctHashes (env : Session) (b1 b2 : TBBUTTON) : Prop :=
  inHashedRange env b1.idCommand → inHashedRange env b2.idCommand →
    resolvedIdentity env b1 ≠ resolvedIdentity env b2

instance (env : Session) (b1 b2 : TBBUTTON) : Decidable (distinctHashes env b1 b2) := by
  unfold distinctHashes; infer_instance

/-- The final marks when hashes are pairwise distinct: a button is unmarked
exactly when some saved available entry matches it. -/
def markAll (env : Session) (available : List DWORD) (b : TBBUTTON) : TBBUTTON :=
  if available.any (fun e => restoreMatches env e b) then clearData b else b

instance (onToolbar available : List DWORD) : Decidable (ValidRecord onToolbar available) := by
  unfold ValidRecord; infer_instance

/-- The values that the `n` calls of `ReadFile` of one pass of
`restoreToolbarLayout` deliver, with the unread file and `dword` afterwards. -/
def readEntries : Nat → List Nat → DWORD → List DWORD × List Nat × DWORD
  | 0, datFile, dword => ([], datFile, dword)
  | n + 1, datFile, dword =>
    match ReadFile datFile dword with
    | (dword, datFile) =>
      match readEntries n datFile dword with
      | (entries, datFile, last) => (dword :: entries, datFile, last)

/-- Everything `restoreToolbarLayout` reads from the file, in its field order:
the two states, the two counts, the on-toolbar entries, the available entries. -/
def readRecord (u : Locals) (datFile : List Nat) :
    Int × Int × Int × Int × List DWORD × List DWORD :=
  match ReadFile datFile (toDWORD u.i) with
  | (w1, datFile1) =>
    match ReadFile datFile1 (toDWORD (toInt w1)) with
    | (w2, datFile2) =>
      match ReadFile datFile2 (toDWORD u.buttonsOnToolbar) with
      | (w3, datFile3) =>
        match ReadFile datFile3 (toDWORD u.buttonsAvailable) with
        | (w4, datFile4) =>
          match readEntries (toInt w3).toNat datFile4 u.dword with
          | (onToolbar, datFile5, dword) =>
            match readEntries (toInt w4).toNat datFile5 dword with
            | (available, _, _) => (toInt w1, toInt w2, toInt w3, toInt w4, onToolbar, available)

/-- The value lies in the range of a 32-bit `int`. -/
def IsInt32 (x : Int) : Prop := -2147483648 ≤ x ∧ x < 2147483648

instance (x : Int) : Decidable (IsInt32 x) := by
  unfold IsInt32; infer_instance

/-- The menu label of a button as `calcPluginButtonMenuHash` resolves it. -/
def resolvedMenuLabel (env : Session) (b : TBBUTTON) : List TCHAR :=
  stripMenuString (GetMenuString env.g_hMainMenu (toDWORD b.idCommand) MAXSIZE)

/-- The parent-menu label of a button: the stripped string that
`findPluginParentMenuString` writes, `none` when it writes nothing. -/
def resolvedParentMenuLabel (env : Session) (b : TBBUTTON) : Option (List TCHAR) :=
  if (findPluginParentMenuString env.g_hMainMenu (toDWORD b.idCommand) [] MAXSIZE).1 = 0 then
    some (stripMenuString
      (findPluginParentMenuString env.g_hMainMenu (toDWORD b.idCommand) [] MAXSIZE).2)
  else none

/-! ## Concrete inputs -/

/-- A session with the menu `P > C > "S&e<tab>F"` (command 22001) next to the
top-level command 41001, and a toolbar string pool whose entry 1 is the single
unit 555 and whose entry 2 is `AB`. -/
def exampleSession : Session :=
  { g_hMainMenu :=
      .cons (.popup [80] (.cons (.popup [67] (.cons (.command 22001 [83, 38, 101, 9, 70]) .nil))
        .nil)) (.cons (.command 41001 [78]) .nil)
    toolbarStrings := fun i => if i = 1 then [555] else if i = 2 then [65, 66] else []
    g_id_plugins_cmd_limit := 22999 }

/-- A button with the given command id and string index, `dwData = 0`. -/
def exampleButton (idCommand iString : Int) : TBBUTTON :=
  { iBitmap := 0, idCommand := idCommand, fsState := 4, fsStyle := 0, dwData := 0,
    iString := iString }

/-- Locals that start at zero. -/
def zeroLocals : Locals := { i := 0, buttonsOnToolbar := 0, buttonsAvailable := 0, dword := 0 }

/-- The buttons of the scenario: built-in 100 and 200, a plugin button without
menu item whose string hashes to `HASHFLAG|555`, built-in 300. -/
def scenarioButtons : List TBBUTTON :=
  [exampleButton 100 0, exampleButton 200 0, exampleButton 23000 1, exampleButton 300 0]

/-- The state of the scenario: the saved record has custom 1, wrap 0,
on-toolbar `[100, HASHFLAG|555]`, available `[100, 200, HASHFLAG|555]`. -/
def scenarioState : State :=
  { g_tbButtons := scenarioButtons
    g_customButtonsState := 0
    g_wrapToolbarState := 0
    toolbar := []
    datFile := datRecord 1 0 [100, 2147484203] [100, 200, 2147484203] }

/-- Two plugin buttons without menu item that show the same string. -/
def twinButtons : List TBBUTTON := [exampleButton 23000 1, exampleButton 23001 1]

/-- The twin buttons after both were taken off the toolbar and the layout was
saved: the record lists their common hash twice as available and nothing on
the toolbar. -/
def twinState : State :=
  saveToolbarLayout exampleSession
    { g_tbButtons := twinButtons
      g_customButtonsState := 1
      g_wrapToolbarState := 0
      toolbar := []
      datFile := [] }

/-- A session with the plugin limit 22499 whose menu `P > C > "X"` carries the
command id 22600. -/
def legacySession : Session :=
  { g_hMainMenu := .cons (.popup [80] (.cons (.popup [67] (.cons (.command 22600 [88]) .nil))
      .nil)) .nil
    toolbarStrings := fun _ => []
    g_id_plugins_cmd_limit := 22499 }

/-- The session of `legacySession` with the plugin limit 22999. -/
def upgradedSession : Session :=
  { legacySession with g_id_plugins_cmd_limit := 22999 }

/-- The button 22600, off the toolbar, with the layout saved under the limit
22499: the record lists the raw command id 22600 as available. -/
def legacyState : State :=
  saveToolbarLayout legacySession
    { g_tbButtons := [exampleButton 22600 0]
      g_customButtonsState := 0
      g_wrapToolbarState := 0
      toolbar := []
      datFile := [] }

/-- A state to save: three buttons on the toolbar out of the four available. -/
def saveState : State :=
  { g_tbButtons := scenarioButtons
    g_customButtonsState := 1
    g_wrapToolbarState := 0
    toolbar := [exampleButton 100 0, exampleButton 23000 1, exampleButton 300 0]
    datFile := [] }

/-- A second session in which the same menu entry `P > C > "Se"` carries the
command id 22007. -/
def otherSession : Session :=
  { g_hMainMenu :=
      .cons (.command 41001 [78]) (.cons (.popup [80] (.cons (.popup [67]
        (.cons (.command 22007 [83, 101]) .nil)) .nil)) .nil)
    toolbarStrings := fun _ => []
    g_id_plugins_cmd_limit := 22499 }

/-! ## Reset, menu commands and additional buttons -/

/-- The command identifiers of the Notepad++ header `menuCmdID.h` that the
plugin refers to. The header is not among the sources, so its values are
parameters. -/
structure MenuCmdID where
  IDM_EDIT : Int
  IDM_SEARCH : Int
  IDM_FILE_CLOSEALL_BUT_CURRENT : Int
  IDM_EDIT_DELETE : Int
  IDM_EDIT_RMV_TAB : Int
  IDM_EDIT_INS_TAB : Int
  IDM_EDIT_DUP_LINE : Int
  IDM_EDIT_BLOCK_COMMENT_SET : Int
  IDM_EDIT_BLOCK_UNCOMMENT : Int
  IDM_EDIT_AUTOCOMPLETE_CURRENTFILE : Int
  IDM_EDIT_TRIMTRAILING : Int
  IDM_SEARCH_FINDINFILES : Int
  IDM_SEARCH_FINDPREV : Int
  IDM_SEARCH_FINDNEXT : Int
  IDM_SEARCH_FINDINCREMENT : Int
  IDM_SEARCH_GOTOLINE : Int
  IDM_SEARCH_PREV_BOOKMARK : Int
  IDM_SEARCH_NEXT_BOOKMARK : Int
  IDM_SEARCH_CLEAR_BOOKMARKS : Int
  IDM_VIEW_ZOOMRESTORE : Int
  IDM_VIEW_GOTO_ANOTHER_VIEW : Int
  IDM_VIEW_CLONE_TO_ANOTHER_VIEW : Int
  IDM_VIEW_HIDELINES : Int
  IDM_VIEW_TOGGLE_FOLDALL : Int
  IDM_VIEW_TOGGLE_UNFOLDALL : Int

/-- `#define IDM_EDIT_TAB2SW (IDM_EDIT + 46)`. -/
def IDM_EDIT_TAB2SW (ids : MenuCmdID) : Int := ids.IDM_EDIT + 46

/-- `#define IDM_EDIT_SW2TAB_ALL (IDM_EDIT + 54)`. -/
def IDM_EDIT_SW2TAB_ALL (ids : MenuCmdID) : Int := ids.IDM_EDIT + 54

/-- `#define IDM_FOCUS_ON_FOUND_RESULTS (IDM_SEARCH + 45)`. -/
def IDM_FOCUS_ON_FOUND_RESULTS (ids : MenuCmdID) : Int := ids.IDM_SEARCH + 45

/-- `addAdditionalButton`: Notepad++ is asked to add a toolbar button for the
command `idCmd`; the result is the list of commands registered so far. -/
def addAdditionalButton (registered : List Int) (idCmd : Int) : List Int :=
  registered ++ [idCmd]

/-- The first part of `addToolbarButtons`: the additional buttons and the
Customize Toolbar button, whose command is `funcItem[0]._cmdID`. -/
def addToolbarButtons_additional (ids : MenuCmdID) (funcItem0_cmdID : Int)
    (registered : List Int) : List Int :=
  let registered := addAdditionalButton registered ids.IDM_FILE_CLOSEALL_BUT_CURRENT
  let registered := addAdditionalButton registered ids.IDM_EDIT_DELETE
  let registered := addAdditionalButton registered ids.IDM_EDIT_RMV_TAB
  let registered := addAdditionalButton registered ids.IDM_EDIT_INS_TAB
  let registered := addAdditionalButton registered ids.IDM_EDIT_DUP_LINE
  let registered := addAdditionalButton registered ids.IDM_EDIT_BLOCK_COMMENT_SET
  let registered := addAdditionalButton registered ids.IDM_EDIT_BLOCK_UNCOMMENT
  let registered := addAdditionalButton registered ids.IDM_EDIT_AUTOCOMPLETE_CURRENTFILE
  let registered := addAdditionalButton registered ids.IDM_EDIT_TRIMTRAILING
  let registered := addAdditionalButton registered (IDM_EDIT_TAB2SW ids)
  let registered := addAdditionalButton registered (IDM_EDIT_SW2TAB_ALL ids)
  let registered := addAdditionalButton registered ids.IDM_SEARCH_FINDINFILES
  let registered := addAdditionalButton registered ids.IDM_SEARCH_FINDPREV
  let registered := addAdditionalButton registered ids.IDM_SEARCH_FINDNEXT
  let registered := addAdditionalButton registered ids.IDM_SEARCH_FINDINCREMENT
  let registered := addAdditionalButton registered (IDM_FOCUS_ON_FOUND_RESULTS ids)
  let registered := addAdditionalButton registered ids.IDM_SEARCH_GOTOLINE
  let registered := addAdditionalButton registered ids.IDM_SEARCH_PREV_BOOKMARK
  let registered := addAdditionalButton registered ids.IDM_SEARCH_NEXT_BOOKMARK
  let registered := addAdditionalButton registered ids.IDM_SEARCH_CLEAR_BOOKMARKS
  let registered := addAdditionalButton registered ids.IDM_VIEW_ZOOMRESTORE
  let registered := addAdditionalButton registered ids.IDM_VIEW_GOTO_ANOTHER_VIEW
  let registered := addAdditionalButton registered ids.IDM_VIEW_CLONE_TO_ANOTHER_VIEW
  let registered := addAdditionalButton registered ids.IDM_VIEW_HIDELINES
  let registered := addAdditionalButton registered ids.IDM_VIEW_TOGGLE_FOLDALL
  let registered := addAdditionalButton registered ids.IDM_VIEW_TOGGLE_UNFOLDALL
  addAdditionalButton registered funcItem0_cmdID

/-- The loop `for (i = 0; i < g_buttonsAvailable; i++)` of `resetToolbarLayout`. -/
def resetToolbarLoop (ids : MenuCmdID) : List TBBUTTON → List TBBUTTON → List TBBUTTON
  | [], toolbar => toolbar
  | b :: rest, toolbar =>
    let idCmd := b.idCommand
    if idCmd = ids.IDM_FILE_CLOSEALL_BUT_CURRENT ∨
        idCmd = ids.IDM_EDIT_DELETE ∨ idCmd = ids.IDM_EDIT_RMV_TAB ∨ idCmd = ids.IDM_EDIT_INS_TAB ∨ idCmd = ids.IDM_EDIT_DUP_LINE ∨
        idCmd = ids.IDM_EDIT_BLOCK_COMMENT_SET ∨ idCmd = ids.IDM_EDIT_BLOCK_UNCOMMENT ∨ idCmd = ids.IDM_EDIT_AUTOCOMPLETE_CURRENTFILE ∨
        idCmd = ids.IDM_EDIT_TRIMTRAILING ∨ idCmd = IDM_EDIT_TAB2SW ids ∨ idCmd = IDM_EDIT_SW2TAB_ALL ids ∨
        idCmd = ids.IDM_SEARCH_FINDINFILES ∨ idCmd = ids.IDM_SEARCH_FINDPREV ∨ idCmd = ids.IDM_SEARCH_FINDNEXT ∨
        idCmd = ids.IDM_SEARCH_FINDINCREMENT ∨ idCmd = IDM_FOCUS_ON_FOUND_RESULTS ids ∨ idCmd = ids.IDM_SEARCH_GOTOLINE ∨
        idCmd = ids.IDM_SEARCH_PREV_BOOKMARK ∨ idCmd = ids.IDM_SEARCH_NEXT_BOOKMARK ∨ idCmd = ids.IDM_SEARCH_CLEAR_BOOKMARKS ∨
        idCmd = ids.IDM_VIEW_ZOOMRESTORE ∨ idCmd = ids.IDM_VIEW_GOTO_ANOTHER_VIEW ∨ idCmd = ids.IDM_VIEW_CLONE_TO_ANOTHER_VIEW ∨
        idCmd = ids.IDM_VIEW_HIDELINES ∨ idCmd = ids.IDM_VIEW_TOGGLE_FOLDALL ∨ idCmd = ids.IDM_VIEW_TOGGLE_UNFOLDALL then
      resetToolbarLoop ids rest toolbar
    else resetToolbarLoop ids rest (toolbar ++ [b])

/-- `resetToolbarLayout`: all buttons are removed from the toolbar, then the
preserved buttons are added. -/
def resetToolbarLayout (ids : MenuCmdID) (s : State) : State :=
  { s with toolbar := resetToolbarLoop ids s.g_tbButtons [] }

/-- `wrapToolbar`: the state is complemented, the toolbar style is switched
(no button changes), and the layout is saved. -/
def wrapToolbar (env : Session) (s : State) : State :=
  saveToolbarLayout env { s with g_wrapToolbarState := ~~~ s.g_wrapToolbarState }

/-- `customButtons`: the state is assigned to itself, the `.btn` file is
created when the state is non-zero and the file is missing (not modelled), and
the layout is saved. -/
def customButtons (env : Session) (s : State) : State :=
  saveToolbarLayout env { s with g_customButtonsState := s.g_customButtonsState }

/-! ## Further notions used in the statements -/

/-- The buttons the last loop of `restoreToolbarLayout` adds after the
available pass has run over the given entries: those still marked
`dwData == 1`, with the mark cleared. -/
def newButtonsPart (env : Session) (available : List DWORD) (g_tbButtons : List TBBUTTON) :
    List TBBUTTON :=
  ((availableMarks env available (g_tbButtons.map (fun b => { b with dwData := 1 }))).filter
    (fun b => decide (b.dwData = 1))).map clearData

/-- The bytes of the four header words followed by the given entries. -/
def datWords (custom wrap nOnToolbar nAvailable : DWORD) (entries : List DWORD) : List Nat :=
  ([custom, wrap, nOnToolbar, nAvailable] ++ entries).flatMap dwordBytes

/-! ## Further concrete inputs -/

/-- Values for the constants of `menuCmdID.h`, for the examples. -/
def exampleIds : MenuCmdID :=
  { IDM_EDIT := 42000, IDM_SEARCH := 43000
    IDM_FILE_CLOSEALL_BUT_CURRENT := 41000
    IDM_EDIT_DELETE := 41100
    IDM_EDIT_RMV_TAB := 41200
    IDM_EDIT_INS_TAB := 41300
    IDM_EDIT_DUP_LINE := 41400
    IDM_EDIT_BLOCK_COMMENT_SET := 41500
    IDM_EDIT_BLOCK_UNCOMMENT := 41600
    IDM_EDIT_AUTOCOMPLETE_CURRENTFILE := 41700
    IDM_EDIT_TRIMTRAILING := 41800
    IDM_SEARCH_FINDINFILES := 41900
    IDM_SEARCH_FINDPREV := 42000
    IDM_SEARCH_FINDNEXT := 42100
    IDM_SEARCH_FINDINCREMENT := 42200
    IDM_SEARCH_GOTOLINE := 42300
    IDM_SEARCH_PREV_BOOKMARK := 42400
    IDM_SEARCH_NEXT_BOOKMARK := 42500
    IDM_SEARCH_CLEAR_BOOKMARKS := 42600
    IDM_VIEW_ZOOMRESTORE := 42700
    IDM_VIEW_GOTO_ANOTHER_VIEW := 42800
    IDM_VIEW_CLONE_TO_ANOTHER_VIEW := 42900
    IDM_VIEW_HIDELINES := 43000
    IDM_VIEW_TOGGLE_FOLDALL := 43100
    IDM_VIEW_TOGGLE_UNFOLDALL := 43200 }

/-- One button with command id 100 and a buffer that announces four on-toolbar
entries and no available entry but holds a single entry, 100. -/
def truncatedState : State :=
  { g_tbButtons := [exampleButton 100 0]
    g_customButtonsState := 0
    g_wrapToolbarState := 0
    toolbar := []
    datFile := datWords 1 0 4 0 [100] }

/-- One button with command id 100 and a buffer that announces `2^31 - 1`
on-toolbar entries and one available entry but holds a single entry, 100. -/
def maxCountState : State :=
  { g_tbButtons := [exampleButton 100 0]
    g_customButtonsState := 0
    g_wrapToolbarState := 0
    toolbar := []
    datFile := datWords 1 0 2147483647 1 [100] }

/-- The scenario buttons with a record whose on-toolbar count is -1 and whose
available list is `[100, 200]`. -/
def negativeCountState : State :=
  { g_tbButtons := scenarioButtons
    g_customButtonsState := 0
    g_wrapToolbarState := 0
    toolbar := []
    datFile := datWords 1 0 4294967295 2 [100, 200] }

/-- The scenario buttons with a record whose on-toolbar list repeats 100. -/
def repeatState : State :=
  { g_tbButtons := scenarioButtons
    g_customButtonsState := 0
    g_wrapToolbarState := 0
    toolbar := []
    datFile := datRecord 1 0 [100, 100] [100, 200, 2147484203, 300] }

/-- Two separators (command id 0) among two built-in buttons. -/
def separatorButtons : List TBBUTTON :=
  [exampleButton 0 5, exampleButton 100 0, exampleButton 0 6, exampleButton 200 0]

/-- The separator buttons with a record that has three separators on the
toolbar. -/
def separatorState : State :=
  { g_tbButtons := separatorButtons
    g_customButtonsState := 0
    g_wrapToolbarState := 0
    toolbar := []
    datFile := datRecord 1 0 [0, 100, 0, 0] [0, 100, 200] }

/-- The plugin button 22001 with a record whose two lists hold the raw value
22001. -/
def rawEntryState : State :=
  { g_tbButtons := [exampleButton 22001 0]
    g_customButtonsState := 0
    g_wrapToolbarState := 0
    toolbar := []
    datFile := datRecord 1 0 [22001] [22001] }

/-- The state after `addMenuCommands` found no `.dat` file: both states 0. -/
def initialState : State :=
  { g_tbButtons := scenarioButtons
    g_customButtonsState := 0
    g_wrapToolbarState := 0
    toolbar := scenarioButtons
    datFile := [] }

/-- The scenario state with buttons that carry a non-zero `dwData`. -/
def markedState : State :=
  { scenarioState with
    g_tbButtons := scenarioButtons.map (fun b => { b with dwData := 7 }) }

/-! ## Custom button functions -/

/-- The text `GetMenuString(..., MF_BYPOSITION)` copies for an entry. -/
def MenuItem.text : MenuItem → List TCHAR
  | .command _ text => text
  | .popup text _ => text

/-- `lstrcmp(a, b)`: zero exactly when the two buffers hold the same string;
the sign of a non-zero result is not modelled. -/
def lstrcmp (a b : List TCHAR) : Int :=
  if cString a = cString b then 0 else 1

/-- The innermost loop of `findCmdIDForMenuStrings`, over the entries of
`hMenu3`: the value returned inside the loop, `none` when the loop ends. -/
def findCmdIDLoop3 (menuString3 : List TCHAR) : Menu → Option Int
  | .nil => none
  | .cons item rest =>
    let buffer := stripMenuString (copyString item.text MAXSIZE)
    if lstrcmp menuString3 buffer = 0 ∧ buffer.headD 0 ≠ 0 then
      match item with
      | .command id _ => some (toInt id)
      | .popup _ _ => findCmdIDLoop3 menuString3 rest
    else findCmdIDLoop3 menuString3 rest

/-- The loop of `findCmdIDForMenuStrings` over the entries of `hMenu2`. -/
def findCmdIDLoop2 (menuString2 menuString3 : List TCHAR) : Menu → Option Int
  | .nil => none
  | .cons item rest =>
    let buffer := stripMenuString (copyString item.text MAXSIZE)
    if lstrcmp menuString2 buffer = 0 ∧ buffer.headD 0 ≠ 0 then
      match item with
      | .command id _ => some (toInt id)
      | .popup _ hMenu3 =>
        match findCmdIDLoop3 menuString3 hMenu3 with
        | some result => some result
        | none => findCmdIDLoop2 menuString2 menuString3 rest
    else findCmdIDLoop2 menuString2 menuString3 rest

/-- The loop of `findCmdIDForMenuStrings` over the entries of `hMenu1`. -/
def findCmdIDLoop1 (menuString1 menuString2 menuString3 : List TCHAR) : Menu → Option Int
  | .nil => none
  | .cons item rest =>
    let buffer := stripMenuString (copyString item.text MAXSIZE)
    if lstrcmp menuString1 buffer = 0 ∧ buffer.headD 0 ≠ 0 then
      match item with
      | .command id _ => some (toInt id)
      | .popup _ hMenu2 =>
        match findCmdIDLoop2 menuString2 menuString3 hMenu2 with
        | some result => some result
        | none => findCmdIDLoop1 menuString1 menuString2 menuString3 rest
    else findCmdIDLoop1 menuString1 menuString2 menuString3 rest

/-- The outermost loop of `findCmdIDForMenuStrings`, over the entries of
`hMenu0`. -/
def findCmdIDLoop0 (menuString0 menuString1 menuString2 menuString3 : List TCHAR) :
    Menu → Option Int
  | .nil => none
  | .cons item rest =>
    let buffer := stripMenuString (copyString item.text MAXSIZE)
    if lstrcmp menuString0 buffer = 0 ∧ buffer.headD 0 ≠ 0 then
      match item with
      | .command id _ => some (toInt id)
      | .popup _ hMenu1 =>
        match findCmdIDLoop1 menuString1 menuString2 menuString3 hMenu1 with
        | some result => some result
        | none => findCmdIDLoop0 menuString0 menuString1 menuString2 menuString3 rest
    else findCmdIDLoop0 menuString0 menuString1 menuString2 menuString3 rest

/-- `findCmdIDForMenuStrings`. -/
def findCmdIDForMenuStrings (hMenu0 : Menu)
    (menuString0 menuString1 menuString2 menuString3 : List TCHAR) : Int :=
  match findCmdIDLoop0 menuString0 menuString1 menuString2 menuString3 hMenu0 with
  | some result => result
  | none => -1

/-! ## Leaves of the menu tree -/

/-- A command item of a menu tree with the texts of the entries that enclose
it, outermost first (`path = []` for an entry of the menu itself). -/
structure Leaf where
  id : DWORD
  text : List TCHAR
  path : List (List TCHAR)
  deriving DecidableEq, Repr

mutual
/-- The command items at or below one entry, in depth-first order. -/
def MenuItem.leaves : MenuItem → List Leaf
  | .command id text => [{ id := id, text := text, path := [] }]
  | .popup text sub => (Menu.leaves sub).map (fun l => { l with path := text :: l.path })
/-- The command items of a menu tree, in depth-first order. -/
def Menu.leaves : Menu → List Leaf
  | .nil => []
  | .cons item rest => MenuItem.leaves item ++ Menu.leaves rest
end

/-- The label of a menu text as `findCmdIDForMenuStrings` compares it: what
`GetMenuString` copies into a buffer of `MAXSIZE` units, stripped. -/
def strippedLabel (text : List TCHAR) : List TCHAR :=
  stripMenuString (copyString text MAXSIZE)

/-- The chain of stripped labels of a leaf from the top level down, the label
of the leaf itself last. -/
def Leaf.labels (l : Leaf) : List (List TCHAR) :=
  (l.path ++ [l.text]).map strippedLabel

/-- The leaf lies at depth `d <= 4` and its chain of stripped labels equals the
first `d` of the given strings, each of them non-empty. -/
def Leaf.matchesStrings (menuStrings : List (List TCHAR)) (l : Leaf) : Prop :=
  l.labels.length ≤ 4 ∧ l.labels = (menuStrings.map cString).take l.labels.length ∧
    ∀ s ∈ l.labels, s ≠ []

instance (menuStrings : List (List TCHAR)) (l : Leaf) :
    Decidable (l.matchesStrings menuStrings) := by
  unfold Leaf.matchesStrings; infer_instance

/-- The chain of stripped labels of the leaf is an initial part of the given
strings, each of its labels non-empty. -/
def Leaf.matchesChain (menuStrings : List (List TCHAR)) (l : Leaf) : Prop :=
  l.labels.length ≤ menuStrings.length ∧
    l.labels = (menuStrings.map cString).take l.labels.length ∧ ∀ s ∈ l.labels, s ≠ []

instance (menuStrings : List (List TCHAR)) (l : Leaf) :
    Decidable (l.matchesChain menuStrings) := by
  unfold Leaf.matchesChain; infer_instance

/-- The test `lstrcmp(menuString, buffer) == 0 && buffer[0] != 0` of
`findCmdIDForMenuStrings` on the stripped text of an entry. -/
def labelMatches (menuString text : List TCHAR) : Bool :=
  decide (lstrcmp menuString (strippedLabel text) = 0 ∧ (strippedLabel text).headD 0 ≠ 0)

/-- A session whose main menu holds the plugin command 22005 (`Go`) as a
top-level entry, before a submenu `P` that holds the command 22006 (`Up`). -/
def topLevelSession : Session :=
  { g_hMainMenu := .cons (.command 22005 [71, 111])
      (.cons (.popup [80] (.cons (.command 22006 [85, 112]) .nil)) .nil)
    toolbarStrings := fun _ => []
    g_id_plugins_cmd_limit := 22999 }

/-! ## Custom buttons: reading `CustomizeToolbar.btn` -/

/-- The reading state of `addToolbarButtons` on the `.btn` file: the variable
`nextChar`, the count `bytesRead` of the last `ReadFile`, and the code units of
the file that are not read yet. The file is taken as a sequence of whole
`TCHAR` units (Unicode build, two bytes each). -/
structure BtnReader where
  nextChar : TCHAR
  bytesRead : Nat
  btnFile : List TCHAR

/-- `ReadFile(btnFile, &nextChar, sizeof(TCHAR), &bytesRead, NULL)`: the next
code unit is stored and `bytesRead` is `sizeof(TCHAR)`; at the end of the file
(or without a file) `nextChar` is left as it was and `bytesRead` is 0. -/
def ReadFileTCHAR (r : BtnReader) : BtnReader :=
  match r.btnFile with
  | c :: rest => { nextChar := c, bytesRead := 2, btnFile := rest }
  | [] => { r with bytesRead := 0 }

/-- The assignment `buffer[i] = v` on the cells of the line buffer. -/
def setCell (buffer : Nat → TCHAR) (i : Nat) (v : TCHAR) : Nat → TCHAR :=
  fun k => if k = i then v else buffer k

/-- The array indices that one pass of the outer loop of `addToolbarButtons`
uses: those written to and read from `buffer`, those written to a field array
(`g_customMenuStrings[...][...][j]` or a file name array), and the index at
which the pass stores the terminating zero of the line. -/
structure LineLog where
  terminator : Nat
  bufferWrites : List Nat
  bufferReads : List Nat
  fieldWrites : List Nat
  deriving DecidableEq, Repr

/-- The inner loop `while (bytesRead > 0 && i < MAXSIZE*7 && nextChar != '\r')`,
with `n = MAXSIZE*7 - i` passes still allowed by the bound on `i`: the reader,
`i`, the buffer and the indices written afterwards. -/
def readLineLoop : Nat → BtnReader → Nat → (Nat → TCHAR) → List Nat →
    BtnReader × Nat × (Nat → TCHAR) × List Nat
  | 0, r, i, buffer, writes => (r, i, buffer, writes)
  | n + 1, r, i, buffer, writes =>
    if r.bytesRead > 0 ∧ r.nextChar ≠ 13 then
      readLineLoop n (ReadFileTCHAR r) (i + 1) (setCell buffer i r.nextChar) (writes ++ [i])
    else (r, i, buffer, writes)

/-- The loop `for (...; j < MAXSIZE-1 && buffer[i] != ','; i++, j++) field[j] = buffer[i]`
from position `i`, where `field` lists the units written so far (`j` is its
length) and `n = MAXSIZE-1 - j` passes are still allowed by the bound on `j`;
`buffer[i]` is not read once `j` has reached the bound. -/
def splitLoop (buffer : Nat → TCHAR) :
    Nat → Nat → List TCHAR → LineLog → Nat × List TCHAR × LineLog
  | 0, i, field, log => (i, field, log)
  | n + 1, i, field, log =>
    if buffer i ≠ 44 then
      splitLoop buffer n (i + 1) (field ++ [buffer i])
        { log with
          bufferReads := log.bufferReads ++ [i]
          fieldWrites := log.fieldWrites ++ [field.length] }
    else (i, field, { log with bufferReads := log.bufferReads ++ [i] })

/-- One splitting loop started with `j = 0` at position `i`, followed by the
store `field[j] = 0`: the position reached, the units of the field before the
terminator, and the log. -/
def splitField (buffer : Nat → TCHAR) (i : Nat) (log : LineLog) :
    Nat × List TCHAR × LineLog :=
  match splitLoop buffer (MAXSIZE - 1) i [] log with
  | (i, field, log) => (i, field, { log with fieldWrites := log.fieldWrites ++ [field.length] })

/-- One custom button as `addToolbarButtons` defines it: the row of
`g_customMenuStrings` it fills (the value of `g_customButtonsCount`), the four
menu strings stored there, the three file names, and the temporary command id
`ID_CMD_CUSTOM + g_customButtonsCount` sent with `NPPM_ADDTOOLBARICON`. -/
structure CustomButton where
  row : Int
  menuStrings : List (List TCHAR)
  bmpFileName : List TCHAR
  icoFileName : List TCHAR
  icodarkFileName : List TCHAR
  idCmd : Int
  deriving DecidableEq, Repr

/-- The state of the loop of `addToolbarButtons` over the `.btn` file. -/
structure BtnState where
  reader : BtnReader
  buffer : Nat → TCHAR
  g_customButtonsCount : Int
  defined : List CustomButton
  logs : List LineLog

/-- The seven splitting loops of `addToolbarButtons` on the line in `buffer`:
the seven fields and the log. -/
def splitLine (buffer : Nat → TCHAR) (log : LineLog) : List (List TCHAR) × LineLog :=
  match splitField buffer 0 log with
  | (i, menuString0, log) =>
    match splitField buffer (i + 1) log with
    | (i, menuString1, log) =>
      match splitField buffer (i + 1) log with
      | (i, menuString2, log) =>
        match splitField buffer (i + 1) log with
        | (i, menuString3, log) =>
          match splitField buffer (i + 1) log with
          | (i, bmpFileName, log) =>
            match splitField buffer (i + 1) log with
            | (i, icoFileName, log) =>
              match splitField buffer (i + 1) log with
              | (_, icodarkFileName, log) =>
                ([menuString0, menuString1, menuString2, menuString3, bmpFileName,
                  icoFileName, icodarkFileName], log)

/-- One pass of the outer loop `while (bytesRead > 0)` of `addToolbarButtons`:
a line is read into `buffer`, seven commas and a zero are stored after it, and
a line that is not empty and does not start with `;` is split into seven
fields and defines the next custom button. The loading of the images is not
modelled. -/
def addToolbarButtons_line (st : BtnState) : BtnState :=
  match readLineLoop (MAXSIZE * 7) st.reader 0 st.buffer [] with
  | (reader, i, buffer, writes) =>
    let reader := if reader.bytesRead > 0 then ReadFileTCHAR reader else reader
    let buffer := setCell (setCell (setCell (setCell (setCell (setCell (setCell buffer
      (i + 6) 44) (i + 5) 44) (i + 4) 44) (i + 3) 44) (i + 2) 44) (i + 1) 44) i 44
    let buffer := setCell buffer (i + 7) 0
    let log : LineLog :=
      { terminator := i + 7
        bufferWrites := writes ++ [i + 6, i + 5, i + 4, i + 3, i + 2, i + 1, i, i + 7]
        bufferReads := []
        fieldWrites := [] }
    let st : BtnState :=
      if i > 0 then
        let log := { log with bufferReads := [0] }
        if buffer 0 ≠ 59 then
          match splitLine buffer log with
          | (fields, log) =>
            { st with
              g_customButtonsCount := st.g_customButtonsCount + 1
              defined := st.defined ++
                [{ row := st.g_customButtonsCount
                   menuStrings := fields.take 4
                   bmpFileName := fields.getD 4 []
                   icoFileName := fields.getD 5 []
                   icodarkFileName := fields.getD 6 []
                   idCmd := ID_CMD_CUSTOM + st.g_customButtonsCount }]
              logs := st.logs ++ [log] }
        else { st with logs := st.logs ++ [log] }
      else { st with logs := st.logs ++ [log] }
    let reader := if reader.bytesRead > 0 then ReadFileTCHAR reader else reader
    { st with reader := reader, buffer := buffer }

/-- The outer loop `while (bytesRead > 0)` with a bound on the number of
passes: `none` when the bound is used up before the loop ends. -/
def addToolbarButtons_loop : Nat → BtnState → Option BtnState
  | 0, st => if st.reader.bytesRead > 0 then none else some st
  | fuel + 1, st =>
    if st.reader.bytesRead > 0 then addToolbarButtons_loop fuel (addToolbarButtons_line st)
    else some st

/-- The part of `addToolbarButtons` after the additional buttons: nothing
happens when the custom buttons state is 0; otherwise the count is reset, the
first unit of the `.btn` file is read, a byte order mark is skipped, and the
loop runs over the file (a missing file reads as the empty file). `nextChar`
and `buffer` give the contents of the two locals before their first
assignment. Each pass of the loop reads at least one unit, so `btnFile.length + 1`
passes are enough. -/
def addToolbarButtons_custom (g_customButtonsState g_customButtonsCount : Int)
    (btnFile : List TCHAR) (nextChar : TCHAR) (buffer : Nat → TCHAR) : Option BtnState :=
  if g_customButtonsState = 0 then
    some { reader := { nextChar := nextChar, bytesRead := 0, btnFile := btnFile }
           buffer := buffer
           g_customButtonsCount := g_customButtonsCount
           defined := []
           logs := [] }
  else
    let g_customButtonsCount := 0
    let reader := ReadFileTCHAR { nextChar := nextChar, bytesRead := 0, btnFile := btnFile }
    let reader :=
      if reader.bytesRead > 0 ∧ reader.nextChar = 0xFEFF then ReadFileTCHAR reader else reader
    addToolbarButtons_loop (btnFile.length + 1)
      { reader := reader
        buffer := buffer
        g_customButtonsCount := g_customButtonsCount
        defined := []
        logs := [] }

/-- The splitting loop run `k` times, each after the first from the position
behind the comma that stopped the one before. -/
def splitFields (buffer : Nat → TCHAR) : Nat → Nat → LineLog → List (List TCHAR) × LineLog
  | 0, _, log => ([], log)
  | k + 1, i, log =>
    match splitField buffer i log with
    | (i, field, log) =>
      match splitFields buffer k (i + 1) log with
      | (fields, log) => (field :: fields, log)

/-- The units the reader still delivers: `nextChar` and the unread file while
`bytesRead > 0`, nothing afterwards. -/
def BtnReader.stream (r : BtnReader) : List TCHAR :=
  if r.bytesRead > 0 then r.nextChar :: r.btnFile else []

/-- The indices of a log respect the sizes of the arrays: the terminating zero
and every write lie inside `buffer[MAXSIZE*7+10]`, every read of `buffer` lies
before the terminating zero, and every write to a field lies inside an array of
`MAXSIZE` units. -/
def LineLog.InBounds (log : LineLog) : Prop :=
  log.terminator < MAXSIZE * 7 + 10 ∧ (∀ w ∈ log.bufferWrites, w < MAXSIZE * 7 + 10) ∧
    (∀ r ∈ log.bufferReads, r < MAXSIZE * 7 + 10 ∧ r < log.terminator) ∧
    ∀ j ∈ log.fieldWrites, j < MAXSIZE

instance (log : LineLog) : Decidable log.InBounds := by
  unfold LineLog.InBounds; infer_instance

/-- The cells of the buffer from index `i` on hold the given units. -/
def bufferHolds (buffer : Nat → TCHAR) : Nat → List TCHAR → Prop
  | _, [] => True
  | i, c :: cs => buffer i = c ∧ bufferHolds buffer (i + 1) cs

/-- The fields of a line, each followed by a comma. -/
def joinFields : List (List TCHAR) → List TCHAR
  | [] => []
  | field :: fields => field ++ 44 :: joinFields fields

/-- The seven fields of a custom button in the order of the `.btn` line. -/
def CustomButton.fields (b : CustomButton) : List (List TCHAR) :=
  b.menuStrings ++ [b.bmpFileName, b.icoFileName, b.icodarkFileName]

/-- The file `Edit,Select All,,,*R:SA` + CR LF + `;x` + CR LF + CR LF + `a,b`
with a byte order mark. -/
def exampleBtnFile : List TCHAR :=
  [0xFEFF, 69, 100, 105, 116, 44, 83, 101, 108, 101, 99, 116, 32, 65, 108, 108, 44, 44, 44,
    42, 82, 58, 83, 65, 13, 10, 59, 120, 13, 10, 13, 10, 97, 44, 98]

/-- The loop state in front of the line `a,b` + CR LF of a `.btn` file, with
two buttons defined so far. -/
def exampleBtnState : BtnState :=
  { reader := { nextChar := 97, bytesRead := 2, btnFile := [44, 98, 13, 10] }
    buffer := fun _ => 7
    g_customButtonsCount := 2
    defined := []
    logs := [] }

/-- The scenario buttons with a file that holds the four header words only and
announces one on-toolbar entry. -/
def headerOnlyState : State :=
  { g_tbButtons := scenarioButtons
    g_customButtonsState := 0
    g_wrapToolbarState := 0
    toolbar := []
    datFile := datWords 1 0 1 0 [] }

/-- Locals whose `dword` holds the given value before its first assignment. -/
def localsWith (dword : DWORD) : Locals :=
  { i := 0, buttonsOnToolbar := 0, buttonsAvailable := 0, dword := dword }

/-- The plugin button 22600 with a record whose two lists hold the raw value
22600, as written under the plugin limit 22499, and the menu hash of the
button, as written under the limit 22999. -/
def doubleEntryState : State :=
  { g_tbButtons := [exampleButton 22600 0]
    g_customButtonsState := 0
    g_wrapToolbarState := 0
    toolbar := []
    datFile := datRecord 1 0
      [22600, calcPluginButtonMenuHash upgradedSession (exampleButton 22600 0)]
      [22600, calcPluginButtonMenuHash upgradedSession (exampleButton 22600 0)] }

/-- A `.btn` file of 101 lines `a` + CR LF, each of which defines a button. -/
def manyLinesFile : List TCHAR :=
  (List.replicate 101 [97, 13, 10]).flatten

/-! # Theorems -/

/-! ## Hash arithmetic -/

theorem hashStep_eq (h c : Nat) : hashStep h c = (h * 31 + c) % 4294967296 := by
  unfold hashStep add32 sub32 shl32
  rw [Nat.shiftLeft_eq]
  show @Eq Nat _ _
  omega

theorem hashStep_mod (h c : Nat) :
    hashStep (h % 4294967296) c = (h * 31 + c) % 4294967296 := by
  rw [hashStep_eq]
  show @Eq Nat _ _
  omega

theorem hashLoop_eq_foldl (s : List TCHAR) (h : Nat) :
    hashLoop (h % 4294967296) s
      = (List.foldl (fun h c => h * 31 + c) h (cString s)) % 4294967296 := by
  induction s generalizing h with
  | nil => simp [hashLoop, cString]
  | cons c cs ih =>
    by_cases hc : c = 0
    · simp [hashLoop, cString, hc]
    · have hstep := ih (h * 31 + c)
      simp only [cString] at hstep ⊢
      simp [hashLoop, hc, List.takeWhile_cons, hashStep_mod, hstep]

theorem hashLoop_zero_eq (s : List TCHAR) :
    hashLoop 0 s = polyHash (cString s) % 4294967296 := by
  have h := hashLoop_eq_foldl s 0
  simpa [polyHash] using h

theorem or_HASHFLAG_mod (x : Nat) : (x ||| HASHFLAG) % 2147483648 = x % 2147483648 := by
  have h : HASHFLAG = 2 ^ 31 := by decide
  have h2 : (2147483648 : Nat) = 2 ^ 31 := by norm_num
  rw [h, h2]
  apply Nat.eq_of_testBit_eq
  intro i
  simp only [Nat.testBit_mod_two_pow, Nat.testBit_or, Nat.testBit_two_pow]
  by_cases hi : i < 31
  · have : ¬ (31 = i) := by omega
    simp [hi, this]
  · simp [hi]

theorem or_HASHFLAG_and (x : Nat) : (x ||| HASHFLAG) &&& HASHFLAG ≠ 0 := by
  have h : HASHFLAG = 2 ^ 31 := by decide
  rw [h, Nat.and_two_pow, Nat.testBit_or, Nat.testBit_two_pow_self]
  simp

theorem hashLoop_append (a b : List TCHAR) (h : Nat) (ha : ∀ c ∈ a, c ≠ 0) :
    hashLoop h (a ++ b) = hashLoop (hashLoop h a) b := by
  induction a generalizing h with
  | nil => simp [hashLoop]
  | cons c cs ih =>
    have hc : c ≠ 0 := ha c (by simp)
    have hcs : ∀ x ∈ cs, x ≠ 0 := fun x hx => ha x (by simp [hx])
    simp [hashLoop, hc, ih _ hcs]

theorem stripMenuString_ne_zero (s : List TCHAR) : ∀ c ∈ stripMenuString s, c ≠ 0 := by
  induction s with
  | nil => simp [stripMenuString]
  | cons x xs ih =>
    unfold stripMenuString
    split_ifs with h0 h1 h2
    · simp
    · exact ih
    · simp
    · intro c hc
      rcases List.mem_cons.1 hc with rfl | hc
      · exact h0
      · exact ih c hc

/-! ## Reading the record -/

theorem ReadFile_dwordBytes (w : Nat) (rest : List Nat) (d : DWORD) :
    ReadFile (dwordBytes w ++ rest) d = (w % 4294967296, rest) := by
  simp only [dwordBytes, ReadFile, List.cons_append, List.nil_append]
  congr 1
  show @Eq Nat _ _
  omega

theorem ReadFile_dwordBytes_lt (w : Nat) (hw : w < 4294967296) (rest : List Nat) (d : DWORD) :
    ReadFile (dwordBytes w ++ rest) d = (w, rest) := by
  rw [ReadFile_dwordBytes, Nat.mod_eq_of_lt hw]

theorem toDWORD_natCast (n : Nat) (hn : n < 4294967296) : toDWORD (n : Int) = n := by
  unfold toDWORD
  rw [Int.emod_eq_of_lt (by omega) (by omega)]
  simp

theorem toInt_toDWORD_natCast (n : Nat) (hn : n < 2147483648) :
    (toInt (toDWORD (n : Int) % 4294967296)).toNat = n := by
  rw [toDWORD_natCast n (by omega)]
  unfold toInt
  have h2 : n % 4294967296 % 4294967296 = n := by omega
  rw [h2]
  simp [hn]

/-! ## The test applied by restore -/

theorem restoreMatches_hashed (env : Session) (e : DWORD) (b : TBBUTTON)
    (he : e &&& HASHFLAG ≠ 0) :
    restoreMatches env e b = true ↔
      inHashedRange env b.idCommand ∧ e = resolvedIdentity env b := by
  unfold restoreMatches resolvedIdentity inHashedRange inMenuRange inStringRange
  simp only [ID_PLUGINS_CMD, ID_PLUGINS_CMD_DYNAMIC, ID_PLUGINS_CMD_DYNAMIC_LIMIT,
    ID_CMD_CUSTOM, ID_CMD_CUSTOM_LIMIT, he, if_true, ne_eq, not_false_eq_true, ge_iff_le]
  split_ifs <;> first | (simp_all; done) | (simp_all; omega)

theorem restoreMatches_raw (env : Session) (e : DWORD) (b : TBBUTTON)
    (he : e &&& HASHFLAG = 0) :
    restoreMatches env e b = true ↔ e = toDWORD b.idCommand := by
  unfold restoreMatches
  simp [he]

theorem restoreMatches_dwData (env : Session) (e : DWORD) (b : TBBUTTON) (x : Nat) :
    restoreMatches env e { b with dwData := x } = restoreMatches env e b := by
  simp [restoreMatches, calcPluginButtonMenuHash, calcButtonStringHash]

theorem resolvedIdentity_dwData (env : Session) (b : TBBUTTON) (x : Nat) :
    resolvedIdentity env { b with dwData := x } = resolvedIdentity env b := by
  simp [resolvedIdentity, calcPluginButtonMenuHash, calcButtonStringHash]

theorem resolvedIdentity_hashed_flag (env : Session) (b : TBBUTTON)
    (hb : inHashedRange env b.idCommand) : resolvedIdentity env b &&& HASHFLAG ≠ 0 := by
  unfold resolvedIdentity
  rcases hb with h | h
  · rw [if_pos h]; exact or_HASHFLAG_and _
  · by_cases h1 : inMenuRange env b.idCommand
    · rw [if_pos h1]; exact or_HASHFLAG_and _
    · rw [if_neg h1, if_pos h]; exact or_HASHFLAG_and _

/-! ## The on-toolbar pass -/

theorem restoreAddHashed_eq (env : Session) (e : DWORD) (he : e &&& HASHFLAG ≠ 0)
    (btns toolbar : List TBBUTTON) :
    restoreAddHashed env e btns toolbar
      = toolbar ++ (btns.find? (restoreMatches env e)).toList := by
  induction btns with
  | nil => simp [restoreAddHashed]
  | cons b rest ih =>
    rw [List.find?_cons]
    cases hm : restoreMatches env e b <;>
      simp only [restoreMatches, he, if_true, ne_eq, not_false_eq_true] at hm <;>
      unfold restoreAddHashed <;>
      split_ifs at hm ⊢ <;> simp_all

theorem restoreAddRaw_eq (env : Session) (e : DWORD) (he : e &&& HASHFLAG = 0)
    (btns toolbar : List TBBUTTON) :
    restoreAddRaw e btns toolbar
      = toolbar ++ (btns.find? (restoreMatches env e)).toList := by
  induction btns with
  | nil => simp [restoreAddRaw]
  | cons b rest ih =>
    rw [List.find?_cons]
    cases hm : restoreMatches env e b <;>
      simp only [restoreMatches, he] at hm <;>
      unfold restoreAddRaw <;>
      split_ifs at hm ⊢ <;> simp_all

theorem restoreOnToolbarLoop_eq (env : Session) (btns : List TBBUTTON) (saved : List DWORD)
    (hon : ∀ e ∈ saved, e < 4294967296) (rest : List Nat) (d : DWORD) (toolbar : List TBBUTTON) :
    ∃ d1, restoreOnToolbarLoop env btns saved.length (saved.flatMap dwordBytes ++ rest) d toolbar
      = (rest, d1, toolbar ++ onToolbarPart env saved btns) := by
  induction saved generalizing d toolbar with
  | nil => exact ⟨d, by simp [restoreOnToolbarLoop, onToolbarPart]⟩
  | cons e es ih =>
    have he : e < 4294967296 := hon e (by simp)
    have hes : ∀ x ∈ es, x < 4294967296 := fun x hx => hon x (by simp [hx])
    simp only [List.length_cons, List.flatMap_cons, List.append_assoc, restoreOnToolbarLoop,
      ReadFile_dwordBytes_lt e he]
    by_cases hf : e &&& HASHFLAG ≠ 0
    · rw [if_pos hf, restoreAddHashed_eq env e hf]
      obtain ⟨d1, h1⟩ := ih hes e (toolbar ++ (btns.find? (restoreMatches env e)).toList)
      exact ⟨d1, by rw [h1]; simp [onToolbarPart]⟩
    · rw [if_neg hf, restoreAddRaw_eq env e (by simpa using hf)]
      obtain ⟨d1, h1⟩ := ih hes e (toolbar ++ (btns.find? (restoreMatches env e)).toList)
      exact ⟨d1, by rw [h1]; simp [onToolbarPart]⟩

/-! ## The available pass -/

theorem restoreMarkRaw_eq_map (env : Session) (e : DWORD) (he : e &&& HASHFLAG = 0)
    (l : List TBBUTTON) :
    restoreMarkRaw e l = l.map (fun b => if restoreMatches env e b then clearData b else b) := by
  induction l with
  | nil => simp [restoreMarkRaw]
  | cons b rest ih =>
    cases hm : restoreMatches env e b <;>
      simp only [restoreMatches, he] at hm <;>
      unfold restoreMarkRaw <;>
      split_ifs at hm ⊢ <;> simp_all [clearData, restoreMatches]

theorem restoreMarkHashed_mem (env : Session) (e : DWORD) (he : e &&& HASHFLAG ≠ 0)
    (b : TBBUTTON) (hb : restoreMatches env e b = false) (l : List TBBUTTON) (hl : b ∈ l) :
    b ∈ restoreMarkHashed env e l := by
  induction l with
  | nil => simp at hl
  | cons x rest ih =>
    rcases List.mem_cons.1 hl with rfl | hrest
    · simp only [restoreMatches, he, if_true, ne_eq, not_false_eq_true] at hb
      unfold restoreMarkHashed
      split_ifs at hb ⊢ <;> simp_all
    · have h1 := ih hrest
      unfold restoreMarkHashed
      split_ifs <;> simp_all

theorem restoreMarkRaw_mem (e : DWORD) (b : TBBUTTON) (hb : e ≠ toDWORD b.idCommand)
    (l : List TBBUTTON) (hl : b ∈ l) : b ∈ restoreMarkRaw e l := by
  induction l with
  | nil => simp at hl
  | cons x rest ih =>
    rcases List.mem_cons.1 hl with rfl | hrest
    · unfold restoreMarkRaw
      simp [hb]
    · have h1 := ih hrest
      unfold restoreMarkRaw
      split_ifs <;> simp_all

theorem availableMarks_mem (env : Session) (available : List DWORD) (b : TBBUTTON)
    (hb : ∀ e ∈ available, restoreMatches env e b = false) (l : List TBBUTTON) (hl : b ∈ l) :
    b ∈ availableMarks env available l := by
  induction available generalizing l with
  | nil => simpa [availableMarks] using hl
  | cons e es ih =>
    have hbe : restoreMatches env e b = false := hb e (by simp)
    have hbes : ∀ x ∈ es, restoreMatches env x b = false := fun x hx => hb x (by simp [hx])
    simp only [availableMarks, List.foldl_cons]
    by_cases hf : e &&& HASHFLAG ≠ 0
    · rw [if_pos hf]
      exact ih hbes _ (restoreMarkHashed_mem env e hf b hbe l hl)
    · rw [if_neg hf]
      have hraw : e ≠ toDWORD b.idCommand := by
        intro h
        have := (restoreMatches_raw env e b (by simpa using hf)).2 h
        simp [this] at hbe
      exact ih hbes _ (restoreMarkRaw_mem e b hraw l hl)

theorem distinctHashes_matches (env : Session) (e : DWORD) (he : e &&& HASHFLAG ≠ 0)
    (b x : TBBUTTON) (hd : distinctHashes env b x) (hb : restoreMatches env e b = true) :
    restoreMatches env e x = false := by
  cases hx : restoreMatches env e x
  · rfl
  · exfalso
    obtain ⟨hb1, hb2⟩ := (restoreMatches_hashed env e b he).1 hb
    obtain ⟨hx1, hx2⟩ := (restoreMatches_hashed env e x he).1 hx
    exact hd hb1 hx1 (hb2.symm.trans hx2)

theorem restoreMarkHashed_eq_map (env : Session) (e : DWORD) (he : e &&& HASHFLAG ≠ 0)
    (l : List TBBUTTON) (hl : l.Pairwise (distinctHashes env)) :
    restoreMarkHashed env e l
      = l.map (fun b => if restoreMatches env e b then clearData b else b) := by
  induction l with
  | nil => simp [restoreMarkHashed]
  | cons b rest ih =>
    obtain ⟨hhead, htail⟩ := List.pairwise_cons.1 hl
    have ih1 := ih htail
    cases hm : restoreMatches env e b
    · rw [List.map_cons, hm, ← ih1]
      simp only [restoreMatches, he, if_true, ne_eq, not_false_eq_true] at hm
      simp only [restoreMarkHashed]
      split_ifs at hm ⊢ <;> simp_all
    · have hrest : rest.map (fun b => if restoreMatches env e b then clearData b else b)
          = rest := by
        have : ∀ x ∈ rest, (fun b => if restoreMatches env e b then clearData b else b) x
            = id x := by
          intro x hx
          simp [distinctHashes_matches env e he b x (hhead x hx) hm]
        rw [List.map_congr_left this, List.map_id]
      rw [List.map_cons, hrest, hm]
      simp only [restoreMatches, he, if_true, ne_eq, not_false_eq_true] at hm
      unfold restoreMarkHashed
      split_ifs at hm ⊢ <;> simp_all [clearData]

theorem distinctHashes_clearData (env : Session) (e : DWORD) (a b : TBBUTTON)
    (h : distinctHashes env a b) :
    distinctHashes env (if restoreMatches env e a then clearData a else a)
      (if restoreMatches env e b then clearData b else b) := by
  have key : ∀ x : TBBUTTON, distinctHashes env a x → distinctHashes env a (clearData x) := by
    intro x hx h1 h2
    have := hx h1 h2
    simpa [clearData, resolvedIdentity_dwData] using this
  have key2 : ∀ x : TBBUTTON, distinctHashes env a x → distinctHashes env (clearData a) x := by
    intro x hx h1 h2
    have := hx h1 h2
    simpa [clearData, resolvedIdentity_dwData] using this
  have key3 : ∀ x : TBBUTTON, distinctHashes env a x →
      distinctHashes env (clearData a) (clearData x) := by
    intro x hx h1 h2
    have := hx h1 h2
    simpa [clearData, resolvedIdentity_dwData] using this
  split_ifs
  · exact key3 b h
  · exact key2 b h
  · exact key b h
  · exact h

theorem availableMarks_eq_map (env : Session) (available : List DWORD) (l : List TBBUTTON)
    (hl : l.Pairwise (distinctHashes env)) :
    availableMarks env available l = l.map (markAll env available) := by
  induction available generalizing l with
  | nil =>
    have hid : markAll env [] = id := by funext b; simp [markAll]
    simp [availableMarks, hid]
  | cons e es ih =>
    have hstep : (if e &&& HASHFLAG ≠ 0 then restoreMarkHashed env e l else restoreMarkRaw e l)
        = l.map (fun b => if restoreMatches env e b then clearData b else b) := by
      by_cases hf : e &&& HASHFLAG ≠ 0
      · rw [if_pos hf, restoreMarkHashed_eq_map env e hf l hl]
      · rw [if_neg hf, restoreMarkRaw_eq_map env e (by simpa using hf)]
    have hpw : (l.map (fun b => if restoreMatches env e b then clearData b else b)).Pairwise
        (distinctHashes env) :=
      List.Pairwise.map _ (fun a b h => distinctHashes_clearData env e a b h) hl
    have h2 := ih _ hpw
    simp only [availableMarks, List.foldl_cons] at h2 ⊢
    rw [hstep, h2, List.map_map]
    apply List.map_congr_left
    intro b _
    simp only [Function.comp, markAll, List.any_cons]
    by_cases hm : restoreMatches env e b = true
    · simp [hm, clearData, restoreMatches_dwData]
    · simp [hm]

theorem restoreAvailableLoop_eq (env : Session) (available : List DWORD)
    (hav : ∀ e ∈ available, e < 4294967296) (rest : List Nat) (d : DWORD) (l : List TBBUTTON) :
    ∃ d1, restoreAvailableLoop env available.length (available.flatMap dwordBytes ++ rest) d l
      = (rest, d1, availableMarks env available l) := by
  induction available generalizing d l with
  | nil => exact ⟨d, by simp [restoreAvailableLoop, availableMarks]⟩
  | cons e es ih =>
    have he : e < 4294967296 := hav e (by simp)
    have hes : ∀ x ∈ es, x < 4294967296 := fun x hx => hav x (by simp [hx])
    simp only [List.length_cons, List.flatMap_cons, List.append_assoc, restoreAvailableLoop,
      ReadFile_dwordBytes_lt e he, availableMarks, List.foldl_cons]
    by_cases hf : e &&& HASHFLAG ≠ 0
    · rw [if_pos hf, if_pos hf]
      exact ih hes e _
    · rw [if_neg hf, if_neg hf]
      exact ih hes e _

theorem restoreAddNew_toolbar (l toolbar : List TBBUTTON) :
    (restoreAddNew l toolbar).2
      = toolbar ++ (l.filter (fun b => decide (b.dwData = 1))).map clearData := by
  induction l generalizing toolbar with
  | nil => simp [restoreAddNew]
  | cons b rest ih =>
    unfold restoreAddNew
    split_ifs with h
    · have := ih (toolbar ++ [{ b with dwData := 0 }])
      simp_all [clearData]
    · have := ih toolbar
      simp_all

/-! ## Restore on a well-formed record -/

theorem restoreToolbarLayout_toolbar (env : Session) (menuStates : Bool) (u : Locals)
    (s : State) (custom wrap : DWORD) (onToolbar available : List DWORD) (extra : List Nat)
    (hrec : ValidRecord onToolbar available)
    (hfile : s.datFile = datRecord custom wrap onToolbar available ++ extra) :
    (restoreToolbarLayout env menuStates u s).toolbar
      = onToolbarPart env onToolbar s.g_tbButtons
        ++ ((availableMarks env available
              (s.g_tbButtons.map (fun b => { b with dwData := 1 }))).filter
              (fun b => decide (b.dwData = 1))).map clearData := by
  obtain ⟨hn, hm, hon, hav⟩ := hrec
  obtain ⟨d1, h1⟩ := restoreOnToolbarLoop_eq env s.g_tbButtons onToolbar hon
    (available.flatMap dwordBytes ++ extra) u.dword []
  obtain ⟨d2, h2⟩ := restoreAvailableLoop_eq env available hav extra d1
    (s.g_tbButtons.map (fun b => { b with dwData := 1 }))
  unfold restoreToolbarLayout
  rw [hfile]
  simp only [datRecord, List.flatMap_append, List.flatMap_cons, List.flatMap_nil,
    List.append_assoc, List.nil_append, List.cons_append, ReadFile_dwordBytes,
    toInt_toDWORD_natCast _ hn, toInt_toDWORD_natCast _ hm, h1, h2, List.append_nil]
  rw [restoreAddNew_toolbar]

theorem unmarked_filter (env : Session) (available : List DWORD) (btns : List TBBUTTON) :
    (((btns.map (fun b => { b with dwData := 1 })).map (markAll env available)).filter
        (fun b => decide (b.dwData = 1))).map clearData
      = unmatchedPart env available btns := by
  induction btns with
  | nil => simp [unmatchedPart]
  | cons b rest ih =>
    simp only [unmatchedPart, List.map_map] at ih ⊢
    simp only [List.map_cons, List.filter_cons]
    by_cases hm : available.any (fun e => restoreMatches env e b) = true
    · simp [markAll, restoreMatches_dwData, hm, clearData, ih]
    · simp [markAll, restoreMatches_dwData, hm, clearData, ih]

theorem restoreToolbarLayout_distinct (env : Session) (menuStates : Bool) (u : Locals)
    (s : State) (custom wrap : DWORD) (onToolbar available : List DWORD) (extra : List Nat)
    (hrec : ValidRecord onToolbar available)
    (hfile : s.datFile = datRecord custom wrap onToolbar available ++ extra)
    (hd : s.g_tbButtons.Pairwise (distinctHashes env)) :
    (restoreToolbarLayout env menuStates u s).toolbar
      = claimedToolbar env onToolbar available s.g_tbButtons := by
  rw [restoreToolbarLayout_toolbar env menuStates u s custom wrap onToolbar available extra
    hrec hfile]
  have hpw : (s.g_tbButtons.map (fun b => { b with dwData := 1 })).Pairwise
      (distinctHashes env) := by
    refine List.Pairwise.map _ (fun a b h => ?_) hd
    intro h1 h2
    have := h h1 h2
    simpa [resolvedIdentity_dwData] using this
  rw [availableMarks_eq_map env available _ hpw, unmarked_filter]
  rfl

/-! ## Claims on the reconciliation -/

theorem mem_claimedToolbar (env : Session) (onToolbar available : List DWORD)
    (btns : List TBBUTTON) (t : TBBUTTON) (ht : t ∈ claimedToolbar env onToolbar available btns) :
    (∃ e ∈ onToolbar, t ∈ btns ∧ restoreMatches env e t = true) ∨
      (∃ b ∈ btns, t = clearData b ∧ ∀ e ∈ available, restoreMatches env e b = false) := by
  unfold claimedToolbar onToolbarPart unmatchedPart at ht
  rcases List.mem_append.1 ht with h | h
  · left
    obtain ⟨e, he, hte⟩ := List.mem_flatMap.1 h
    have hfind : btns.find? (restoreMatches env e) = some t := by
      cases hf : btns.find? (restoreMatches env e) with
      | none => simp [hf] at hte
      | some x =>
        simp [hf] at hte
        rw [hte]
    exact ⟨e, he, List.mem_of_find?_eq_some hfind, List.find?_some hfind⟩
  · right
    obtain ⟨b, hb, rfl⟩ := List.mem_map.1 h
    obtain ⟨hb1, hb2⟩ := List.mem_filter.1 hb
    refine ⟨b, hb1, rfl, ?_⟩
    intro e he
    cases hm : restoreMatches env e b
    · rfl
    · exfalso
      have : available.any (fun e => restoreMatches env e b) = true :=
        List.any_eq_true.2 ⟨e, he, hm⟩
      simp [this] at hb2

/-- C1 (amended). When the buttons of `g_tbButtons` that lie in hashed ranges
have pairwise distinct hashes, the toolbar installed by `restoreToolbarLayout`
from a record with the given on-toolbar and available lists is `P1 ++ P2`: `P1`
lists, in saved order, for each on-toolbar entry the first button that the
restore test matches with it (nothing when none does), `P2` lists in start-up
order the buttons that no available entry matches, with `dwData` cleared. Every
installed button is one of the current-available buttons. -/
theorem restoreToolbarLayout_installs (env : Session) (menuStates : Bool) (u : Locals)
    (s : State) (custom wrap : DWORD) (onToolbar available : List DWORD) (extra : List Nat)
    (hrec : ValidRecord onToolbar available)
    (hfile : s.datFile = datRecord custom wrap onToolbar available ++ extra)
    (hd : s.g_tbButtons.Pairwise (distinctHashes env)) :
    (restoreToolbarLayout env menuStates u s).toolbar
        = onToolbarPart env onToolbar s.g_tbButtons
          ++ unmatchedPart env available s.g_tbButtons ∧
      ∀ t ∈ (restoreToolbarLayout env menuStates u s).toolbar,
        ∃ b ∈ s.g_tbButtons, t = b ∨ t = clearData b := by
  have h := restoreToolbarLayout_distinct env menuStates u s custom wrap onToolbar available
    extra hrec hfile hd
  refine ⟨h, ?_⟩
  intro t ht
  rw [h] at ht
  rcases mem_claimedToolbar env onToolbar available s.g_tbButtons t ht with
    ⟨_, _, hmem, _⟩ | ⟨b, hb, hbt, _⟩
  · exact ⟨t, hmem, Or.inl rfl⟩
  · exact ⟨b, hb, Or.inr hbt⟩

/-- C1 (witness): the scenario record and buttons satisfy the hypotheses. -/
theorem restoreToolbarLayout_installs_witness :
    ValidRecord [100, 2147484203] [100, 200, 2147484203] ∧
      scenarioButtons.Pairwise (distinctHashes exampleSession) ∧
      (restoreToolbarLayout exampleSession true zeroLocals scenarioState).toolbar
        = onToolbarPart exampleSession [100, 2147484203] scenarioButtons
          ++ unmatchedPart exampleSession [100, 200, 2147484203] scenarioButtons :=
  ⟨by decide, by decide,
    (restoreToolbarLayout_installs exampleSession true zeroLocals scenarioState 1 0
      [100, 2147484203] [100, 200, 2147484203] [] (by decide) (List.append_nil _).symm
      (by decide)).1⟩

/-- C1 (counterexample). Two buttons carry the same hash; both were taken off
the toolbar and the layout was saved. The stated list `P1 ++ P2` is empty, since
the saved available entries match both buttons, yet `restoreToolbarLayout`
installs the second button: its inner loop stops at the first button with that
hash. -/
theorem restoreToolbarLayout_installs_twin :
    twinState.datFile = datRecord 1 0 [] [2147484203, 2147484203] ∧
      claimedToolbar exampleSession [] [2147484203, 2147484203] twinState.g_tbButtons = [] ∧
      (restoreToolbarLayout exampleSession true zeroLocals twinState).toolbar
        = [exampleButton 23001 1] ∧
      (restoreToolbarLayout exampleSession true zeroLocals twinState).toolbar
        ≠ claimedToolbar exampleSession [] [2147484203, 2147484203] twinState.g_tbButtons := by
  decide

theorem toDWORD_of_nonneg (x : Int) (h0 : 0 ≤ x) (h1 : x < 4294967296) :
    toDWORD x = x.toNat := by
  unfold toDWORD
  rw [Int.emod_eq_of_lt h0 h1]

theorem not_inHashedRange_of_lt (env : Session) (c : Int) (hc : c < 22000) :
    ¬ inHashedRange env c := by
  unfold inHashedRange inMenuRange inStringRange
  omega

theorem restoreMatches_hashed_false (env : Session) (e : DWORD) (b : TBBUTTON)
    (he : e &&& HASHFLAG ≠ 0) (hb : ¬ inHashedRange env b.idCommand) :
    restoreMatches env e b = false := by
  cases hm : restoreMatches env e b
  · rfl
  · exact absurd ((restoreMatches_hashed env e b he).1 hm).1 hb

theorem restoreMatches_raw_false (env : Session) (e : DWORD) (b : TBBUTTON)
    (he : e &&& HASHFLAG = 0) (hb : e ≠ toDWORD b.idCommand) :
    restoreMatches env e b = false := by
  cases hm : restoreMatches env e b
  · rfl
  · exact absurd ((restoreMatches_raw env e b he).1 hm) hb

theorem restoreMatches_raw_true (env : Session) (e : DWORD) (b : TBBUTTON)
    (he : e &&& HASHFLAG = 0) (hb : e = toDWORD b.idCommand) :
    restoreMatches env e b = true :=
  (restoreMatches_raw env e b he).2 hb

theorem distinctHashes_left (env : Session) (a b : TBBUTTON)
    (ha : ¬ inHashedRange env a.idCommand) : distinctHashes env a b :=
  fun h _ => absurd h ha

theorem distinctHashes_right (env : Session) (a b : TBBUTTON)
    (hb : ¬ inHashedRange env b.idCommand) : distinctHashes env a b :=
  fun _ h => absurd h hb

/-- C2. A record with on-toolbar `[100, HASHFLAG|555]` and available
`[100, 200, HASHFLAG|555]`, restored over four buttons with command ids 100,
200, a hashed-range `int` id whose hash is `HASHFLAG|555`, and 300, installs the
first, the third and the fourth button in that order; their identities are
`[100, HASHFLAG|555, 300]`. -/
theorem restoreToolbarLayout_scenario (env : Session) (menuStates : Bool) (u : Locals)
    (s : State) (b1 b2 b3 b4 : TBBUTTON) (extra : List Nat)
    (h1 : b1.idCommand = 100) (h2 : b2.idCommand = 200) (h4 : b4.idCommand = 300)
    (h3 : inHashedRange env b3.idCommand) (h3i : IsInt32 b3.idCommand)
    (h3h : resolvedIdentity env b3 = HASHFLAG ||| 555)
    (hbtns : s.g_tbButtons = [b1, b2, b3, b4])
    (hfile : s.datFile
      = datRecord 1 0 [100, HASHFLAG ||| 555] [100, 200, HASHFLAG ||| 555] ++ extra) :
    (restoreToolbarLayout env menuStates u s).toolbar = [b1, b3, clearData b4] ∧
      (restoreToolbarLayout env menuStates u s).toolbar.map (resolvedIdentity env)
        = [100, HASHFLAG ||| 555, 300] := by
  have n1 : ¬ inHashedRange env b1.idCommand := not_inHashedRange_of_lt env _ (by omega)
  have n2 : ¬ inHashedRange env b2.idCommand := not_inHashedRange_of_lt env _ (by omega)
  have n4 : ¬ inHashedRange env b4.idCommand := not_inHashedRange_of_lt env _ (by omega)
  have hH : (HASHFLAG ||| 555) &&& HASHFLAG ≠ 0 := by decide
  have r100 : (100 : Nat) &&& HASHFLAG = 0 := by decide
  have r200 : (200 : Nat) &&& HASHFLAG = 0 := by decide
  have d1 : toDWORD b1.idCommand = 100 := by rw [h1]; decide
  have d2 : toDWORD b2.idCommand = 200 := by rw [h2]; decide
  have d4 : toDWORD b4.idCommand = 300 := by rw [h4]; decide
  have d3 : toDWORD b3.idCommand ≠ 100 ∧ toDWORD b3.idCommand ≠ 200 := by
    have hlo : 22000 ≤ b3.idCommand := by
      unfold inHashedRange inMenuRange inStringRange at h3
      omega
    have hhi : b3.idCommand < 2147483648 := h3i.2
    unfold toDWORD
    constructor <;> show ¬ @Eq Nat _ _ <;> omega
  have hrec : ValidRecord [100, HASHFLAG ||| 555] [100, 200, HASHFLAG ||| 555] := by decide
  have hd : s.g_tbButtons.Pairwise (distinctHashes env) := by
    rw [hbtns]
    simp only [List.pairwise_cons, List.mem_cons, List.mem_singleton, forall_eq_or_imp,
      forall_eq, List.not_mem_nil, false_implies, implies_true, List.Pairwise.nil, and_true]
    exact ⟨⟨distinctHashes_left env _ _ n1, distinctHashes_left env _ _ n1,
      distinctHashes_left env _ _ n1⟩, ⟨distinctHashes_left env _ _ n2,
      distinctHashes_left env _ _ n2⟩, distinctHashes_right env _ _ n4⟩
  have h := restoreToolbarLayout_distinct env menuStates u s 1 0 _ _ extra hrec hfile hd
  have m11 : restoreMatches env 100 b1 = true := restoreMatches_raw_true env _ _ r100 d1.symm
  have m12 : restoreMatches env 100 b2 = false :=
    restoreMatches_raw_false env _ _ r100 (by rw [d2]; decide)
  have m13 : restoreMatches env 100 b3 = false :=
    restoreMatches_raw_false env _ _ r100 (fun h => d3.1 h.symm)
  have m14 : restoreMatches env 100 b4 = false :=
    restoreMatches_raw_false env _ _ r100 (by rw [d4]; decide)
  have m22 : restoreMatches env 200 b2 = true := restoreMatches_raw_true env _ _ r200 d2.symm
  have m23 : restoreMatches env 200 b3 = false :=
    restoreMatches_raw_false env _ _ r200 (fun h => d3.2 h.symm)
  have m24 : restoreMatches env 200 b4 = false :=
    restoreMatches_raw_false env _ _ r200 (by rw [d4]; decide)
  have mH1 : restoreMatches env (HASHFLAG ||| 555) b1 = false :=
    restoreMatches_hashed_false env _ _ hH n1
  have mH2 : restoreMatches env (HASHFLAG ||| 555) b2 = false :=
    restoreMatches_hashed_false env _ _ hH n2
  have mH3 : restoreMatches env (HASHFLAG ||| 555) b3 = true :=
    (restoreMatches_hashed env _ _ hH).2 ⟨h3, h3h.symm⟩
  have mH4 : restoreMatches env (HASHFLAG ||| 555) b4 = false :=
    restoreMatches_hashed_false env _ _ hH n4
  have htb : (restoreToolbarLayout env menuStates u s).toolbar = [b1, b3, clearData b4] := by
    rw [h, hbtns]
    simp [claimedToolbar, onToolbarPart, unmatchedPart, List.find?, List.filter, m11, m12,
      m13, m14, m22, m23, m24, mH1, mH2, mH3, mH4]
  refine ⟨htb, ?_⟩
  rw [htb]
  have i1 : resolvedIdentity env b1 = 100 := by
    unfold resolvedIdentity
    rw [if_neg (fun h => n1 (Or.inl h)), if_neg (fun h => n1 (Or.inr h)), d1]
  have i4 : resolvedIdentity env (clearData b4) = 300 := by
    unfold clearData
    rw [resolvedIdentity_dwData]
    unfold resolvedIdentity
    rw [if_neg (fun h => n4 (Or.inl h)), if_neg (fun h => n4 (Or.inr h)), d4]
  simp [i1, i4, h3h]

/-- C2 (witness): the scenario over the example session. -/
theorem restoreToolbarLayout_scenario_witness :
    inHashedRange exampleSession (exampleButton 23000 1).idCommand ∧
      IsInt32 (exampleButton 23000 1).idCommand ∧
      resolvedIdentity exampleSession (exampleButton 23000 1) = HASHFLAG ||| 555 ∧
      (restoreToolbarLayout exampleSession true zeroLocals scenarioState).toolbar
        = [exampleButton 100 0, exampleButton 23000 1, clearData (exampleButton 300 0)] :=
  ⟨by decide, by decide, by decide,
    (restoreToolbarLayout_scenario exampleSession true zeroLocals scenarioState
      (exampleButton 100 0) (exampleButton 200 0) (exampleButton 23000 1) (exampleButton 300 0)
      [] rfl rfl rfl (by decide) (by decide) (by decide) rfl (List.append_nil _).symm).1⟩

/-- C3 (amended). New-button surfacing: when a current-available button has a
resolved identity that does not occur in the saved available list, and its raw
command id does not occur there either, the toolbar installed by
`restoreToolbarLayout` contains that button (added by the last loop, `dwData`
cleared). -/
theorem restoreToolbarLayout_surfaces_new (env : Session) (menuStates : Bool) (u : Locals)
    (s : State) (custom wrap : DWORD) (onToolbar available : List DWORD) (extra : List Nat)
    (b : TBBUTTON)
    (hrec : ValidRecord onToolbar available)
    (hfile : s.datFile = datRecord custom wrap onToolbar available ++ extra)
    (hb : b ∈ s.g_tbButtons)
    (hnew : resolvedIdentity env b ∉ available)
    (hraw : toDWORD b.idCommand ∉ available) :
    clearData b ∈ (restoreToolbarLayout env menuStates u s).toolbar := by
  rw [restoreToolbarLayout_toolbar env menuStates u s custom wrap onToolbar available extra
    hrec hfile]
  apply List.mem_append_right
  have hno : ∀ e ∈ available, restoreMatches env e { b with dwData := 1 } = false := by
    intro e he
    rw [restoreMatches_dwData]
    cases hm : restoreMatches env e b
    · rfl
    · exfalso
      by_cases hf : e &&& HASHFLAG ≠ 0
      · exact hnew (((restoreMatches_hashed env e b hf).1 hm).2 ▸ he)
      · exact hraw (((restoreMatches_raw env e b (by simpa using hf)).1 hm) ▸ he)
  have hmem : ({ b with dwData := 1 } : TBBUTTON) ∈
      availableMarks env available (s.g_tbButtons.map (fun b => { b with dwData := 1 })) :=
    availableMarks_mem env available _ hno _ (List.mem_map.2 ⟨b, hb, rfl⟩)
  exact List.mem_map.2 ⟨_, List.mem_filter.2 ⟨hmem, by simp⟩, rfl⟩

/-- C3 (witness): button 300 of the scenario is new and is installed. -/
theorem restoreToolbarLayout_surfaces_new_witness :
    exampleButton 300 0 ∈ scenarioState.g_tbButtons ∧
      resolvedIdentity exampleSession (exampleButton 300 0) ∉ [100, 200, 2147484203] ∧
      clearData (exampleButton 300 0)
        ∈ (restoreToolbarLayout exampleSession true zeroLocals scenarioState).toolbar :=
  ⟨by decide, by decide,
    restoreToolbarLayout_surfaces_new exampleSession true zeroLocals scenarioState 1 0
      [100, 2147484203] [100, 200, 2147484203] [] (exampleButton 300 0) (by decide)
      (List.append_nil _).symm (by decide) (by decide) (by decide)⟩

/-- C3 (counterexample). The button 22600 was saved under the plugin limit
22499, so the saved available list holds its raw command id. Under the limit
22999 the button resolves to a menu hash, which the saved available list does
not contain, yet the restore installs nothing: the raw entry equals the command
id of the button and clears its new-button mark. -/
theorem restoreToolbarLayout_surfaces_new_raw_entry :
    legacyState.datFile = datRecord 0 0 [] [22600] ∧
      exampleButton 22600 0 ∈ legacyState.g_tbButtons ∧
      resolvedIdentity upgradedSession (exampleButton 22600 0) ∉ [22600] ∧
      (restoreToolbarLayout upgradedSession true zeroLocals legacyState).toolbar = [] := by
  decide

/-- C4 (amended). Removal preservation: let the hashed-range buttons of
`g_tbButtons` have pairwise distinct hashes, let no button outside the hashed
ranges have a command id with the `HASHFLAG` bit, and let no saved on-toolbar
entry without `HASHFLAG` equal the command id of a hashed-range button. If
identity `X` occurs in the saved available list, does not occur in the saved
on-toolbar list and is the resolved identity of some current-available button,
then the installed toolbar contains no button whose resolved identity is `X`. -/
theorem restoreToolbarLayout_keeps_removed (env : Session) (menuStates : Bool) (u : Locals)
    (s : State) (custom wrap : DWORD) (onToolbar available : List DWORD) (extra : List Nat)
    (X : DWORD)
    (hrec : ValidRecord onToolbar available)
    (hfile : s.datFile = datRecord custom wrap onToolbar available ++ extra)
    (hd : s.g_tbButtons.Pairwise (distinctHashes env))
    (hflag : ∀ b ∈ s.g_tbButtons, ¬ inHashedRange env b.idCommand →
      toDWORD b.idCommand &&& HASHFLAG = 0)
    (hon : ∀ e ∈ onToolbar, e &&& HASHFLAG = 0 →
      ∀ b ∈ s.g_tbButtons, inHashedRange env b.idCommand → toDWORD b.idCommand ≠ e)
    (hX : X ∈ available) (hXon : X ∉ onToolbar)
    (_hXb : ∃ b ∈ s.g_tbButtons, resolvedIdentity env b = X) :
    ∀ t ∈ (restoreToolbarLayout env menuStates u s).toolbar, resolvedIdentity env t ≠ X := by
  intro t ht
  rw [restoreToolbarLayout_distinct env menuStates u s custom wrap onToolbar available extra
    hrec hfile hd] at ht
  have hraw : ∀ b : TBBUTTON, ¬ inHashedRange env b.idCommand →
      resolvedIdentity env b = toDWORD b.idCommand := by
    intro b hb
    unfold resolvedIdentity
    rw [if_neg (fun h => hb (Or.inl h)), if_neg (fun h => hb (Or.inr h))]
  rcases mem_claimedToolbar env onToolbar available s.g_tbButtons t ht with
    ⟨e, he, hmem, hm⟩ | ⟨b, hb, hbt, hno⟩
  · by_cases hf : e &&& HASHFLAG ≠ 0
    · have h2 := ((restoreMatches_hashed env e t hf).1 hm).2
      intro hx
      exact hXon (by rw [← hx, ← h2]; exact he)
    · have hf0 : e &&& HASHFLAG = 0 := by simpa using hf
      have h2 := (restoreMatches_raw env e t hf0).1 hm
      by_cases hr : inHashedRange env t.idCommand
      · exact absurd h2.symm (hon e he hf0 t hmem hr)
      · intro hx
        rw [hraw t hr, ← h2] at hx
        exact hXon (hx ▸ he)
  · intro hx
    rw [hbt] at hx
    unfold clearData at hx
    rw [resolvedIdentity_dwData] at hx
    have hmX : restoreMatches env X b = true := by
      by_cases hr : inHashedRange env b.idCommand
      · have hfl := resolvedIdentity_hashed_flag env b hr
        rw [hx] at hfl
        exact (restoreMatches_hashed env X b hfl).2 ⟨hr, hx.symm⟩
      · have hfl := hflag b hb hr
        rw [← hraw b hr, hx] at hfl
        exact (restoreMatches_raw env X b hfl).2 (by rw [← hraw b hr, hx])
    have := hno X hX
    rw [hmX] at this
    exact Bool.noConfusion this

/-- C4 (witness): button 200 of the scenario was removed and stays removed. -/
theorem restoreToolbarLayout_keeps_removed_witness :
    (200 : DWORD) ∈ [100, 200, 2147484203] ∧ (200 : DWORD) ∉ [100, 2147484203] ∧
      (∃ b ∈ scenarioState.g_tbButtons, resolvedIdentity exampleSession b = 200) ∧
      ∀ t ∈ (restoreToolbarLayout exampleSession true zeroLocals scenarioState).toolbar,
        resolvedIdentity exampleSession t ≠ 200 :=
  ⟨by decide, by decide, by decide,
    restoreToolbarLayout_keeps_removed exampleSession true zeroLocals scenarioState 1 0
      [100, 2147484203] [100, 200, 2147484203] [] 200 (by decide) (List.append_nil _).symm
      (by decide) (by decide) (by decide) (by decide) (by decide) (by decide)⟩

/-- C4 (counterexample). The hash `HASHFLAG|555` is in the saved available list,
not in the saved on-toolbar list, and is the identity of a current button; the
restore nevertheless installs a button with that identity, the second of the
two buttons that share the hash. -/
theorem restoreToolbarLayout_keeps_removed_twin :
    twinState.datFile = datRecord 1 0 [] [2147484203, 2147484203] ∧
      (2147484203 : DWORD) ∈ [2147484203, 2147484203] ∧
      (2147484203 : DWORD) ∉ ([] : List DWORD) ∧
      (∃ b ∈ twinState.g_tbButtons, resolvedIdentity exampleSession b = 2147484203) ∧
      ∃ t ∈ (restoreToolbarLayout exampleSession true zeroLocals twinState).toolbar,
        resolvedIdentity exampleSession t = 2147484203 := by
  decide

/-! ## Claims on the record -/

theorem resolvedIdentity_lt (env : Session) (b : TBBUTTON) :
    resolvedIdentity env b < 4294967296 := by
  have hor : ∀ buf h, hashLoop (hashLoop 0 h) buf ||| HASHFLAG < 4294967296 := by
    intro buf h
    have h1 : hashLoop (hashLoop 0 h) buf < 2 ^ 32 := by
      have := hashLoop_eq_foldl buf (hashLoop 0 h)
      have h0 : hashLoop 0 h % 4294967296 = hashLoop 0 h := by
        rw [hashLoop_zero_eq]; exact Nat.mod_mod _ _
      rw [h0] at this
      rw [this]
      exact Nat.mod_lt _ (by norm_num)
    have h2 : HASHFLAG < 2 ^ 32 := by decide
    exact Nat.or_lt_two_pow h1 h2
  unfold resolvedIdentity
  split_ifs
  · exact hor _ _
  · have := hor (TB_GETSTRING env MAXSIZE b.iString) []
    simpa [hashLoop, calcButtonStringHash] using this
  · unfold toDWORD
    show (_ : Nat) < _
    omega

theorem saveOnToolbarLoop_eq (env : Session) (l : List TBBUTTON) (datFile : List Nat) :
    saveOnToolbarLoop env l datFile
      = datFile ++ (l.map (resolvedIdentity env)).flatMap dwordBytes := by
  induction l generalizing datFile with
  | nil => simp [saveOnToolbarLoop]
  | cons b rest ih =>
    unfold saveOnToolbarLoop
    simp only [ih, WriteFile, List.map_cons, List.flatMap_cons, List.append_assoc,
      resolvedIdentity, inMenuRange, inStringRange, ID_PLUGINS_CMD, ID_PLUGINS_CMD_DYNAMIC,
      ID_PLUGINS_CMD_DYNAMIC_LIMIT, ID_CMD_CUSTOM, ID_CMD_CUSTOM_LIMIT, ge_iff_le]
    split_ifs <;> first | rfl | omega

theorem saveAvailableLoop_eq (env : Session) (l : List TBBUTTON) (datFile : List Nat) :
    saveAvailableLoop env l datFile
      = datFile ++ (l.map (resolvedIdentity env)).flatMap dwordBytes := by
  induction l generalizing datFile with
  | nil => simp [saveAvailableLoop]
  | cons b rest ih =>
    unfold saveAvailableLoop
    simp only [ih, WriteFile, List.map_cons, List.flatMap_cons, List.append_assoc,
      resolvedIdentity, inMenuRange, inStringRange, ID_PLUGINS_CMD, ID_PLUGINS_CMD_DYNAMIC,
      ID_PLUGINS_CMD_DYNAMIC_LIMIT, ID_CMD_CUSTOM, ID_CMD_CUSTOM_LIMIT, ge_iff_le]
    split_ifs <;> first | rfl | omega

theorem saveToolbarLayout_datFile (env : Session) (s : State) :
    (saveToolbarLayout env s).datFile
      = datRecord (toDWORD s.g_customButtonsState) (toDWORD s.g_wrapToolbarState)
          (s.toolbar.map (resolvedIdentity env)) (s.g_tbButtons.map (resolvedIdentity env)) := by
  simp [saveToolbarLayout, saveOnToolbarLoop_eq, saveAvailableLoop_eq, WriteFile, datRecord,
    List.flatMap_append, List.flatMap_cons]

theorem length_flatMap_dwordBytes (l : List DWORD) :
    (l.flatMap dwordBytes).length = 4 * l.length := by
  induction l with
  | nil => simp
  | cons a rest ih => simp [List.flatMap_cons, ih, dwordBytes]; omega

theorem readEntries_eq (entries : List DWORD) (hes : ∀ e ∈ entries, e < 4294967296)
    (rest : List Nat) (d : DWORD) :
    ∃ d1, readEntries entries.length (entries.flatMap dwordBytes ++ rest) d
      = (entries, rest, d1) := by
  induction entries generalizing d with
  | nil => exact ⟨d, by simp [readEntries]⟩
  | cons e es ih =>
    have he : e < 4294967296 := hes e (by simp)
    obtain ⟨d1, h1⟩ := ih (fun x hx => hes x (by simp [hx])) e
    exact ⟨d1, by
      simp only [List.length_cons, List.flatMap_cons, List.append_assoc, readEntries,
        ReadFile_dwordBytes_lt e he, h1]⟩

theorem toInt_toDWORD (x : Int) (hx : IsInt32 x) : toInt (toDWORD x % 4294967296) = x := by
  obtain ⟨h0, h1⟩ := hx
  unfold toInt toDWORD
  have hnn : 0 ≤ x % 4294967296 := Int.emod_nonneg _ (by norm_num)
  have hcast : (((x % 4294967296).toNat : Nat) : Int) = x % 4294967296 :=
    Int.toNat_of_nonneg hnn
  obtain ⟨n, hn, hcn⟩ : ∃ n : Nat, (x % 4294967296).toNat = n ∧ (n : Int) = x % 4294967296 :=
    ⟨_, rfl, hcast⟩
  rw [hn]
  split_ifs with h <;> dsimp only [DWORD] at h <;> omega

theorem toInt_natCast (n : Nat) (hn : n < 2147483648) :
    toInt (toDWORD (n : Int) % 4294967296) = (n : Int) :=
  toInt_toDWORD _ ⟨by omega, by omega⟩

theorem readRecord_datRecord (u : Locals) (c w : Int) (onToolbar available : List DWORD)
    (hc : IsInt32 c) (hw : IsInt32 w) (hrec : ValidRecord onToolbar available) :
    readRecord u (datRecord (toDWORD c) (toDWORD w) onToolbar available)
      = (c, w, (onToolbar.length : Int), (available.length : Int), onToolbar, available) := by
  obtain ⟨hn, hm, hon, hav⟩ := hrec
  obtain ⟨d1, h1⟩ := readEntries_eq onToolbar hon (available.flatMap dwordBytes) u.dword
  obtain ⟨d2, h2⟩ := readEntries_eq available hav [] d1
  rw [List.append_nil] at h2
  unfold readRecord
  simp only [datRecord, List.flatMap_append, List.flatMap_cons, List.flatMap_nil,
    List.append_assoc, List.nil_append, List.cons_append, ReadFile_dwordBytes,
    toInt_toDWORD c hc, toInt_toDWORD w hw, toInt_natCast _ hn, toInt_natCast _ hm,
    Int.toNat_ofNat, h1, h2, List.append_nil]

/-- C5. Round trip of the `.dat` record: the reads of `restoreToolbarLayout`,
applied to the file `saveToolbarLayout` wrote, deliver the two states, the two
counts and the two identity lists that were saved, in order; the same holds
for the record of any two `int` states and any two lists of 32-bit entries. -/
theorem readRecord_saveToolbarLayout (env : Session) (u : Locals) (s : State)
    (hc : IsInt32 s.g_customButtonsState) (hw : IsInt32 s.g_wrapToolbarState)
    (hn : s.toolbar.length < 2147483648) (hm : s.g_tbButtons.length < 2147483648) :
    readRecord u (saveToolbarLayout env s).datFile
        = (s.g_customButtonsState, s.g_wrapToolbarState, (s.toolbar.length : Int),
            (s.g_tbButtons.length : Int), s.toolbar.map (resolvedIdentity env),
            s.g_tbButtons.map (resolvedIdentity env)) ∧
      ∀ (c w : Int) (onToolbar available : List DWORD), IsInt32 c → IsInt32 w →
        ValidRecord onToolbar available →
        readRecord u (datRecord (toDWORD c) (toDWORD w) onToolbar available)
          = (c, w, (onToolbar.length : Int), (available.length : Int), onToolbar, available) := by
  refine ⟨?_, fun c w onToolbar available h1 h2 h3 =>
    readRecord_datRecord u c w onToolbar available h1 h2 h3⟩
  rw [saveToolbarLayout_datFile]
  have hrec : ValidRecord (s.toolbar.map (resolvedIdentity env))
      (s.g_tbButtons.map (resolvedIdentity env)) := by
    refine ⟨by simpa using hn, by simpa using hm, ?_, ?_⟩
    · intro e he
      obtain ⟨b, _, rfl⟩ := List.mem_map.1 he
      exact resolvedIdentity_lt env b
    · intro e he
      obtain ⟨b, _, rfl⟩ := List.mem_map.1 he
      exact resolvedIdentity_lt env b
  have h := readRecord_datRecord u s.g_customButtonsState s.g_wrapToolbarState _ _ hc hw hrec
  simpa using h

/-- C5 (witness): saving the example state and reading the file back. -/
theorem readRecord_saveToolbarLayout_witness :
    IsInt32 saveState.g_customButtonsState ∧ IsInt32 saveState.g_wrapToolbarState ∧
      readRecord zeroLocals (saveToolbarLayout exampleSession saveState).datFile
        = (1, 0, 3, 4, [100, 2147484203, 300], [100, 200, 2147484203, 300]) :=
  ⟨by decide, by decide,
    (readRecord_saveToolbarLayout exampleSession zeroLocals saveState (by decide) (by decide)
      (by decide) (by decide)).1⟩

/-- C6. `saveToolbarLayout` creates the file afresh and writes exactly
`4 + N + M` 32-bit words, least significant byte first, in this order: the
custom-buttons state, the wrap-toolbar state, `N`, `M`, the identities of the
`N` toolbar buttons in toolbar order, the identities of the `M` buttons of
`g_tbButtons` in start-up order. Nothing else of the state changes. -/
theorem saveToolbarLayout_writes (env : Session) (s : State) :
    (saveToolbarLayout env s).datFile
        = ([toDWORD s.g_customButtonsState, toDWORD s.g_wrapToolbarState,
              toDWORD (s.toolbar.length : Int), toDWORD (s.g_tbButtons.length : Int)]
            ++ s.toolbar.map (resolvedIdentity env)
            ++ s.g_tbButtons.map (resolvedIdentity env)).flatMap dwordBytes ∧
      (saveToolbarLayout env s).datFile.length
        = 4 * (4 + s.toolbar.length + s.g_tbButtons.length) ∧
      (saveToolbarLayout env s).g_tbButtons = s.g_tbButtons ∧
      (saveToolbarLayout env s).toolbar = s.toolbar ∧
      (saveToolbarLayout env s).g_customButtonsState = s.g_customButtonsState ∧
      (saveToolbarLayout env s).g_wrapToolbarState = s.g_wrapToolbarState := by
  have h := saveToolbarLayout_datFile env s
  refine ⟨?_, ?_, rfl, rfl, rfl, rfl⟩
  · rw [h]
    simp [datRecord]
  · rw [h, datRecord, length_flatMap_dwordBytes]
    simp
    omega

/-- C7. `calcButtonStringHash` returns `(H(s) mod 2^32) OR 0x80000000`, where
`s` is the string `TB_GETSTRING` delivers and `H` folds `h * 31 + charCode` from
0; the low 31 bits are `H(s) mod 2^31`. The same holds for the hash loop over
any buffer, and the 32-bit step `((h << 5) - h) + c` is `(h * 31 + c) mod 2^32`
for every `h` and `c`. -/
theorem calcButtonStringHash_eq (env : Session) (tbButton : TBBUTTON) :
    calcButtonStringHash env tbButton
        = (polyHash (TB_GETSTRING env MAXSIZE tbButton.iString) % 4294967296) ||| 0x80000000 ∧
      calcButtonStringHash env tbButton % 2147483648
        = polyHash (TB_GETSTRING env MAXSIZE tbButton.iString) % 2147483648 ∧
      (∀ buffer : List TCHAR,
        stringHash buffer = (polyHash (cString buffer) % 4294967296) ||| 0x80000000 ∧
        stringHash buffer % 2147483648 = polyHash (cString buffer) % 2147483648) ∧
      ∀ h c : Nat, hashStep h c = (h * 31 + c) % 4294967296 := by
  have hgen : ∀ buffer : List TCHAR,
      stringHash buffer = (polyHash (cString buffer) % 4294967296) ||| 0x80000000 ∧
      stringHash buffer % 2147483648 = polyHash (cString buffer) % 2147483648 := by
    intro buffer
    have h1 : stringHash buffer = (polyHash (cString buffer) % 4294967296) ||| HASHFLAG := by
      unfold stringHash
      rw [hashLoop_zero_eq]
    refine ⟨h1, ?_⟩
    rw [h1, or_HASHFLAG_mod]
    show @Eq Nat _ _
    omega
  have hc : cString (TB_GETSTRING env MAXSIZE tbButton.iString)
      = TB_GETSTRING env MAXSIZE tbButton.iString := by
    unfold cString TB_GETSTRING copyString
    rw [List.takeWhile_eq_self_iff]
    intro c hcm
    exact List.mem_takeWhile_imp (p := fun c => c != 0) (List.mem_of_mem_take hcm)
  have h := hgen (TB_GETSTRING env MAXSIZE tbButton.iString)
  rw [hc] at h
  exact ⟨h.1, h.2, hgen, hashStep_eq⟩

/-- C8. `calcPluginButtonMenuHash`, which runs one accumulator over the stripped
menu label `a` and then over the stripped contents `b` of the buffer after
`findPluginParentMenuString`, returns the single-string hash of `a ++ b`; for
any two stripped strings the two loops give the single-string hash of the
concatenation, and with an empty second string the single-string hash of the
first. `calcButtonStringHash` is the single-string hash of its buffer. -/
theorem calcPluginButtonMenuHash_eq (env : Session) (tbButton : TBBUTTON) :
    calcPluginButtonMenuHash env tbButton
        = stringHash (resolvedMenuLabel env tbButton
            ++ stripMenuString (findPluginParentMenuString env.g_hMainMenu
                (toDWORD tbButton.idCommand) (resolvedMenuLabel env tbButton) MAXSIZE).2) ∧
      (∀ x y : List TCHAR,
        hashLoop (hashLoop 0 (stripMenuString x)) (stripMenuString y) ||| HASHFLAG
          = stringHash (stripMenuString x ++ stripMenuString y)) ∧
      (∀ x y : List TCHAR, stripMenuString y = [] →
        hashLoop (hashLoop 0 (stripMenuString x)) (stripMenuString y) ||| HASHFLAG
          = stringHash (stripMenuString x)) ∧
      calcButtonStringHash env tbButton
        = stringHash (TB_GETSTRING env MAXSIZE tbButton.iString) := by
  have hgen : ∀ x y : List TCHAR,
      hashLoop (hashLoop 0 (stripMenuString x)) (stripMenuString y) ||| HASHFLAG
        = stringHash (stripMenuString x ++ stripMenuString y) := by
    intro x y
    unfold stringHash
    rw [hashLoop_append _ _ _ (stripMenuString_ne_zero x)]
  refine ⟨?_, hgen, ?_, rfl⟩
  · unfold calcPluginButtonMenuHash resolvedMenuLabel
    exact hgen _ _
  · intro x y hy
    rw [hy]
    simp [hashLoop, stringHash]

/-- C9. With the plugin limit 22499 or 22999, both loops of `saveToolbarLayout`
write for each button its resolved identity, and that identity is the menu hash
when `22000 <= c <= L`, the button-string hash when `23000 <= c <= 24999` or
`26000 <= c <= 26099`, and the raw command id `c` (as a 32-bit value) in every
other case. -/
theorem saveToolbarLayout_identity_rule (env : Session)
    (hL : env.g_id_plugins_cmd_limit = 22499 ∨ env.g_id_plugins_cmd_limit = 22999) :
    (∀ (l : List TBBUTTON) (datFile : List Nat),
        saveOnToolbarLoop env l datFile
          = datFile ++ (l.map (resolvedIdentity env)).flatMap dwordBytes) ∧
      (∀ (l : List TBBUTTON) (datFile : List Nat),
        saveAvailableLoop env l datFile
          = datFile ++ (l.map (resolvedIdentity env)).flatMap dwordBytes) ∧
      ∀ b : TBBUTTON,
        (22000 ≤ b.idCommand ∧ b.idCommand ≤ env.g_id_plugins_cmd_limit →
          resolvedIdentity env b = calcPluginButtonMenuHash env b) ∧
        ((23000 ≤ b.idCommand ∧ b.idCommand ≤ 24999) ∨
            (26000 ≤ b.idCommand ∧ b.idCommand ≤ 26099) →
          resolvedIdentity env b = calcButtonStringHash env b) ∧
        (¬ (22000 ≤ b.idCommand ∧ b.idCommand ≤ env.g_id_plugins_cmd_limit) →
          ¬ (23000 ≤ b.idCommand ∧ b.idCommand ≤ 24999) →
          ¬ (26000 ≤ b.idCommand ∧ b.idCommand ≤ 26099) →
          resolvedIdentity env b = toDWORD b.idCommand ∧
            (0 ≤ b.idCommand → b.idCommand < 4294967296 →
              ((resolvedIdentity env b : Nat) : Int) = b.idCommand)) := by
  refine ⟨saveOnToolbarLoop_eq env, saveAvailableLoop_eq env, fun b => ⟨?_, ?_, ?_⟩⟩
  · intro h
    have hm : inMenuRange env b.idCommand := h
    unfold resolvedIdentity
    rw [if_pos hm]
  · intro h
    have hn : ¬ inMenuRange env b.idCommand := by
      unfold inMenuRange
      omega
    have hs : inStringRange b.idCommand := h
    unfold resolvedIdentity
    rw [if_neg hn, if_pos hs]
  · intro h1 h2 h3
    have hr : resolvedIdentity env b = toDWORD b.idCommand := by
      have hm : ¬ inMenuRange env b.idCommand := h1
      have hs : ¬ inStringRange b.idCommand := by unfold inStringRange; tauto
      unfold resolvedIdentity
      rw [if_neg hm, if_neg hs]
    refine ⟨hr, fun h0 hlt => ?_⟩
    rw [hr, toDWORD_of_nonneg _ h0 hlt]
    exact Int.toNat_of_nonneg h0

/-- C9 (witness): the example session runs with the limit 22999. -/
theorem saveToolbarLayout_identity_rule_witness :
    (exampleSession.g_id_plugins_cmd_limit = 22499 ∨
        exampleSession.g_id_plugins_cmd_limit = 22999) ∧
      saveOnToolbarLoop exampleSession saveState.toolbar []
        = (saveState.toolbar.map (resolvedIdentity exampleSession)).flatMap dwordBytes :=
  ⟨by decide,
    ((saveToolbarLayout_identity_rule exampleSession (by decide)).1 saveState.toolbar [])⟩

/-! ## The parent-menu search and the buffer -/

mutual
theorem findPluginParentMenuItem_buffer (idCommand : DWORD) (maxCount : Nat) :
    ∀ (item : MenuItem) (buf : List TCHAR),
      (findPluginParentMenuItem idCommand maxCount item buf).1
          = (findPluginParentMenuItem idCommand maxCount item []).1 ∧
        (findPluginParentMenuItem idCommand maxCount item buf).2
          = if (findPluginParentMenuItem idCommand maxCount item []).1 = some 0
            then (findPluginParentMenuItem idCommand maxCount item []).2 else buf
  | .command id text, buf => by
    unfold findPluginParentMenuItem
    by_cases h : id = idCommand <;> simp [h]
  | .popup text sub, buf => by
    have ih := findPluginParentMenuString_buffer idCommand maxCount sub buf
    unfold findPluginParentMenuItem
    rcases hb : findPluginParentMenuString sub idCommand buf maxCount with ⟨r, l1⟩
    rcases h0 : findPluginParentMenuString sub idCommand [] maxCount with ⟨r0, l0⟩
    rw [hb, h0] at ih
    obtain ⟨ih1, ih2⟩ := ih
    simp only at ih1 ih2
    subst ih1
    by_cases hr1 : r = 1
    · simp [hr1]
    · by_cases hr0 : r = 0
      · simp [hr0] at ih2 ⊢
        exact ih2
      · simp [hr1, hr0] at ih2 ⊢
        exact ih2
theorem findPluginParentMenuString_buffer (idCommand : DWORD) (maxCount : Nat) :
    ∀ (hMenu : Menu) (buf : List TCHAR),
      (findPluginParentMenuString hMenu idCommand buf maxCount).1
          = (findPluginParentMenuString hMenu idCommand [] maxCount).1 ∧
        (findPluginParentMenuString hMenu idCommand buf maxCount).2
          = if (findPluginParentMenuString hMenu idCommand [] maxCount).1 = 0
            then (findPluginParentMenuString hMenu idCommand [] maxCount).2 else buf
  | .nil, buf => by
    unfold findPluginParentMenuString
    simp
  | .cons item rest, buf => by
    have ihi := findPluginParentMenuItem_buffer idCommand maxCount item buf
    have ihr := findPluginParentMenuString_buffer idCommand maxCount rest buf
    have ihi0 := (findPluginParentMenuItem_buffer idCommand maxCount item []).2
    unfold findPluginParentMenuString
    rcases hb : findPluginParentMenuItem idCommand maxCount item buf with ⟨o, l1⟩
    rcases h0 : findPluginParentMenuItem idCommand maxCount item [] with ⟨o0, l0⟩
    rw [hb, h0] at ihi
    obtain ⟨ih1, ih2⟩ := ihi
    simp only at ih1 ih2
    subst ih1
    cases o with
    | none =>
      rw [h0] at ihi0
      simp only [reduceCtorEq, if_false] at ih2 ihi0
      subst ih2
      subst ihi0
      simpa using ihr
    | some r =>
      by_cases hr0 : r = 0
      · simp [hr0] at ih2 ⊢
        exact ih2
      · simp [hr0] at ih2 ⊢
        exact ih2
end

theorem stripMenuString_idem (s : List TCHAR) :
    stripMenuString (stripMenuString s) = stripMenuString s := by
  induction s with
  | nil => simp [stripMenuString]
  | cons c cs ih =>
    by_cases h0 : c = 0
    · simp [stripMenuString, h0]
    · by_cases h1 : c = 38
      · simp [stripMenuString, h1, ih]
      · by_cases h2 : c = 9
        · simp [stripMenuString, h2]
        · simp [stripMenuString, h0, h1, h2, ih]

theorem calcPluginButtonMenuHash_labels (env : Session) (b : TBBUTTON) :
    calcPluginButtonMenuHash env b
      = hashLoop (hashLoop 0 (resolvedMenuLabel env b))
          ((resolvedParentMenuLabel env b).getD (resolvedMenuLabel env b)) ||| HASHFLAG := by
  have hbuf := (findPluginParentMenuString_buffer (toDWORD b.idCommand) MAXSIZE
    env.g_hMainMenu (resolvedMenuLabel env b)).2
  have hidem : stripMenuString (resolvedMenuLabel env b) = resolvedMenuLabel env b :=
    stripMenuString_idem _
  unfold calcPluginButtonMenuHash
  unfold resolvedMenuLabel at hbuf hidem
  unfold resolvedParentMenuLabel resolvedMenuLabel
  simp only []
  rw [hbuf]
  split_ifs with h
  · simp
  · simp [hidem]

/-- C10. Identity stability: two buttons with command ids in the menu range
that differ, in any two sessions, resolve to the same identity when their
resolved menu labels are equal and their resolved parent-menu labels are equal;
a button whose command id lies outside the three hashed ranges resolves to its
command id, whatever the menu and the toolbar strings are. -/
theorem resolvedIdentity_stable (env1 env2 : Session) (b1 b2 : TBBUTTON)
    (h1 : inMenuRange env1 b1.idCommand) (h2 : inMenuRange env2 b2.idCommand)
    (_hne : b1.idCommand ≠ b2.idCommand)
    (hlabel : resolvedMenuLabel env1 b1 = resolvedMenuLabel env2 b2)
    (hparent : resolvedParentMenuLabel env1 b1 = resolvedParentMenuLabel env2 b2) :
    resolvedIdentity env1 b1 = resolvedIdentity env2 b2 ∧
      calcPluginButtonMenuHash env1 b1 = calcPluginButtonMenuHash env2 b2 ∧
      ∀ (env : Session) (b : TBBUTTON), ¬ inHashedRange env b.idCommand →
        resolvedIdentity env b = toDWORD b.idCommand ∧
          (0 ≤ b.idCommand → b.idCommand < 4294967296 →
            ((resolvedIdentity env b : Nat) : Int) = b.idCommand) := by
  have hh : calcPluginButtonMenuHash env1 b1 = calcPluginButtonMenuHash env2 b2 := by
    rw [calcPluginButtonMenuHash_labels, calcPluginButtonMenuHash_labels, hlabel, hparent]
  refine ⟨?_, hh, ?_⟩
  · unfold resolvedIdentity
    rw [if_pos h1, if_pos h2, hh]
  · intro env b hb
    have hr : resolvedIdentity env b = toDWORD b.idCommand := by
      unfold resolvedIdentity
      rw [if_neg (fun h => hb (Or.inl h)), if_neg (fun h => hb (Or.inr h))]
    refine ⟨hr, fun h0 hlt => ?_⟩
    rw [hr, toDWORD_of_nonneg _ h0 hlt]
    exact Int.toNat_of_nonneg h0

/-- C10 (witness): the entry `P > C > Se` has id 22001 in one session and 22007
in the other and resolves to the same identity. -/
theorem resolvedIdentity_stable_witness :
    inMenuRange exampleSession (exampleButton 22001 0).idCommand ∧
      inMenuRange otherSession (exampleButton 22007 0).idCommand ∧
      resolvedMenuLabel exampleSession (exampleButton 22001 0)
        = resolvedMenuLabel otherSession (exampleButton 22007 0) ∧
      resolvedParentMenuLabel exampleSession (exampleButton 22001 0)
        = resolvedParentMenuLabel otherSession (exampleButton 22007 0) ∧
      resolvedIdentity exampleSession (exampleButton 22001 0)
        = resolvedIdentity otherSession (exampleButton 22007 0) :=
  ⟨by decide, by decide, by decide, by decide,
    (resolvedIdentity_stable exampleSession otherSession (exampleButton 22001 0)
      (exampleButton 22007 0) (by decide) (by decide) (by decide) (by decide) (by decide)).1⟩

/-! ## Restore on an arbitrary buffer -/

theorem onToolbarPart_cons (env : Session) (e : DWORD) (es : List DWORD)
    (btns : List TBBUTTON) :
    onToolbarPart env (e :: es) btns
      = (btns.find? (restoreMatches env e)).toList ++ onToolbarPart env es btns := by
  simp [onToolbarPart]

theorem onToolbarPart_append (env : Session) (es1 es2 : List DWORD) (btns : List TBBUTTON) :
    onToolbarPart env (es1 ++ es2) btns
      = onToolbarPart env es1 btns ++ onToolbarPart env es2 btns := by
  simp [onToolbarPart]

theorem restoreOnToolbarLoop_readEntries (env : Session) (btns : List TBBUTTON) (n : Nat)
    (datFile : List Nat) (d : DWORD) (toolbar : List TBBUTTON) :
    restoreOnToolbarLoop env btns n datFile d toolbar
      = ((readEntries n datFile d).2.1, (readEntries n datFile d).2.2,
          toolbar ++ onToolbarPart env (readEntries n datFile d).1 btns) := by
  induction n generalizing datFile d toolbar with
  | zero => simp [restoreOnToolbarLoop, readEntries, onToolbarPart]
  | succ n ih =>
    rcases hr : ReadFile datFile d with ⟨d1, f1⟩
    simp only [restoreOnToolbarLoop, readEntries, hr]
    by_cases hf : d1 &&& HASHFLAG ≠ 0
    · rw [if_pos hf, ih, restoreAddHashed_eq env d1 hf, onToolbarPart_cons]
      simp
    · rw [if_neg hf, ih, restoreAddRaw_eq env d1 (by simpa using hf), onToolbarPart_cons]
      simp

theorem restoreAvailableLoop_readEntries (env : Session) (n : Nat) (datFile : List Nat)
    (d : DWORD) (l : List TBBUTTON) :
    restoreAvailableLoop env n datFile d l
      = ((readEntries n datFile d).2.1, (readEntries n datFile d).2.2,
          availableMarks env (readEntries n datFile d).1 l) := by
  induction n generalizing datFile d l with
  | zero => simp [restoreAvailableLoop, readEntries, availableMarks]
  | succ n ih =>
    rcases hr : ReadFile datFile d with ⟨d1, f1⟩
    simp only [restoreAvailableLoop, readEntries, hr]
    by_cases hf : d1 &&& HASHFLAG ≠ 0
    · rw [if_pos hf, ih]
      simp [availableMarks, hf]
    · rw [if_neg hf, ih]
      simp only [availableMarks, List.foldl_cons, if_neg hf]

theorem restoreToolbarLayout_readRecord (env : Session) (menuStates : Bool) (u : Locals)
    (s : State) :
    (restoreToolbarLayout env menuStates u s).toolbar
      = onToolbarPart env (readRecord u s.datFile).2.2.2.2.1 s.g_tbButtons
        ++ newButtonsPart env (readRecord u s.datFile).2.2.2.2.2 s.g_tbButtons := by
  unfold restoreToolbarLayout readRecord newButtonsPart
  simp only [restoreOnToolbarLoop_readEntries, restoreAvailableLoop_readEntries,
    restoreAddNew_toolbar, List.nil_append]

theorem readEntries_length (n : Nat) (datFile : List Nat) (d : DWORD) :
    (readEntries n datFile d).1.length = n := by
  induction n generalizing datFile d with
  | zero => simp [readEntries]
  | succ n ih =>
    rcases hr : ReadFile datFile d with ⟨d1, f1⟩
    simp [readEntries, hr, ih]

theorem readEntries_add (n m : Nat) (datFile : List Nat) (d : DWORD) :
    readEntries (n + m) datFile d
      = ((readEntries n datFile d).1
            ++ (readEntries m (readEntries n datFile d).2.1 (readEntries n datFile d).2.2).1,
          (readEntries m (readEntries n datFile d).2.1 (readEntries n datFile d).2.2).2.1,
          (readEntries m (readEntries n datFile d).2.1 (readEntries n datFile d).2.2).2.2) := by
  induction n generalizing datFile d with
  | zero => simp [readEntries]
  | succ n ih =>
    rcases hr : ReadFile datFile d with ⟨d1, f1⟩
    have h : n + 1 + m = (n + m) + 1 := by omega
    rw [h]
    simp only [readEntries, hr, ih, List.cons_append]

theorem readEntries_nil (n : Nat) (d : DWORD) :
    readEntries n [] d = (List.replicate n d, [], d) := by
  induction n with
  | zero => simp [readEntries]
  | succ n ih => simp [readEntries, ReadFile, ih, List.replicate_succ]

theorem readEntries_short (es : List DWORD) (hes : ∀ e ∈ es, e < 4294967296) (m : Nat)
    (d : DWORD) :
    readEntries (es.length + m) (es.flatMap dwordBytes) d
      = (es ++ List.replicate m (es.getLast?.getD d), [], es.getLast?.getD d) := by
  induction es generalizing d with
  | nil => simp [readEntries_nil]
  | cons e es ih =>
    have he : e < 4294967296 := hes e (by simp)
    have h : (e :: es).length + m = (es.length + m) + 1 := by simp; omega
    have hr := ReadFile_dwordBytes_lt e he (es.flatMap dwordBytes) d
    rw [h]
    simp only [readEntries, List.flatMap_cons, hr, ih (fun x hx => hes x (by simp [hx])) e,
      List.cons_append, List.getLast?_cons]
    simp

/-! ## Claims on the flag bit and on damaged records -/

theorem and_HASHFLAG_of_lt (x : Nat) (hx : x < 2147483648) : x &&& HASHFLAG = 0 := by
  have h : HASHFLAG = 2 ^ 31 := by decide
  have h2 : x < 2 ^ 31 := by norm_num; exact hx
  rw [h, Nat.and_two_pow, Nat.testBit_lt_two_pow h2]
  simp

theorem resolvedIdentity_raw (env : Session) (b : TBBUTTON)
    (hb : ¬ inHashedRange env b.idCommand) :
    resolvedIdentity env b = toDWORD b.idCommand := by
  unfold resolvedIdentity
  rw [if_neg (fun h => hb (Or.inl h)), if_neg (fun h => hb (Or.inr h))]

/-- C11. For a button whose command id `c` satisfies `0 <= c < 2^31`, the entry
that both loops of `saveToolbarLayout` write has the bit `0x80000000` set
exactly when `c` lies in one of the three hashed ranges; `ReadFile` returns the
entry unchanged, so the test `dword & HASHFLAG` of `restoreToolbarLayout` takes
the hash branch exactly for the entries written as hashes, and an entry written
as a raw command id is read back as that command id. -/
theorem saveToolbarLayout_flag_bit (env : Session) (b : TBBUTTON) (datFile : List Nat)
    (d : DWORD) (h0 : 0 ≤ b.idCommand) (h1 : b.idCommand < 2147483648) :
    saveOnToolbarLoop env [b] datFile = datFile ++ dwordBytes (resolvedIdentity env b) ∧
      saveAvailableLoop env [b] datFile = datFile ++ dwordBytes (resolvedIdentity env b) ∧
      (resolvedIdentity env b &&& HASHFLAG ≠ 0 ↔ inHashedRange env b.idCommand) ∧
      ((ReadFile (dwordBytes (resolvedIdentity env b)) d).1 &&& HASHFLAG ≠ 0
        ↔ inHashedRange env b.idCommand) ∧
      (¬ inHashedRange env b.idCommand →
        (ReadFile (dwordBytes (resolvedIdentity env b)) d).1 &&& HASHFLAG = 0 ∧
          (((ReadFile (dwordBytes (resolvedIdentity env b)) d).1 : Nat) : Int)
            = b.idCommand) := by
  have hflag : resolvedIdentity env b &&& HASHFLAG ≠ 0 ↔ inHashedRange env b.idCommand := by
    constructor
    · intro h
      by_contra hn
      rw [resolvedIdentity_raw env b hn, toDWORD_of_nonneg _ h0 (by omega)] at h
      exact h (and_HASHFLAG_of_lt _ (by omega))
    · exact resolvedIdentity_hashed_flag env b
  have hread : (ReadFile (dwordBytes (resolvedIdentity env b)) d).1 = resolvedIdentity env b := by
    have := ReadFile_dwordBytes_lt (resolvedIdentity env b) (resolvedIdentity_lt env b) [] d
    rw [List.append_nil] at this
    rw [this]
  refine ⟨?_, ?_, hflag, ?_, ?_⟩
  · simpa using saveOnToolbarLoop_eq env [b] datFile
  · simpa using saveAvailableLoop_eq env [b] datFile
  · rw [hread]; exact hflag
  · intro hn
    rw [hread]
    refine ⟨?_, ?_⟩
    · by_contra h
      exact hn (hflag.1 h)
    · rw [resolvedIdentity_raw env b hn, toDWORD_of_nonneg _ h0 (by omega)]
      exact Int.toNat_of_nonneg h0

/-- C11 (witness): the built-in button 300 of the scenario. -/
theorem saveToolbarLayout_flag_bit_witness :
    (0 : Int) ≤ (exampleButton 300 0).idCommand ∧
      (exampleButton 300 0).idCommand < 2147483648 ∧
      (resolvedIdentity exampleSession (exampleButton 300 0) &&& HASHFLAG ≠ 0
        ↔ inHashedRange exampleSession (exampleButton 300 0).idCommand) :=
  ⟨by decide, by decide,
    (saveToolbarLayout_flag_bit exampleSession (exampleButton 300 0) [] 0 (by decide)
      (by decide)).2.2.1⟩

theorem restoreToolbarLayout_short (env : Session) (menuStates : Bool) (u : Locals)
    (s : State) (custom wrap : DWORD) (N M : Nat) (es : List DWORD)
    (hes : ∀ e ∈ es, e < 4294967296) (hk : es.length ≤ N + M)
    (hN : N < 2147483648) (hM : M < 2147483648)
    (hfile : s.datFile = datWords custom wrap (toDWORD (N : Int)) (toDWORD (M : Int)) es) :
    (readRecord u s.datFile).2.2.2.2
        = ((es ++ List.replicate (N + M - es.length) (es.getLast?.getD u.dword)).take N,
            (es ++ List.replicate (N + M - es.length) (es.getLast?.getD u.dword)).drop N) ∧
      (restoreToolbarLayout env menuStates u s).toolbar
        = onToolbarPart env
            ((es ++ List.replicate (N + M - es.length) (es.getLast?.getD u.dword)).take N)
            s.g_tbButtons
          ++ newButtonsPart env
            ((es ++ List.replicate (N + M - es.length) (es.getLast?.getD u.dword)).drop N)
            s.g_tbButtons := by
  have hall := readEntries_short es hes (N + M - es.length) u.dword
  have hsum : es.length + (N + M - es.length) = N + M := by omega
  rw [hsum, readEntries_add] at hall
  have hlen := readEntries_length N (es.flatMap dwordBytes) u.dword
  generalize es ++ List.replicate (N + M - es.length) (es.getLast?.getD u.dword) = all at hall ⊢
  have hcat : (readEntries N (es.flatMap dwordBytes) u.dword).1
      ++ (readEntries M (readEntries N (es.flatMap dwordBytes) u.dword).2.1
            (readEntries N (es.flatMap dwordBytes) u.dword).2.2).1 = all :=
    congrArg Prod.fst hall
  have htake : all.take N = (readEntries N (es.flatMap dwordBytes) u.dword).1 := by
    rw [← hcat, List.take_append_eq_append_take, hlen, Nat.sub_self, List.take_zero,
      List.append_nil]
    exact List.take_of_length_le (by omega)
  have hdrop : all.drop N
      = (readEntries M (readEntries N (es.flatMap dwordBytes) u.dword).2.1
            (readEntries N (es.flatMap dwordBytes) u.dword).2.2).1 := by
    rw [← hcat, List.drop_append_eq_append_drop, hlen, Nat.sub_self, List.drop_zero,
      List.drop_of_length_le (by omega), List.nil_append]
  have hrec : (readRecord u s.datFile).2.2.2.2 = (all.take N, all.drop N) := by
    rw [htake, hdrop, hfile]
    unfold readRecord
    simp only [datWords, List.flatMap_append, List.flatMap_cons, List.flatMap_nil,
      List.append_assoc, List.nil_append, List.cons_append, ReadFile_dwordBytes,
      toInt_toDWORD_natCast _ hN, toInt_toDWORD_natCast _ hM]
  refine ⟨hrec, ?_⟩
  rw [restoreToolbarLayout_readRecord]
  rw [show (readRecord u s.datFile).2.2.2.2.1 = all.take N from congrArg Prod.fst hrec,
    show (readRecord u s.datFile).2.2.2.2.2 = all.drop N from congrArg Prod.snd hrec]

/-- C12 (amended). `restoreToolbarLayout` has no failure for a truncated record.
For every buffer that holds the four header words with counts `N` and `M`
followed by `k <= N + M` complete entries, it reads each of the `N + M - k`
missing entries as the value of the last entry present (as the uninitialised
value of `dword` when `k = 0`), takes the first `N` of the resulting values as
the on-toolbar list and the other `M` as the available list, and installs the
toolbar these lists give. -/
theorem restoreToolbarLayout_truncated (env : Session) (menuStates : Bool) (u : Locals)
    (s : State) (custom wrap : DWORD) (N M : Nat) (es : List DWORD)
    (hes : ∀ e ∈ es, e < 4294967296) (hk : es.length ≤ N + M)
    (hN : N < 2147483648) (hM : M < 2147483648)
    (hfile : s.datFile = datWords custom wrap (toDWORD (N : Int)) (toDWORD (M : Int)) es) :
    (readRecord u s.datFile).2.2.2.2
        = ((es ++ List.replicate (N + M - es.length) (es.getLast?.getD u.dword)).take N,
            (es ++ List.replicate (N + M - es.length) (es.getLast?.getD u.dword)).drop N) ∧
      (restoreToolbarLayout env menuStates u s).toolbar
        = onToolbarPart env
            ((es ++ List.replicate (N + M - es.length) (es.getLast?.getD u.dword)).take N)
            s.g_tbButtons
          ++ newButtonsPart env
            ((es ++ List.replicate (N + M - es.length) (es.getLast?.getD u.dword)).drop N)
            s.g_tbButtons :=
  restoreToolbarLayout_short env menuStates u s custom wrap N M es hes hk hN hM hfile

/-- C12 (witness): a buffer that announces four on-toolbar entries and holds
one. -/
theorem restoreToolbarLayout_truncated_witness :
    truncatedState.datFile
        = datWords 1 0 (toDWORD ((4 : Nat) : Int)) (toDWORD ((0 : Nat) : Int)) [100] ∧
      (readRecord zeroLocals truncatedState.datFile).2.2.2.2
        = ((([100] : List DWORD) ++ List.replicate (4 + 0 - ([100] : List DWORD).length)
              ((([100] : List DWORD).getLast?).getD zeroLocals.dword)).take 4,
            (([100] : List DWORD) ++ List.replicate (4 + 0 - ([100] : List DWORD).length)
              ((([100] : List DWORD).getLast?).getD zeroLocals.dword)).drop 4) :=
  ⟨by decide,
    (restoreToolbarLayout_truncated exampleSession true zeroLocals truncatedState 1 0 4 0 [100]
      (by decide) (by decide) (by decide) (by decide) (by decide)).1⟩

/-- C12 (counterexample). The buffer holds 20 bytes, fewer than `8 + 4 * (4 + 0)`,
and its header announces four on-toolbar entries. `restoreToolbarLayout` does
not fail: it uses the single entry 100 four times and installs the button 100
four times from the on-toolbar pass (and once more as a new button). -/
theorem restoreToolbarLayout_truncated_repeats :
    truncatedState.datFile.length = 20 ∧ 20 < 8 + 4 * (4 + 0) ∧
      (readRecord zeroLocals truncatedState.datFile).2.2
        = (4, 0, [100, 100, 100, 100], []) ∧
      (restoreToolbarLayout exampleSession true zeroLocals truncatedState).toolbar
        = [exampleButton 100 0, exampleButton 100 0, exampleButton 100 0,
            exampleButton 100 0, exampleButton 100 0] := by
  decide

theorem toInt_negative (w : Nat) (h0 : 2147483648 ≤ w) (h1 : w < 4294967296) :
    (toInt (w % 4294967296)).toNat = 0 := by
  unfold toInt
  have hm : w % 4294967296 % 4294967296 = w := by omega
  rw [hm]
  have hn : ¬ w < 2147483648 := by omega
  rw [if_neg hn]
  apply Int.toNat_eq_zero.2
  omega

theorem newButtonsPart_nil (env : Session) (btns : List TBBUTTON) :
    newButtonsPart env [] btns = btns.map clearData := by
  unfold newButtonsPart availableMarks
  induction btns with
  | nil => simp
  | cons b rest ih =>
    simp only [List.foldl_nil, List.map_cons, List.filter_cons] at ih ⊢
    simp [clearData, ih]

/-- C13 (amended). `restoreToolbarLayout` validates neither count and rejects no
record. A negative on-toolbar count makes the on-toolbar pass read no entry, so
the available entries are read right after the header; a negative available
count makes the available pass read no entry, so every button is added as new;
and for every pair of counts below `2^31`, however large, all entries are read
and interpreted. -/
theorem restoreToolbarLayout_counts_unchecked (env : Session) (menuStates : Bool)
    (u : Locals) (s : State) (custom wrap : DWORD) :
    (∀ (nOnToolbar : DWORD) (available : List DWORD) (extra : List Nat),
        2147483648 ≤ nOnToolbar → nOnToolbar < 4294967296 →
        (∀ e ∈ available, e < 4294967296) → available.length < 2147483648 →
        s.datFile = datWords custom wrap nOnToolbar (toDWORD (available.length : Int)) available
          ++ extra →
        (restoreToolbarLayout env menuStates u s).toolbar
          = newButtonsPart env available s.g_tbButtons) ∧
      (∀ (nAvailable : DWORD) (onToolbar : List DWORD) (extra : List Nat),
        2147483648 ≤ nAvailable → nAvailable < 4294967296 →
        (∀ e ∈ onToolbar, e < 4294967296) → onToolbar.length < 2147483648 →
        s.datFile = datWords custom wrap (toDWORD (onToolbar.length : Int)) nAvailable onToolbar
          ++ extra →
        (restoreToolbarLayout env menuStates u s).toolbar
          = onToolbarPart env onToolbar s.g_tbButtons ++ s.g_tbButtons.map clearData) ∧
      (∀ (onToolbar available : List DWORD) (extra : List Nat),
        ValidRecord onToolbar available →
        s.datFile = datRecord custom wrap onToolbar available ++ extra →
        (restoreToolbarLayout env menuStates u s).toolbar
          = onToolbarPart env onToolbar s.g_tbButtons
            ++ newButtonsPart env available s.g_tbButtons) := by
  refine ⟨?_, ?_, ?_⟩
  · intro nw available extra h0 h1 hav hlen hfile
    obtain ⟨d1, hr⟩ := readEntries_eq available hav extra u.dword
    rw [restoreToolbarLayout_readRecord, hfile]
    unfold readRecord
    simp only [datWords, List.flatMap_append, List.flatMap_cons, List.flatMap_nil,
      List.append_assoc, List.nil_append, List.cons_append, ReadFile_dwordBytes,
      toInt_negative nw h0 h1, toInt_toDWORD_natCast _ hlen, readEntries, hr]
    simp [onToolbarPart]
  · intro mw onToolbar extra h0 h1 hon hlen hfile
    obtain ⟨d1, hr⟩ := readEntries_eq onToolbar hon extra u.dword
    rw [restoreToolbarLayout_readRecord, hfile]
    unfold readRecord
    simp only [datWords, List.flatMap_append, List.flatMap_cons, List.flatMap_nil,
      List.append_assoc, List.nil_append, List.cons_append, ReadFile_dwordBytes,
      toInt_negative mw h0 h1, toInt_toDWORD_natCast _ hlen, readEntries, hr]
    rw [newButtonsPart_nil]
  · intro onToolbar available extra hrec hfile
    exact restoreToolbarLayout_toolbar env menuStates u s custom wrap onToolbar available
      extra hrec hfile

/-- C13 (witness): a record with on-toolbar count -1 and two available entries. -/
theorem restoreToolbarLayout_counts_unchecked_witness :
    negativeCountState.datFile
        = datWords 1 0 4294967295 (toDWORD (([100, 200] : List DWORD).length : Int)) [100, 200]
          ++ [] ∧
      (restoreToolbarLayout exampleSession true zeroLocals negativeCountState).toolbar
        = newButtonsPart exampleSession [100, 200] negativeCountState.g_tbButtons :=
  ⟨by decide,
    (restoreToolbarLayout_counts_unchecked exampleSession true zeroLocals negativeCountState
      1 0).1 4294967295 [100, 200] [] (by decide) (by decide) (by decide) (by decide)
      (by decide)⟩

theorem onToolbarPart_replicate (env : Session) (e : DWORD) (b : TBBUTTON)
    (btns : List TBBUTTON) (hb : btns.find? (restoreMatches env e) = some b) (n : Nat) :
    onToolbarPart env (List.replicate n e) btns = List.replicate n b := by
  induction n with
  | zero => simp [onToolbarPart]
  | succ n ih => rw [List.replicate_succ, onToolbarPart_cons, hb, ih, List.replicate_succ]; rfl

theorem restoreToolbarLayout_count (n : Nat) (hn : n < 2147483648) (s : State)
    (hbtns : s.g_tbButtons = [exampleButton 100 0])
    (hfile : s.datFile = datWords 1 0 (toDWORD (n : Int)) (toDWORD ((1 : Nat) : Int)) [100]) :
    (restoreToolbarLayout exampleSession true zeroLocals s).toolbar
      = List.replicate n (exampleButton 100 0) := by
  have h := (restoreToolbarLayout_short exampleSession true zeroLocals s 1 0 n 1 [100]
    (by decide) (by simp) hn (by decide) hfile).2
  have hall : ([100] : List DWORD) ++ List.replicate (n + 1 - ([100] : List DWORD).length)
      ((([100] : List DWORD).getLast?).getD zeroLocals.dword)
      = List.replicate (n + 1) (100 : DWORD) := by
    simp [List.replicate_succ]
  rw [hall, hbtns, List.take_replicate, List.drop_replicate] at h
  have h1 : min n (n + 1) = n := by omega
  have h2 : n + 1 - n = 1 := by omega
  rw [h1, h2, onToolbarPart_replicate exampleSession 100 (exampleButton 100 0) _ (by decide)]
    at h
  have h3 : newButtonsPart exampleSession (List.replicate 1 (100 : DWORD))
      [exampleButton 100 0] = [] := by decide
  rw [h3, List.append_nil] at h
  exact h

/-- C13 (counterexample). The 20-byte buffer announces `2^31 - 1` on-toolbar
entries. `restoreToolbarLayout` rejects nothing: the on-toolbar pass runs
`2^31 - 1` times and installs the button 100 that many times. -/
theorem restoreToolbarLayout_counts_unchecked_max :
    maxCountState.datFile = datWords 1 0 2147483647 1 [100] ∧
      (restoreToolbarLayout exampleSession true zeroLocals maxCountState).toolbar
        = List.replicate 2147483647 (exampleButton 100 0) ∧
      (restoreToolbarLayout exampleSession true zeroLocals maxCountState).toolbar.length
        = 2147483647 := by
  have hfile : maxCountState.datFile
      = datWords 1 0 (toDWORD ((2147483647 : Nat) : Int)) (toDWORD ((1 : Nat) : Int)) [100] := by
    rw [toDWORD_natCast _ (by norm_num), toDWORD_natCast _ (by norm_num)]
    rfl
  have h := restoreToolbarLayout_count 2147483647 (by norm_num) maxCountState rfl hfile
  refine ⟨rfl, h, ?_⟩
  rw [h, List.length_replicate]

/-! ## Claims on matching -/

theorem mem_onToolbarPart (env : Session) (es : List DWORD) (btns : List TBBUTTON)
    (t : TBBUTTON) (ht : t ∈ onToolbarPart env es btns) :
    ∃ e ∈ es, t ∈ btns ∧ restoreMatches env e t = true := by
  unfold onToolbarPart at ht
  obtain ⟨e, he, hte⟩ := List.mem_flatMap.1 ht
  have hfind : btns.find? (restoreMatches env e) = some t := by
    cases hf : btns.find? (restoreMatches env e) with
    | none => simp [hf] at hte
    | some x =>
      simp [hf] at hte
      rw [hte]
  exact ⟨e, he, List.mem_of_find?_eq_some hfind, List.find?_some hfind⟩

theorem restoreMatches_unique (env : Session) (e1 e2 : DWORD) (t : TBBUTTON)
    (h1 : restoreMatches env e1 t = true) (h2 : restoreMatches env e2 t = true)
    (hr1 : e1 &&& HASHFLAG = 0 → inHashedRange env t.idCommand → toDWORD t.idCommand ≠ e1)
    (hr2 : e2 &&& HASHFLAG = 0 → inHashedRange env t.idCommand → toDWORD t.idCommand ≠ e2) :
    e1 = e2 := by
  by_cases hf1 : e1 &&& HASHFLAG ≠ 0
  · obtain ⟨hin, hid1⟩ := (restoreMatches_hashed env e1 t hf1).1 h1
    by_cases hf2 : e2 &&& HASHFLAG ≠ 0
    · rw [hid1, ((restoreMatches_hashed env e2 t hf2).1 h2).2]
    · have hf2z : e2 &&& HASHFLAG = 0 := by simpa using hf2
      exact absurd ((restoreMatches_raw env e2 t hf2z).1 h2).symm (hr2 hf2z hin)
  · have hf1z : e1 &&& HASHFLAG = 0 := by simpa using hf1
    have hid1 := (restoreMatches_raw env e1 t hf1z).1 h1
    by_cases hf2 : e2 &&& HASHFLAG ≠ 0
    · obtain ⟨hin, _⟩ := (restoreMatches_hashed env e2 t hf2).1 h2
      exact absurd hid1.symm (hr1 hf1z hin)
    · have hf2z : e2 &&& HASHFLAG = 0 := by simpa using hf2
      rw [hid1, (restoreMatches_raw env e2 t hf2z).1 h2]

theorem onToolbarPart_nodup (env : Session) (es : List DWORD) (btns : List TBBUTTON)
    (hnd : es.Nodup)
    (hraw : ∀ e ∈ es, e &&& HASHFLAG = 0 →
      ∀ b ∈ btns, inHashedRange env b.idCommand → toDWORD b.idCommand ≠ e) :
    (onToolbarPart env es btns).Nodup := by
  induction es with
  | nil => simp [onToolbarPart]
  | cons e es ih =>
    obtain ⟨hne, hnd1⟩ := List.nodup_cons.1 hnd
    have ih1 := ih hnd1 (fun x hx => hraw x (by simp [hx]))
    rw [onToolbarPart_cons]
    cases hf : btns.find? (restoreMatches env e) with
    | none => simpa using ih1
    | some t =>
      have htm := List.find?_some hf
      have htb := List.mem_of_find?_eq_some hf
      simp only [Option.toList, List.singleton_append, List.nodup_cons]
      refine ⟨?_, ih1⟩
      intro hmem
      obtain ⟨e2, he2, _, hm2⟩ := mem_onToolbarPart env es btns t hmem
      have heq : e = e2 := restoreMatches_unique env e e2 t htm hm2
        (fun h hin => hraw e (by simp) h t htb hin)
        (fun h hin => hraw e2 (by simp [he2]) h t htb hin)
      exact hne (heq ▸ he2)

/-- C14 (amended). The on-toolbar pass of `restoreToolbarLayout` marks nothing
as consumed: it appends, for each saved entry in saved order, the first button
of `g_tbButtons` that matches it, so a button is appended once for every saved
entry whose first match it is. When the saved on-toolbar list repeats no entry
and none of its entries without `HASHFLAG` equals the command id of a button in
a hashed range, no entry of `g_tbButtons` is appended more than once by that
pass. -/
theorem restoreOnToolbarLoop_appends (env : Session) (g_tbButtons : List TBBUTTON)
    (onToolbar : List DWORD) (rest : List Nat) (d : DWORD)
    (hvalid : ∀ e ∈ onToolbar, e < 4294967296)
    (hnd : onToolbar.Nodup)
    (hraw : ∀ e ∈ onToolbar, e &&& HASHFLAG = 0 →
      ∀ b ∈ g_tbButtons, inHashedRange env b.idCommand → toDWORD b.idCommand ≠ e) :
    (restoreOnToolbarLoop env g_tbButtons onToolbar.length
        (onToolbar.flatMap dwordBytes ++ rest) d []).2.2
        = onToolbar.flatMap (fun e => (g_tbButtons.find? (restoreMatches env e)).toList) ∧
      (restoreOnToolbarLoop env g_tbButtons onToolbar.length
        (onToolbar.flatMap dwordBytes ++ rest) d []).2.2.Nodup := by
  obtain ⟨d1, h1⟩ := restoreOnToolbarLoop_eq env g_tbButtons onToolbar hvalid rest d []
  rw [h1]
  simp only [List.nil_append]
  exact ⟨rfl, onToolbarPart_nodup env onToolbar g_tbButtons hnd hraw⟩

/-- C14 (witness): the on-toolbar list of the scenario repeats no entry. -/
theorem restoreOnToolbarLoop_appends_witness :
    ([100, 2147484203] : List DWORD).Nodup ∧
      (restoreOnToolbarLoop exampleSession scenarioButtons
        ([100, 2147484203] : List DWORD).length
        (([100, 2147484203] : List DWORD).flatMap dwordBytes ++ []) 0 []).2.2.Nodup :=
  ⟨by decide,
    (restoreOnToolbarLoop_appends exampleSession scenarioButtons [100, 2147484203] [] 0
      (by decide) (by decide) (by decide)).2⟩

/-- C14 (counterexample). The saved on-toolbar list `[100, 100]` repeats an
identity; the on-toolbar pass appends the button 100, the first entry of
`g_tbButtons`, twice. -/
theorem restoreOnToolbarLoop_appends_twice :
    (restoreOnToolbarLoop exampleSession scenarioButtons 2
        (([100, 100] : List DWORD).flatMap dwordBytes) 0 []).2.2
        = [exampleButton 100 0, exampleButton 100 0] ∧
      ¬ (restoreOnToolbarLoop exampleSession scenarioButtons 2
        (([100, 100] : List DWORD).flatMap dwordBytes) 0 []).2.2.Nodup ∧
      (restoreToolbarLayout exampleSession true zeroLocals repeatState).toolbar
        = [exampleButton 100 0, exampleButton 100 0] := by
  decide

/-- C16 (amended). In both passes `restoreToolbarLayout` treats the button `b`
as matching the saved entry `e` exactly when `e` has the `HASHFLAG` bit, the
command id of `b` lies in a hashed range and `e` equals the hash of `b`, or `e`
lacks the bit and equals the command id of `b` (no range test is made). This
agrees with `e` being the identity `saveToolbarLayout` writes for `b` whenever
a command id outside the hashed ranges has no `HASHFLAG` bit and `e` is not the
raw command id of a button in a hashed range. -/
theorem restoreMatches_iff_identity (env : Session) (e : DWORD) (b : TBBUTTON)
    (hb : ¬ inHashedRange env b.idCommand → toDWORD b.idCommand &&& HASHFLAG = 0)
    (he : inHashedRange env b.idCommand → e ≠ toDWORD b.idCommand) :
    (restoreMatches env e b = true ↔ e = resolvedIdentity env b) ∧
      (restoreMatches env e b = true ↔
        (e &&& HASHFLAG ≠ 0 ∧ inHashedRange env b.idCommand ∧ e = resolvedIdentity env b) ∨
        (e &&& HASHFLAG = 0 ∧ e = toDWORD b.idCommand)) ∧
      (if e &&& HASHFLAG ≠ 0 then restoreAddHashed env e [b] [] else restoreAddRaw e [b] [])
        = (if restoreMatches env e b = true then [b] else []) ∧
      (if e &&& HASHFLAG ≠ 0 then restoreMarkHashed env e [b] else restoreMarkRaw e [b])
        = (if restoreMatches env e b = true then [clearData b] else [b]) := by
  have hcode : restoreMatches env e b = true ↔
      (e &&& HASHFLAG ≠ 0 ∧ inHashedRange env b.idCommand ∧ e = resolvedIdentity env b) ∨
      (e &&& HASHFLAG = 0 ∧ e = toDWORD b.idCommand) := by
    by_cases hf : e &&& HASHFLAG ≠ 0
    · rw [restoreMatches_hashed env e b hf]
      constructor
      · intro h; exact Or.inl ⟨hf, h⟩
      · rintro (h | h)
        · exact h.2
        · exact absurd h.1 hf
    · have hfz : e &&& HASHFLAG = 0 := by simpa using hf
      rw [restoreMatches_raw env e b hfz]
      constructor
      · intro h; exact Or.inr ⟨hfz, h⟩
      · rintro (h | h)
        · exact absurd h.1 hf
        · exact h.2
  refine ⟨?_, hcode, ?_, ?_⟩
  · rw [hcode]
    constructor
    · rintro (⟨_, _, h⟩ | ⟨hfz, h⟩)
      · exact h
      · by_cases hin : inHashedRange env b.idCommand
        · exact absurd h (he hin)
        · rw [resolvedIdentity_raw env b hin]; exact h
    · intro h
      by_cases hin : inHashedRange env b.idCommand
      · left
        refine ⟨?_, hin, h⟩
        rw [h]; exact resolvedIdentity_hashed_flag env b hin
      · right
        rw [resolvedIdentity_raw env b hin] at h
        refine ⟨?_, h⟩
        rw [h]; exact hb hin
  · by_cases hf : e &&& HASHFLAG ≠ 0
    · rw [if_pos hf, restoreAddHashed_eq env e hf]
      cases hm : restoreMatches env e b <;> simp [hm]
    · rw [if_neg hf, restoreAddRaw_eq env e (by simpa using hf)]
      cases hm : restoreMatches env e b <;> simp [hm]
  · by_cases hf : e &&& HASHFLAG ≠ 0
    · rw [if_pos hf, restoreMarkHashed_eq_map env e hf [b] (by simp)]
      cases hm : restoreMatches env e b <;> simp [hm]
    · rw [if_neg hf, restoreMarkRaw_eq_map env e (by simpa using hf)]
      cases hm : restoreMatches env e b <;> simp [hm]

/-- C16 (witness): the entry 100 and the built-in button 100. -/
theorem restoreMatches_iff_identity_witness :
    (restoreMatches exampleSession 100 (exampleButton 100 0) = true
      ↔ (100 : DWORD) = resolvedIdentity exampleSession (exampleButton 100 0)) :=
  (restoreMatches_iff_identity exampleSession 100 (exampleButton 100 0) (by decide)
    (by decide)).1

/-- C16 (counterexample). The saved raw entry 22001 is not the identity that
`saveToolbarLayout` writes for the plugin button 22001 (a menu hash), and the
command id of that button lies in a hashed range; both passes nevertheless treat
the button as matching: the on-toolbar pass installs it and the available pass
clears its mark. -/
theorem restoreMatches_raw_entry_in_hashed_range :
    (22001 : DWORD) &&& HASHFLAG = 0 ∧
      inHashedRange exampleSession (exampleButton 22001 0).idCommand ∧
      (22001 : DWORD) ≠ resolvedIdentity exampleSession (exampleButton 22001 0) ∧
      restoreAddRaw 22001 [exampleButton 22001 0] [] = [exampleButton 22001 0] ∧
      restoreMarkRaw 22001 [{ exampleButton 22001 0 with dwData := 1 }]
        = [exampleButton 22001 0] ∧
      (restoreToolbarLayout exampleSession true zeroLocals rawEntryState).toolbar
        = [exampleButton 22001 0] := by
  decide

/-! ## Claims on separators -/

theorem restoreMarkHashed_cons (env : Session) (e : DWORD) (b : TBBUTTON)
    (rest : List TBBUTTON) :
    restoreMarkHashed env e (b :: rest) = clearData b :: rest ∨
      restoreMarkHashed env e (b :: rest) = b :: restoreMarkHashed env e rest := by
  simp only [restoreMarkHashed]
  split_ifs <;> simp [clearData]

theorem restoreMarkHashed_origin (env : Session) (e : DWORD) (l : List TBBUTTON)
    (x : TBBUTTON) (hx : x ∈ restoreMarkHashed env e l) :
    ∃ y ∈ l, x = y ∨ x = clearData y := by
  induction l with
  | nil => simp [restoreMarkHashed] at hx
  | cons b rest ih =>
    rcases restoreMarkHashed_cons env e b rest with hc | hc
    · rw [hc] at hx
      rcases List.mem_cons.1 hx with h | h
      · exact ⟨b, List.mem_cons_self _ _, Or.inr h⟩
      · exact ⟨x, List.mem_cons_of_mem _ h, Or.inl rfl⟩
    · rw [hc] at hx
      rcases List.mem_cons.1 hx with h | h
      · exact ⟨b, List.mem_cons_self _ _, Or.inl h⟩
      · obtain ⟨y, hy, hxy⟩ := ih h
        exact ⟨y, List.mem_cons_of_mem _ hy, hxy⟩

theorem restoreMarkRaw_origin (e : DWORD) (l : List TBBUTTON)
    (x : TBBUTTON) (hx : x ∈ restoreMarkRaw e l) :
    ∃ y ∈ l, x = y ∨ x = clearData y := by
  induction l with
  | nil => simp [restoreMarkRaw] at hx
  | cons b rest ih =>
    have hc : restoreMarkRaw e (b :: rest) = clearData b :: restoreMarkRaw e rest ∨
        restoreMarkRaw e (b :: rest) = b :: restoreMarkRaw e rest := by
      simp only [restoreMarkRaw]
      split_ifs <;> simp [clearData]
    rcases hc with hc | hc
    · rw [hc] at hx
      rcases List.mem_cons.1 hx with h | h
      · exact ⟨b, List.mem_cons_self _ _, Or.inr h⟩
      · obtain ⟨y, hy, hxy⟩ := ih h
        exact ⟨y, List.mem_cons_of_mem _ hy, hxy⟩
    · rw [hc] at hx
      rcases List.mem_cons.1 hx with h | h
      · exact ⟨b, List.mem_cons_self _ _, Or.inl h⟩
      · obtain ⟨y, hy, hxy⟩ := ih h
        exact ⟨y, List.mem_cons_of_mem _ hy, hxy⟩

theorem availableMarks_cleared (env : Session) (available : List DWORD) (e : DWORD)
    (he : e ∈ available) (hraw : e &&& HASHFLAG = 0) (l : List TBBUTTON) :
    ∀ x ∈ availableMarks env available l, toDWORD x.idCommand = e → x.dwData = 0 := by
  have keep : ∀ (av : List DWORD) (l : List TBBUTTON),
      (∀ x ∈ l, toDWORD x.idCommand = e → x.dwData = 0) →
      ∀ x ∈ availableMarks env av l, toDWORD x.idCommand = e → x.dwData = 0 := by
    intro av
    induction av with
    | nil => intro l hl; simpa [availableMarks] using hl
    | cons a as ih =>
      intro l hl
      simp only [availableMarks, List.foldl_cons]
      apply ih
      intro x hx hxe
      have horigin : ∃ y ∈ l, x = y ∨ x = clearData y := by
        by_cases hf : a &&& HASHFLAG ≠ 0
        · rw [if_pos hf] at hx; exact restoreMarkHashed_origin env a l x hx
        · rw [if_neg hf] at hx; exact restoreMarkRaw_origin a l x hx
      obtain ⟨y, hy, hxy | hxy⟩ := horigin
      · subst hxy; exact hl x hy hxe
      · rw [hxy]; rfl
  induction available generalizing l with
  | nil => simp at he
  | cons a as ih =>
    simp only [availableMarks, List.foldl_cons]
    rcases List.mem_cons.1 he with hea | hmem
    · subst hea
      have hf : ¬ (e &&& HASHFLAG ≠ 0) := by simp [hraw]
      rw [if_neg hf]
      apply keep
      intro x hx hxe
      rw [restoreMarkRaw_eq_map env e hraw] at hx
      obtain ⟨y, _, hxy⟩ := List.mem_map.1 hx
      by_cases hm : restoreMatches env e y = true
      · rw [if_pos hm] at hxy
        rw [← hxy]; rfl
      · rw [if_neg hm] at hxy
        subst hxy
        exact absurd ((restoreMatches_raw env e y hraw).2 hxe.symm) hm
    · exact ih hmem _

theorem toDWORD_injective (a b : Int) (ha : IsInt32 a) (hb : IsInt32 b)
    (h : toDWORD a = toDWORD b) : a = b := by
  obtain ⟨ha0, ha1⟩ := ha
  obtain ⟨hb0, hb1⟩ := hb
  unfold toDWORD at h
  have h2 : a % 4294967296 = b % 4294967296 := by
    have hna : 0 ≤ a % 4294967296 := Int.emod_nonneg _ (by norm_num)
    have hnb : 0 ≤ b % 4294967296 := Int.emod_nonneg _ (by norm_num)
    have := congrArg (fun n : Nat => (n : Int)) h
    simp only [Int.toNat_of_nonneg hna, Int.toNat_of_nonneg hnb] at this
    exact this
  omega

/-- C15. Separators are neither collapsed nor multiplied. Let `sep` be the
separator command id (`0 <= sep < 22000`), let the saved available list hold
it and let `g_tbButtons` hold at least one button with that id. Then the number
of buttons with that id on the installed toolbar equals the number `k` of saved
on-toolbar entries equal to it: the on-toolbar pass adds one per saved entry and
the last loop adds none. -/
theorem restoreToolbarLayout_separators (env : Session) (menuStates : Bool) (u : Locals)
    (s : State) (custom wrap : DWORD) (onToolbar available : List DWORD) (extra : List Nat)
    (sep : Int)
    (hrec : ValidRecord onToolbar available)
    (hfile : s.datFile = datRecord custom wrap onToolbar available ++ extra)
    (hsep0 : 0 ≤ sep) (hsep1 : sep < 22000)
    (hint : ∀ b ∈ s.g_tbButtons, IsInt32 b.idCommand)
    (havail : toDWORD sep ∈ available)
    (hcur : ∃ b ∈ s.g_tbButtons, b.idCommand = sep) :
    (restoreToolbarLayout env menuStates u s).toolbar.countP
        (fun b => decide (b.idCommand = sep)) = onToolbar.count (toDWORD sep) ∧
      (onToolbarPart env onToolbar s.g_tbButtons).countP
        (fun b => decide (b.idCommand = sep)) = onToolbar.count (toDWORD sep) ∧
      (newButtonsPart env available s.g_tbButtons).countP
        (fun b => decide (b.idCommand = sep)) = 0 := by
  have hsepint : IsInt32 sep := ⟨by omega, by omega⟩
  have hsepd : toDWORD sep = sep.toNat := toDWORD_of_nonneg _ hsep0 (by omega)
  have hsepflag : toDWORD sep &&& HASHFLAG = 0 := by
    rw [hsepd]; exact and_HASHFLAG_of_lt _ (by omega)
  have hsepout : ∀ c : Int, inHashedRange env c → c ≠ sep := by
    intro c hc
    unfold inHashedRange inMenuRange inStringRange at hc
    omega
  -- the on-toolbar pass
  have hon : (onToolbarPart env onToolbar s.g_tbButtons).countP
      (fun b => decide (b.idCommand = sep)) = onToolbar.count (toDWORD sep) := by
    generalize onToolbar = es
    induction es with
    | nil => simp [onToolbarPart]
    | cons e es ih =>
      rw [onToolbarPart_cons, List.countP_append, ih, List.count_cons]
      by_cases hes : e = toDWORD sep
      · obtain ⟨b, hb, hbs⟩ := hcur
        have hmatch : restoreMatches env e b = true := by
          rw [hes]
          exact (restoreMatches_raw env _ b hsepflag).2 (by rw [hbs])
        cases hf : s.g_tbButtons.find? (restoreMatches env e) with
        | none =>
          have := (List.find?_eq_none.1 hf) b hb
          exact absurd hmatch this
        | some t =>
          have htm := List.find?_some hf
          have htb := List.mem_of_find?_eq_some hf
          rw [hes] at htm
          have hid := (restoreMatches_raw env _ t hsepflag).1 htm
          have hts : t.idCommand = sep :=
            (toDWORD_injective _ _ hsepint (hint t htb) hid).symm
          simp [hts, hes]
          omega
      · cases hf : s.g_tbButtons.find? (restoreMatches env e) with
        | none => simp [hes]
        | some t =>
          have htm := List.find?_some hf
          have hts : t.idCommand ≠ sep := by
            by_cases hflag : e &&& HASHFLAG ≠ 0
            · exact hsepout _ ((restoreMatches_hashed env e t hflag).1 htm).1
            · have hid := (restoreMatches_raw env e t (by simpa using hflag)).1 htm
              intro h
              exact hes (by rw [hid, h])
          simp [hts, hes]
  -- the last loop
  have hnew : (newButtonsPart env available s.g_tbButtons).countP
      (fun b => decide (b.idCommand = sep)) = 0 := by
    rw [List.countP_eq_zero]
    intro x hx
    unfold newButtonsPart at hx
    obtain ⟨y, hy, rfl⟩ := List.mem_map.1 hx
    obtain ⟨hy1, hy2⟩ := List.mem_filter.1 hy
    have hy3 : y.dwData = 1 := by simpa using hy2
    intro hxs
    have hys : y.idCommand = sep := by simpa [clearData] using hxs
    have := availableMarks_cleared env available (toDWORD sep) havail hsepflag _ y hy1
      (by rw [hys])
    omega
  refine ⟨?_, hon, hnew⟩
  rw [restoreToolbarLayout_toolbar env menuStates u s custom wrap onToolbar available extra
    hrec hfile]
  have h2 := hnew
  unfold newButtonsPart at h2
  rw [List.countP_append, hon, h2, Nat.add_zero]

/-- C15 (witness): three saved separator slots, two separators available. -/
theorem restoreToolbarLayout_separators_witness :
    toDWORD 0 ∈ ([0, 100, 200] : List DWORD) ∧
      (∃ b ∈ separatorState.g_tbButtons, b.idCommand = 0) ∧
      ([0, 100, 0, 0] : List DWORD).count (toDWORD 0) = 3 ∧
      (restoreToolbarLayout exampleSession true zeroLocals separatorState).toolbar.countP
        (fun b => decide (b.idCommand = 0)) = ([0, 100, 0, 0] : List DWORD).count (toDWORD 0) :=
  ⟨by decide, by decide, by decide,
    (restoreToolbarLayout_separators exampleSession true zeroLocals separatorState 1 0
      [0, 100, 0, 0] [0, 100, 200] [] 0 (by decide) (List.append_nil _).symm (by decide)
      (by decide) (by decide) (by decide) (by decide)).1⟩

/-! ## The state after a restore -/

theorem restoreAddNew_fst (l toolbar : List TBBUTTON) :
    (restoreAddNew l toolbar).1 = l.map (fun b => if b.dwData = 1 then clearData b else b) := by
  induction l generalizing toolbar with
  | nil => simp [restoreAddNew]
  | cons b rest ih =>
    unfold restoreAddNew
    split_ifs with h
    · have := ih (toolbar ++ [{ b with dwData := 0 }])
      simp_all [clearData]
    · have := ih toolbar
      simp_all

theorem restoreToolbarLayout_fields (env : Session) (menuStates : Bool) (u : Locals)
    (s : State) :
    (restoreToolbarLayout env menuStates u s).datFile = s.datFile ∧
      (restoreToolbarLayout env menuStates u s).g_customButtonsState
        = (if menuStates = true then toInt (ReadFile s.datFile (toDWORD u.i)).1
            else s.g_customButtonsState) ∧
      (restoreToolbarLayout env menuStates u s).g_wrapToolbarState
        = (if menuStates = true then
            toInt (ReadFile (ReadFile s.datFile (toDWORD u.i)).2
              (toDWORD (toInt (ReadFile s.datFile (toDWORD u.i)).1))).1
            else s.g_wrapToolbarState) ∧
      (restoreToolbarLayout env menuStates u s).g_tbButtons
        = (availableMarks env (readRecord u s.datFile).2.2.2.2.2
            (s.g_tbButtons.map (fun b => { b with dwData := 1 }))).map
            (fun b => if b.dwData = 1 then clearData b else b) := by
  unfold restoreToolbarLayout readRecord
  simp only [restoreOnToolbarLoop_readEntries, restoreAvailableLoop_readEntries]
  refine ⟨trivial, trivial, trivial, ?_⟩
  simp only [restoreAddNew_fst]

theorem clearData_eq_self (b : TBBUTTON) (h : b.dwData = 0) : clearData b = b := by
  cases b
  simp only [clearData] at h ⊢
  subst h
  rfl

theorem clearData_clearData (b : TBBUTTON) : clearData (clearData b) = clearData b := rfl

theorem restoreMarkHashed_map_clearData (env : Session) (e : DWORD) (l : List TBBUTTON) :
    (restoreMarkHashed env e l).map clearData = l.map clearData := by
  induction l with
  | nil => simp [restoreMarkHashed]
  | cons b rest ih =>
    rcases restoreMarkHashed_cons env e b rest with hc | hc
    · rw [hc]; simp [clearData_clearData]
    · rw [hc]; simp [ih]

theorem restoreMarkRaw_map_clearData (e : DWORD) (l : List TBBUTTON) :
    (restoreMarkRaw e l).map clearData = l.map clearData := by
  induction l with
  | nil => simp [restoreMarkRaw]
  | cons b rest ih =>
    simp only [restoreMarkRaw]
    split_ifs <;> simp [ih, clearData]

theorem availableMarks_map_clearData (env : Session) (available : List DWORD)
    (l : List TBBUTTON) :
    (availableMarks env available l).map clearData = l.map clearData := by
  induction available generalizing l with
  | nil => simp [availableMarks]
  | cons a as ih =>
    simp only [availableMarks, List.foldl_cons]
    have h := ih (if a &&& HASHFLAG ≠ 0 then restoreMarkHashed env a l else restoreMarkRaw a l)
    simp only [availableMarks] at h
    rw [h]
    split_ifs
    · exact restoreMarkHashed_map_clearData env a l
    · exact restoreMarkRaw_map_clearData a l

theorem availableMarks_dwData (env : Session) (available : List DWORD) (l : List TBBUTTON)
    (hl : ∀ x ∈ l, x.dwData = 1 ∨ x.dwData = 0) :
    ∀ x ∈ availableMarks env available l, x.dwData = 1 ∨ x.dwData = 0 := by
  induction available generalizing l with
  | nil => simpa [availableMarks] using hl
  | cons a as ih =>
    simp only [availableMarks, List.foldl_cons]
    apply ih
    intro x hx
    have horigin : ∃ y ∈ l, x = y ∨ x = clearData y := by
      by_cases hf : a &&& HASHFLAG ≠ 0
      · rw [if_pos hf] at hx; exact restoreMarkHashed_origin env a l x hx
      · rw [if_neg hf] at hx; exact restoreMarkRaw_origin a l x hx
    obtain ⟨y, hy, hxy | hxy⟩ := horigin
    · subst hxy; exact hl x hy
    · rw [hxy]; exact Or.inr rfl

theorem restoreToolbarLayout_g_tbButtons (env : Session) (menuStates : Bool) (u : Locals)
    (s : State) :
    (restoreToolbarLayout env menuStates u s).g_tbButtons = s.g_tbButtons.map clearData := by
  rw [(restoreToolbarLayout_fields env menuStates u s).2.2.2]
  have hdw := availableMarks_dwData env (readRecord u s.datFile).2.2.2.2.2
    (s.g_tbButtons.map (fun b => { b with dwData := 1 }))
    (by intro x hx; obtain ⟨y, _, rfl⟩ := List.mem_map.1 hx; exact Or.inl rfl)
  have hmap := availableMarks_map_clearData env (readRecord u s.datFile).2.2.2.2.2
    (s.g_tbButtons.map (fun b => { b with dwData := 1 }))
  have hcong : (availableMarks env (readRecord u s.datFile).2.2.2.2.2
      (s.g_tbButtons.map (fun b => { b with dwData := 1 }))).map
        (fun b => if b.dwData = 1 then clearData b else b)
      = (availableMarks env (readRecord u s.datFile).2.2.2.2.2
        (s.g_tbButtons.map (fun b => { b with dwData := 1 }))).map clearData := by
    apply List.map_congr_left
    intro x hx
    rcases hdw x hx with h | h
    · simp [h]
    · have hne : ¬ x.dwData = 1 := by omega
      simp [hne, clearData_eq_self x h]
  rw [hcong, hmap, List.map_map]
  apply List.map_congr_left
  intro x _
  rfl

theorem onToolbarPart_map_clearData (env : Session) (es : List DWORD) (btns : List TBBUTTON) :
    onToolbarPart env es (btns.map clearData) = (onToolbarPart env es btns).map clearData := by
  have hfind : ∀ e : DWORD, (btns.map clearData).find? (restoreMatches env e)
      = (btns.find? (restoreMatches env e)).map clearData := by
    intro e
    induction btns with
    | nil => simp
    | cons b rest ih =>
      have hm : restoreMatches env e (clearData b) = restoreMatches env e b :=
        restoreMatches_dwData env e b 0
      simp only [List.map_cons, List.find?_cons, hm]
      cases restoreMatches env e b
      · simpa using ih
      · simp
  induction es with
  | nil => simp [onToolbarPart]
  | cons e es ih =>
    rw [onToolbarPart_cons, onToolbarPart_cons, ih, hfind, List.map_append]
    cases btns.find? (restoreMatches env e) <;> simp

theorem newButtonsPart_map_clearData (env : Session) (es : List DWORD)
    (btns : List TBBUTTON) :
    newButtonsPart env es (btns.map clearData) = newButtonsPart env es btns ∧
      (newButtonsPart env es btns).map clearData = newButtonsPart env es btns := by
  unfold newButtonsPart
  constructor
  · rw [List.map_map]
    rfl
  · rw [List.map_map]
    apply List.map_congr_left
    intro x _
    rfl

/-! ## Independence of the uninitialised locals -/

theorem ReadFile_indep (f : List Nat) (h : 4 ≤ f.length) (v v2 : DWORD) :
    ReadFile f v = ReadFile f v2 ∧ (ReadFile f v).2.length = f.length - 4 := by
  match f, h with
  | b0 :: b1 :: b2 :: b3 :: rest, _ => exact ⟨rfl, by simp [ReadFile]⟩

theorem readEntries_succ_indep (n : Nat) (f : List Nat) (h : 4 ≤ f.length) (d d2 : DWORD) :
    readEntries (n + 1) f d = readEntries (n + 1) f d2 := by
  simp only [readEntries]
  rw [(ReadFile_indep f h d d2).1]

theorem readEntries_zero (f : List Nat) (d : DWORD) : readEntries 0 f d = ([], f, d) := rfl

theorem readEntries_entries_indep (n : Nat) (f : List Nat) (h : 4 ≤ f.length) (d d2 : DWORD) :
    (readEntries n f d).1 = (readEntries n f d2).1 := by
  cases n with
  | zero => rfl
  | succ n => rw [readEntries_succ_indep n f h d d2]

theorem readEntries_pair_indep (n m : Nat) (f : List Nat) (d d2 : DWORD)
    (h : 4 ≤ f.length ∨ (n = 0 ∧ m = 0)) :
    (readEntries n f d).1 = (readEntries n f d2).1 ∧
      (readEntries m (readEntries n f d).2.1 (readEntries n f d).2.2).1
        = (readEntries m (readEntries n f d2).2.1 (readEntries n f d2).2.2).1 := by
  rcases h with h | ⟨rfl, rfl⟩
  · cases n with
    | zero =>
      simp only [readEntries_zero]
      exact ⟨trivial, readEntries_entries_indep m f h d d2⟩
    | succ n =>
      rw [readEntries_succ_indep n f h d d2]
      exact ⟨rfl, rfl⟩
  · exact ⟨rfl, rfl⟩

theorem readRecord_indep (u u2 : Locals) (f : List Nat) (h16 : 16 ≤ f.length)
    (h : 20 ≤ f.length ∨
      ((readRecord u f).2.2.1 ≤ 0 ∧ (readRecord u f).2.2.2.1 ≤ 0)) :
    readRecord u2 f = readRecord u f := by
  match f, h16, h with
  | b0 :: b1 :: b2 :: b3 :: b4 :: b5 :: b6 :: b7 :: b8 :: b9 :: b10 :: b11 :: b12 :: b13 ::
      b14 :: b15 :: rest, _, h =>
    simp only [readRecord, ReadFile] at h ⊢
    generalize toInt (b8 % 256 + 256 * (b9 % 256) + 65536 * (b10 % 256)
      + 16777216 * (b11 % 256)) = n at h ⊢
    generalize toInt (b12 % 256 + 256 * (b13 % 256) + 65536 * (b14 % 256)
      + 16777216 * (b15 % 256)) = m at h ⊢
    have hcond : 4 ≤ rest.length ∨ (n.toNat = 0 ∧ m.toNat = 0) := by
      rcases h with h | ⟨h1, h2⟩
      · left
        simp only [List.length_cons] at h
        omega
      · right
        exact ⟨by omega, by omega⟩
    obtain ⟨p1, p2⟩ := readEntries_pair_indep n.toNat m.toNat rest u2.dword u.dword hcond
    rw [p1, p2]

theorem restoreToolbarLayout_indep (env : Session) (menuStates1 menuStates2 : Bool)
    (u u2 : Locals) (s : State) (h16 : 16 ≤ s.datFile.length)
    (h : 20 ≤ s.datFile.length ∨
      ((readRecord u s.datFile).2.2.1 ≤ 0 ∧ (readRecord u s.datFile).2.2.2.1 ≤ 0)) :
    (restoreToolbarLayout env menuStates2 u2 s).toolbar
      = (restoreToolbarLayout env menuStates1 u s).toolbar := by
  rw [restoreToolbarLayout_readRecord env menuStates2, restoreToolbarLayout_readRecord env
    menuStates1, readRecord_indep u u2 s.datFile h16 h]

/-- C17 (amended). Idempotence of reconciliation. Let the file hold the four
header words and, unless both counts it announces are not positive, at least
one more word (every complete record is such a file). Then a second run of
`restoreToolbarLayout` on the state the first run left, with the same file and
session and with any values of the uninitialised locals in either run, installs
the same buttons in the same order: the second toolbar is the first one with
`dwData` cleared in the copies, so the command ids agree position by position,
and it is literally the same list when the buttons of `g_tbButtons` start with
`dwData = 0`. The first run leaves `dwData = 0` in every entry of `g_tbButtons`
and leaves the file as it was. For any other file, a run reads the missing
words from the uninitialised locals, and the two runs agree whenever these
hold the same values in both. -/
theorem restoreToolbarLayout_twice (env : Session) (menuStates1 menuStates2 : Bool)
    (u : Locals) (s : State) :
    (restoreToolbarLayout env menuStates2 u (restoreToolbarLayout env menuStates1 u s)).toolbar
        = (restoreToolbarLayout env menuStates1 u s).toolbar.map clearData ∧
      (restoreToolbarLayout env menuStates2 u
          (restoreToolbarLayout env menuStates1 u s)).toolbar.map (fun b => b.idCommand)
        = (restoreToolbarLayout env menuStates1 u s).toolbar.map (fun b => b.idCommand) ∧
      ((∀ b ∈ s.g_tbButtons, b.dwData = 0) →
        (restoreToolbarLayout env menuStates2 u
            (restoreToolbarLayout env menuStates1 u s)).toolbar
          = (restoreToolbarLayout env menuStates1 u s).toolbar) ∧
      (restoreToolbarLayout env menuStates1 u s).g_tbButtons = s.g_tbButtons.map clearData ∧
      (restoreToolbarLayout env menuStates1 u s).datFile = s.datFile ∧
      (∀ (u2 : Locals) (custom wrap : DWORD) (onToolbar available : List DWORD)
          (extra : List Nat), ValidRecord onToolbar available →
        s.datFile = datRecord custom wrap onToolbar available ++ extra →
        (restoreToolbarLayout env menuStates2 u2
            (restoreToolbarLayout env menuStates1 u s)).toolbar
          = (restoreToolbarLayout env menuStates1 u s).toolbar.map clearData) ∧
      (∀ u2 : Locals, 16 ≤ s.datFile.length →
        (20 ≤ s.datFile.length ∨
          ((readRecord u s.datFile).2.2.1 ≤ 0 ∧ (readRecord u s.datFile).2.2.2.1 ≤ 0)) →
        (restoreToolbarLayout env menuStates2 u2
              (restoreToolbarLayout env menuStates1 u s)).toolbar
            = (restoreToolbarLayout env menuStates1 u s).toolbar.map clearData ∧
          (restoreToolbarLayout env menuStates2 u2
              (restoreToolbarLayout env menuStates1 u s)).toolbar.map (fun b => b.idCommand)
            = (restoreToolbarLayout env menuStates1 u s).toolbar.map (fun b => b.idCommand) ∧
          ((∀ b ∈ s.g_tbButtons, b.dwData = 0) →
            (restoreToolbarLayout env menuStates2 u2
                (restoreToolbarLayout env menuStates1 u s)).toolbar
              = (restoreToolbarLayout env menuStates1 u s).toolbar)) := by
  have hfile := (restoreToolbarLayout_fields env menuStates1 u s).1
  have hbtn := restoreToolbarLayout_g_tbButtons env menuStates1 u s
  have hmain : (restoreToolbarLayout env menuStates2 u
      (restoreToolbarLayout env menuStates1 u s)).toolbar
      = (restoreToolbarLayout env menuStates1 u s).toolbar.map clearData := by
    rw [restoreToolbarLayout_readRecord env menuStates2, hfile, hbtn,
      restoreToolbarLayout_readRecord env menuStates1, onToolbarPart_map_clearData,
      (newButtonsPart_map_clearData env _ _).1, List.map_append,
      (newButtonsPart_map_clearData env _ _).2]
  have hids : ((restoreToolbarLayout env menuStates1 u s).toolbar.map clearData).map
      (fun b => b.idCommand)
      = (restoreToolbarLayout env menuStates1 u s).toolbar.map (fun b => b.idCommand) := by
    rw [List.map_map]
    apply List.map_congr_left
    intro x _
    rfl
  have hsame : (∀ b ∈ s.g_tbButtons, b.dwData = 0) →
      (restoreToolbarLayout env menuStates1 u s).toolbar.map clearData
        = (restoreToolbarLayout env menuStates1 u s).toolbar := by
    intro hzero
    have hall : ∀ t ∈ (restoreToolbarLayout env menuStates1 u s).toolbar, clearData t = t := by
      intro t ht
      rw [restoreToolbarLayout_readRecord] at ht
      rcases List.mem_append.1 ht with h | h
      · obtain ⟨_, _, hmem, _⟩ := mem_onToolbarPart env _ _ t h
        exact clearData_eq_self t (hzero t hmem)
      · unfold newButtonsPart at h
        obtain ⟨y, _, rfl⟩ := List.mem_map.1 h
        rfl
    rw [List.map_congr_left hall]
    exact List.map_id _
  refine ⟨hmain, ?_, ?_, hbtn, hfile, ?_, ?_⟩
  · rw [hmain, hids]
  · intro hzero
    rw [hmain, hsame hzero]
  · intro u2 custom wrap onToolbar available extra hrec hf
    rw [restoreToolbarLayout_toolbar env menuStates2 u2 _ custom wrap onToolbar available
        extra hrec (hfile.trans hf),
      restoreToolbarLayout_toolbar env menuStates1 u s custom wrap onToolbar available
        extra hrec hf, hbtn, onToolbarPart_map_clearData, List.map_append]
    have h1 := (newButtonsPart_map_clearData env available s.g_tbButtons).1
    have h2 := (newButtonsPart_map_clearData env available s.g_tbButtons).2
    unfold newButtonsPart at h1 h2
    rw [h1, h2]
  · intro u2 h16 hcond
    have hind : (restoreToolbarLayout env menuStates2 u2
        (restoreToolbarLayout env menuStates1 u s)).toolbar
        = (restoreToolbarLayout env menuStates2 u
          (restoreToolbarLayout env menuStates1 u s)).toolbar :=
      restoreToolbarLayout_indep env menuStates2 menuStates2 u u2
        (restoreToolbarLayout env menuStates1 u s) (by rw [hfile]; exact h16)
        (by rw [hfile]; exact hcond)
    refine ⟨hind.trans hmain, ?_, ?_⟩
    · rw [hind, hmain, hids]
    · intro hzero
      rw [hind, hmain, hsame hzero]

/-- C17 (witness): two runs over buttons that start with `dwData = 7`, the
second with other values of the uninitialised locals. -/
theorem restoreToolbarLayout_twice_witness :
    16 ≤ markedState.datFile.length ∧ 20 ≤ markedState.datFile.length ∧
      (restoreToolbarLayout exampleSession true zeroLocals markedState).toolbar.map
          (fun b => b.idCommand) = [100, 23000, 300] ∧
      (restoreToolbarLayout exampleSession false (localsWith 200)
          (restoreToolbarLayout exampleSession true zeroLocals markedState)).toolbar.map
            (fun b => b.idCommand)
        = (restoreToolbarLayout exampleSession true zeroLocals markedState).toolbar.map
            (fun b => b.idCommand) :=
  ⟨by decide, by decide, by decide,
    ((restoreToolbarLayout_twice exampleSession true false zeroLocals markedState).2.2.2.2.2.2
      (localsWith 200) (by decide) (Or.inl (by decide))).2.1⟩

/-- C17 (counterexample). The file holds the four header words only and
announces one on-toolbar entry, so the entry is read as the value `dword`
happens to hold. A first run in which that value is 100 installs the command
ids `[100, 100, 200, 23000, 300]`; a second run on the state it left, with the
same file and buttons, in which the value is 200 installs
`[200, 100, 200, 23000, 300]`. -/
theorem restoreToolbarLayout_twice_header_only :
    headerOnlyState.datFile.length = 16 ∧
      (restoreToolbarLayout exampleSession true (localsWith 100) headerOnlyState).toolbar.map
          (fun b => b.idCommand) = [100, 100, 200, 23000, 300] ∧
      (restoreToolbarLayout exampleSession true (localsWith 200)
          (restoreToolbarLayout exampleSession true (localsWith 100) headerOnlyState)).toolbar.map
          (fun b => b.idCommand) = [200, 100, 200, 23000, 300] ∧
      (restoreToolbarLayout exampleSession true (localsWith 100)
          headerOnlyState).datFile = headerOnlyState.datFile ∧
      (restoreToolbarLayout exampleSession true (localsWith 100)
          headerOnlyState).g_tbButtons.map (fun b => (b.idCommand, b.iString))
        = headerOnlyState.g_tbButtons.map (fun b => (b.idCommand, b.iString)) := by
  decide

/-! ## Claims on the menu states and on the reset -/

/-- C19. `restoreToolbarLayout(false)` leaves `g_customButtonsState` and
`g_wrapToolbarState` as they were, whatever the file holds; for a file that
starts with the bytes of two words, `restoreToolbarLayout(true)` sets them to
the first and the second word, read as `int`. -/
theorem restoreToolbarLayout_states (env : Session) (u : Locals) (s : State) :
    (restoreToolbarLayout env false u s).g_customButtonsState = s.g_customButtonsState ∧
      (restoreToolbarLayout env false u s).g_wrapToolbarState = s.g_wrapToolbarState ∧
      ∀ (w1 w2 : DWORD) (rest : List Nat),
        s.datFile = dwordBytes w1 ++ (dwordBytes w2 ++ rest) →
        (restoreToolbarLayout env true u s).g_customButtonsState = toInt (w1 % 4294967296) ∧
          (restoreToolbarLayout env true u s).g_wrapToolbarState
            = toInt (w2 % 4294967296) := by
  have hf := restoreToolbarLayout_fields env false u s
  refine ⟨by simpa using hf.2.1, by simpa using hf.2.2.1, ?_⟩
  intro w1 w2 rest hfile
  have ht := restoreToolbarLayout_fields env true u s
  rw [hfile] at ht
  simp only [ReadFile_dwordBytes, if_true] at ht
  exact ⟨ht.2.1, ht.2.2.1⟩

/-- C19 (witness): the scenario record starts with the words 1 and 0. -/
theorem restoreToolbarLayout_states_witness :
    (restoreToolbarLayout exampleSession true zeroLocals scenarioState).g_customButtonsState
        = toInt (1 % 4294967296) ∧
      (restoreToolbarLayout exampleSession true zeroLocals scenarioState).g_wrapToolbarState
        = toInt (0 % 4294967296) :=
  (restoreToolbarLayout_states exampleSession zeroLocals scenarioState).2.2 1 0
    (([2, 3, 100, 2147484203, 100, 200, 2147484203] : List DWORD).flatMap dwordBytes)
    (by decide)

theorem addToolbarButtons_additional_eq (ids : MenuCmdID) (funcItem0_cmdID : Int) :
    addToolbarButtons_additional ids funcItem0_cmdID []
      = [ids.IDM_FILE_CLOSEALL_BUT_CURRENT, ids.IDM_EDIT_DELETE, ids.IDM_EDIT_RMV_TAB,
          ids.IDM_EDIT_INS_TAB, ids.IDM_EDIT_DUP_LINE, ids.IDM_EDIT_BLOCK_COMMENT_SET,
          ids.IDM_EDIT_BLOCK_UNCOMMENT, ids.IDM_EDIT_AUTOCOMPLETE_CURRENTFILE,
          ids.IDM_EDIT_TRIMTRAILING, IDM_EDIT_TAB2SW ids, IDM_EDIT_SW2TAB_ALL ids,
          ids.IDM_SEARCH_FINDINFILES, ids.IDM_SEARCH_FINDPREV, ids.IDM_SEARCH_FINDNEXT,
          ids.IDM_SEARCH_FINDINCREMENT, IDM_FOCUS_ON_FOUND_RESULTS ids,
          ids.IDM_SEARCH_GOTOLINE, ids.IDM_SEARCH_PREV_BOOKMARK, ids.IDM_SEARCH_NEXT_BOOKMARK,
          ids.IDM_SEARCH_CLEAR_BOOKMARKS, ids.IDM_VIEW_ZOOMRESTORE,
          ids.IDM_VIEW_GOTO_ANOTHER_VIEW, ids.IDM_VIEW_CLONE_TO_ANOTHER_VIEW,
          ids.IDM_VIEW_HIDELINES, ids.IDM_VIEW_TOGGLE_FOLDALL, ids.IDM_VIEW_TOGGLE_UNFOLDALL,
          funcItem0_cmdID] := by
  simp [addToolbarButtons_additional, addAdditionalButton]

theorem addToolbarButtons_additional_take (ids : MenuCmdID) (funcItem0_cmdID : Int) :
    (addToolbarButtons_additional ids funcItem0_cmdID []).take 26
      = [ids.IDM_FILE_CLOSEALL_BUT_CURRENT, ids.IDM_EDIT_DELETE, ids.IDM_EDIT_RMV_TAB,
          ids.IDM_EDIT_INS_TAB, ids.IDM_EDIT_DUP_LINE, ids.IDM_EDIT_BLOCK_COMMENT_SET,
          ids.IDM_EDIT_BLOCK_UNCOMMENT, ids.IDM_EDIT_AUTOCOMPLETE_CURRENTFILE,
          ids.IDM_EDIT_TRIMTRAILING, IDM_EDIT_TAB2SW ids, IDM_EDIT_SW2TAB_ALL ids,
          ids.IDM_SEARCH_FINDINFILES, ids.IDM_SEARCH_FINDPREV, ids.IDM_SEARCH_FINDNEXT,
          ids.IDM_SEARCH_FINDINCREMENT, IDM_FOCUS_ON_FOUND_RESULTS ids,
          ids.IDM_SEARCH_GOTOLINE, ids.IDM_SEARCH_PREV_BOOKMARK, ids.IDM_SEARCH_NEXT_BOOKMARK,
          ids.IDM_SEARCH_CLEAR_BOOKMARKS, ids.IDM_VIEW_ZOOMRESTORE,
          ids.IDM_VIEW_GOTO_ANOTHER_VIEW, ids.IDM_VIEW_CLONE_TO_ANOTHER_VIEW,
          ids.IDM_VIEW_HIDELINES, ids.IDM_VIEW_TOGGLE_FOLDALL,
          ids.IDM_VIEW_TOGGLE_UNFOLDALL] := by
  rw [addToolbarButtons_additional_eq]
  rfl

theorem resetToolbarLoop_eq (ids : MenuCmdID) (funcItem0_cmdID : Int) (l toolbar : List TBBUTTON) :
    resetToolbarLoop ids l toolbar
      = toolbar ++ l.filter (fun b =>
          decide (b.idCommand ∉ (addToolbarButtons_additional ids funcItem0_cmdID []).take 26)) := by
  induction l generalizing toolbar with
  | nil => simp [resetToolbarLoop]
  | cons b rest ih =>
    simp only [resetToolbarLoop]
    split_ifs with h
    · have hmem : b.idCommand ∈ (addToolbarButtons_additional ids funcItem0_cmdID []).take 26 := by
        rw [addToolbarButtons_additional_take]
        simp only [List.mem_cons, List.mem_singleton, List.not_mem_nil, or_false]
        exact h
      rw [ih, List.filter_cons_of_neg (by simpa using hmem)]
    · have hmem : b.idCommand ∉ (addToolbarButtons_additional ids funcItem0_cmdID []).take 26 := by
        rw [addToolbarButtons_additional_take]
        simp only [List.mem_cons, List.mem_singleton, List.not_mem_nil, or_false]
        exact h
      rw [ih, List.filter_cons_of_pos (by simpa using hmem)]
      simp

/-- C18. First-run bootstrap: `resetToolbarLayout` installs the buttons of
`g_tbButtons` in start-up order and omits exactly those whose command id is one
of the first 26 commands that `addToolbarButtons` registers as additional
buttons. The 27th registered command is the Customize Toolbar command; that
button and every other button whose command id is not among the 26 are kept. -/
theorem resetToolbarLayout_installs (ids : MenuCmdID) (funcItem0_cmdID : Int) (s : State) :
    (resetToolbarLayout ids s).toolbar
        = s.g_tbButtons.filter (fun b =>
            decide (b.idCommand ∉ (addToolbarButtons_additional ids funcItem0_cmdID []).take 26)) ∧
      (addToolbarButtons_additional ids funcItem0_cmdID []).length = 27 ∧
      addToolbarButtons_additional ids funcItem0_cmdID []
        = (addToolbarButtons_additional ids funcItem0_cmdID []).take 26 ++ [funcItem0_cmdID] ∧
      (∀ b ∈ s.g_tbButtons,
        b.idCommand ∉ (addToolbarButtons_additional ids funcItem0_cmdID []).take 26 →
        b ∈ (resetToolbarLayout ids s).toolbar) ∧
      (∀ b ∈ (resetToolbarLayout ids s).toolbar,
        b ∈ s.g_tbButtons ∧
          b.idCommand ∉ (addToolbarButtons_additional ids funcItem0_cmdID []).take 26) ∧
      (resetToolbarLayout ids s).g_tbButtons = s.g_tbButtons := by
  have h : (resetToolbarLayout ids s).toolbar
      = s.g_tbButtons.filter (fun b =>
          decide (b.idCommand ∉ (addToolbarButtons_additional ids funcItem0_cmdID []).take 26)) := by
    unfold resetToolbarLayout
    simp only [resetToolbarLoop_eq ids funcItem0_cmdID, List.nil_append]
  refine ⟨h, ?_, ?_, ?_, ?_, rfl⟩
  · rw [addToolbarButtons_additional_eq]; rfl
  · rw [addToolbarButtons_additional_eq]; rfl
  · intro b hb hnot
    rw [h]
    exact List.mem_filter.2 ⟨hb, by simpa using hnot⟩
  · intro b hb
    rw [h] at hb
    obtain ⟨h1, h2⟩ := List.mem_filter.1 hb
    exact ⟨h1, by simpa using h2⟩

/-- C18 (witness): with the example constants, the additional buttons 41100 and
42046 are left out and the other buttons are installed in order. -/
theorem resetToolbarLayout_installs_witness :
    (resetToolbarLayout exampleIds
        { initialState with
          g_tbButtons := scenarioButtons ++ [exampleButton 41100 0, exampleButton 42046 0,
            exampleButton 22000 0] }).toolbar
        = scenarioButtons ++ [exampleButton 22000 0] ∧
      (addToolbarButtons_additional exampleIds 22000 []).length = 27 :=
  ⟨by decide,
    (resetToolbarLayout_installs exampleIds 22000 initialState).2.1⟩

/-- C20 (code). From the initial state with both states 0, `wrapToolbar` leaves
`g_wrapToolbarState = -1` and writes the word `0xFFFFFFFF` as wrap-toolbar
state, which is neither 0 nor 1; a restore of that file reads -1 back, and a
second `wrapToolbar` returns to 0. -/
theorem wrapToolbar_writes_minus_one :
    initialState.g_wrapToolbarState = 0 ∧ initialState.g_customButtonsState = 0 ∧
      (wrapToolbar exampleSession initialState).g_wrapToolbarState = -1 ∧
      (wrapToolbar exampleSession initialState).datFile.take 8
        = [0, 0, 0, 0, 255, 255, 255, 255] ∧
      (readRecord zeroLocals (wrapToolbar exampleSession initialState).datFile).2.1 = -1 ∧
      ¬ ((readRecord zeroLocals (wrapToolbar exampleSession initialState).datFile).2.1 = 0 ∨
        (readRecord zeroLocals (wrapToolbar exampleSession initialState).datFile).2.1 = 1) ∧
      (restoreToolbarLayout exampleSession true zeroLocals
        (wrapToolbar exampleSession initialState)).g_wrapToolbarState = -1 ∧
      (wrapToolbar exampleSession
        (wrapToolbar exampleSession initialState)).g_wrapToolbarState = 0 := by
  decide

/-! ## The parent-menu search and the leaves of the menu tree -/

theorem find?_leaves_map (idCommand : DWORD) (text : List TCHAR) (ls : List Leaf) :
    (ls.map (fun l => { l with path := text :: l.path })).find?
        (fun l => decide (l.id = idCommand))
      = (ls.find? (fun l => decide (l.id = idCommand))).map
          (fun l => { l with path := text :: l.path }) := by
  induction ls with
  | nil => rfl
  | cons a rest ih =>
    simp only [List.map_cons, List.find?_cons]
    by_cases h : a.id = idCommand
    · simp [h]
    · simp [h, ih]

mutual
theorem findPluginParentMenuItem_leaves (idCommand : DWORD) (maxCount : Nat) :
    ∀ (item : MenuItem) (lpString : List TCHAR),
      findPluginParentMenuItem idCommand maxCount item lpString
        = match (MenuItem.leaves item).find? (fun l => decide (l.id = idCommand)) with
          | none => (none, lpString)
          | some l =>
            match l.path.getLast? with
            | none => (some 1, lpString)
            | some text => (some 0, copyString text maxCount)
  | .command id text, lpString => by
    unfold findPluginParentMenuItem MenuItem.leaves
    by_cases h : id = idCommand <;> simp [h]
  | .popup text sub, lpString => by
    have ih := findPluginParentMenuString_leaves idCommand maxCount sub lpString
    unfold findPluginParentMenuItem MenuItem.leaves
    rw [find?_leaves_map, ih]
    cases hf : (Menu.leaves sub).find? (fun l => decide (l.id = idCommand)) with
    | none => simp
    | some l =>
      cases hp : l.path.getLast? with
      | none =>
        have hnil : l.path = [] := List.getLast?_eq_none_iff.1 hp
        simp [hnil]
      | some t =>
        have hlast : (text :: l.path).getLast? = some t := by
          cases hl : l.path with
          | nil => rw [hl] at hp; simp at hp
          | cons a as => rw [hl] at hp; rw [← hp]; simp [List.getLast?_cons_cons]
        simp [hlast, hp]
theorem findPluginParentMenuString_leaves (idCommand : DWORD) (maxCount : Nat) :
    ∀ (hMenu : Menu) (lpString : List TCHAR),
      findPluginParentMenuString hMenu idCommand lpString maxCount
        = match (Menu.leaves hMenu).find? (fun l => decide (l.id = idCommand)) with
          | none => (-1, lpString)
          | some l =>
            match l.path.getLast? with
            | none => (1, lpString)
            | some text => (0, copyString text maxCount)
  | .nil, lpString => by
    unfold findPluginParentMenuString Menu.leaves
    simp
  | .cons item rest, lpString => by
    have ihi := findPluginParentMenuItem_leaves idCommand maxCount item lpString
    have ihr := findPluginParentMenuString_leaves idCommand maxCount rest lpString
    unfold findPluginParentMenuString Menu.leaves
    rw [ihi, List.find?_append]
    cases hf : (MenuItem.leaves item).find? (fun l => decide (l.id = idCommand)) with
    | none => simpa using ihr
    | some l =>
      cases hp : l.path.getLast? with
      | none => simp [hp]
      | some t => simp [hp]
end

/-! ## Claims on the menu commands and on `stripMenuString` -/

/-- C21 (code). `customButtons` assigns `g_customButtonsState` to itself, so
the state never changes: from the initial state (feature disabled, 0) the
command leaves 0 and `saveToolbarLayout` writes the word 0, also when it is
invoked twice; from a state with the feature enabled (1) it leaves 1 and the
word 1 is written. For every state the value after the command is the value
before it. -/
theorem customButtons_keeps_state :
    initialState.g_customButtonsState = 0 ∧
      (customButtons exampleSession initialState).g_customButtonsState = 0 ∧
      (customButtons exampleSession initialState).datFile.take 4 = [0, 0, 0, 0] ∧
      (customButtons exampleSession
        (customButtons exampleSession initialState)).g_customButtonsState = 0 ∧
      saveState.g_customButtonsState = 1 ∧
      (customButtons exampleSession saveState).g_customButtonsState = 1 ∧
      (customButtons exampleSession saveState).datFile.take 4 = [1, 0, 0, 0] ∧
      ∀ (env : Session) (s : State),
        (customButtons env s).g_customButtonsState = s.g_customButtonsState :=
  ⟨by decide, by decide, by decide, by decide, by decide, by decide, by decide,
    fun _ _ => rfl⟩

theorem stripMenuString_eq_filter (s : List TCHAR) :
    stripMenuString s
      = ((cString s).takeWhile (fun c => c != 9)).filter (fun c => c != 38) := by
  induction s with
  | nil => simp [stripMenuString, cString]
  | cons c cs ih =>
    unfold cString at ih ⊢
    by_cases h0 : c = 0
    · simp [stripMenuString, h0]
    · by_cases h1 : c = 38
      · simp [stripMenuString, h1, ih]
      · by_cases h2 : c = 9
        · simp [stripMenuString, h2]
        · simp [stripMenuString, h0, h1, h2, ih, List.takeWhile_cons, List.filter_cons]

/-- C24. For every buffer `s`, `stripMenuString` leaves the characters of the
string that `s` holds which precede its first tab (all of them when there is
no tab), with every `&` removed and the order of the others kept. The result
holds no `&` and no tab, is no longer than the string, and a second
`stripMenuString` leaves it unchanged. -/
theorem stripMenuString_spec (s : List TCHAR) :
    stripMenuString s
        = ((cString s).takeWhile (fun c => c != 9)).filter (fun c => c != 38) ∧
      38 ∉ stripMenuString s ∧ 9 ∉ stripMenuString s ∧
      (stripMenuString s).length ≤ (cString s).length ∧
      (cString s).length ≤ s.length ∧
      stripMenuString (stripMenuString s) = stripMenuString s := by
  refine ⟨stripMenuString_eq_filter s, ?_, ?_, ?_, ?_, stripMenuString_idem s⟩
  · rw [stripMenuString_eq_filter]
    intro h
    have := (List.mem_filter.1 h).2
    simp at this
  · rw [stripMenuString_eq_filter]
    intro h
    have h1 := (List.mem_filter.1 h).1
    have := List.mem_takeWhile_imp h1
    simp at this
  · rw [stripMenuString_eq_filter]
    exact le_trans (List.length_filter_le _ _) (List.Sublist.length_le (List.takeWhile_sublist _))
  · exact List.Sublist.length_le (List.takeWhile_sublist _)

/-- C28. `findPluginParentMenuString` is total on menu trees. With the first
command item, in depth-first order, that carries `idCommand`: when there is
none it returns -1 and leaves `lpString` as it was; when that item is an entry
of the menu passed in it returns 1 and leaves `lpString` as it was; when it
lies deeper it returns 0 and `lpString` holds the text of the entry whose
submenu directly contains the item, as `GetMenuString` copies it into
`maxCount` units (the whole text when it is a string shorter than `maxCount`).
It returns -1 exactly when no command item of the tree carries `idCommand`. -/
theorem findPluginParentMenuString_first_leaf (hMenu : Menu) (idCommand : DWORD)
    (lpString : List TCHAR) (maxCount : Nat) :
    findPluginParentMenuString hMenu idCommand lpString maxCount
        = (match (Menu.leaves hMenu).find? (fun l => decide (l.id = idCommand)) with
          | none => (-1, lpString)
          | some l =>
            match l.path.getLast? with
            | none => (1, lpString)
            | some text => (0, copyString text maxCount)) ∧
      ((findPluginParentMenuString hMenu idCommand lpString maxCount).1 = -1 ↔
        ∀ l ∈ Menu.leaves hMenu, l.id ≠ idCommand) ∧
      ∀ text : List TCHAR, (∀ c ∈ text, c ≠ 0) → text.length < maxCount →
        copyString text maxCount = text := by
  have h := findPluginParentMenuString_leaves idCommand maxCount hMenu lpString
  refine ⟨h, ?_, ?_⟩
  · rw [h]
    cases hf : (Menu.leaves hMenu).find? (fun l => decide (l.id = idCommand)) with
    | none =>
      simp only [true_iff]
      intro l hl
      have := List.find?_eq_none.1 hf l hl
      simpa using this
    | some l =>
      have hmem := List.mem_of_find?_eq_some hf
      have hid : l.id = idCommand := by simpa using List.find?_some hf
      cases hp : l.path.getLast? with
      | none =>
        simp only [hp]
        constructor
        · intro h1; exact absurd h1 (by decide)
        · intro hall; exact absurd hid (hall l hmem)
      | some t =>
        simp only [hp]
        constructor
        · intro h1; exact absurd h1 (by decide)
        · intro hall; exact absurd hid (hall l hmem)
  · intro text h0 hlen
    unfold copyString
    rw [List.takeWhile_eq_self_iff.2 (by intro c hc; simpa using h0 c hc)]
    exact List.take_of_length_le (by omega)

/-! ## The menu hash without a parent label -/

theorem or_HASHFLAG_eq (x : Nat) (hx : x < 4294967296) :
    x ||| HASHFLAG = x % 2147483648 + 2147483648 := by
  have hmod := or_HASHFLAG_mod x
  have hlt : x ||| HASHFLAG < 2 ^ 32 :=
    Nat.or_lt_two_pow (by omega) (by decide)
  have hbit : (x ||| HASHFLAG).testBit 31 = true := by
    have h : HASHFLAG = 2 ^ 31 := by decide
    rw [h, Nat.testBit_or, Nat.testBit_two_pow_self]
    simp
  have hge : 2 ^ 31 ≤ x ||| HASHFLAG := Nat.testBit_implies_ge hbit
  generalize x ||| HASHFLAG = y at hmod hlt hge
  show @Eq Nat _ _
  omega

theorem foldl_hash_eq (s : List TCHAR) (h : Nat) :
    List.foldl (fun h c => h * 31 + c) h s = h * 31 ^ s.length + polyHash s := by
  unfold polyHash
  induction s generalizing h with
  | nil => simp
  | cons c cs ih =>
    simp only [List.foldl_cons, List.length_cons]
    rw [ih (h * 31 + c), ih (0 * 31 + c)]
    ring

theorem polyHash_append (a b : List TCHAR) :
    polyHash (a ++ b) = polyHash a * 31 ^ b.length + polyHash b := by
  unfold polyHash
  rw [List.foldl_append, foldl_hash_eq]
  rfl

theorem stringHash_eq_iff (x y : List TCHAR) :
    stringHash x = stringHash y ↔
      polyHash (cString x) % 2147483648 = polyHash (cString y) % 2147483648 := by
  have hx : stringHash x = polyHash (cString x) % 4294967296 % 2147483648 + 2147483648 := by
    unfold stringHash
    rw [hashLoop_zero_eq]
    exact or_HASHFLAG_eq _ (Nat.mod_lt _ (by norm_num))
  have hy : stringHash y = polyHash (cString y) % 4294967296 % 2147483648 + 2147483648 := by
    unfold stringHash
    rw [hashLoop_zero_eq]
    exact or_HASHFLAG_eq _ (Nat.mod_lt _ (by norm_num))
  rw [hx, hy]
  generalize polyHash (cString x) = p
  generalize polyHash (cString y) = q
  show (@Eq Nat _ _) ↔ _
  omega

theorem cString_of_ne_zero (s : List TCHAR) (h : ∀ c ∈ s, c ≠ 0) : cString s = s := by
  unfold cString
  rw [List.takeWhile_eq_self_iff]
  intro c hc
  simpa using h c hc

theorem stringHash_double_iff (a : List TCHAR) (ha : ∀ c ∈ a, c ≠ 0) :
    stringHash (a ++ a) = stringHash a ↔ polyHash a % 2147483648 = 0 := by
  have haa : ∀ c ∈ a ++ a, c ≠ 0 := by
    intro c hc
    rcases List.mem_append.1 hc with h | h <;> exact ha c h
  rw [stringHash_eq_iff, cString_of_ne_zero _ haa, cString_of_ne_zero _ ha, polyHash_append]
  generalize polyHash a = p
  have hcop : Nat.Coprime (2 ^ 31) (31 ^ a.length) :=
    Nat.Coprime.pow _ _ (by norm_num)
  constructor
  · intro h
    have hdvd : 2 ^ 31 ∣ p * 31 ^ a.length := by
      have h1 : (p * 31 ^ a.length + p) % 2 ^ 31 = p % 2 ^ 31 := by
        norm_num; exact h
      have h2 : p * 31 ^ a.length + p ≡ 0 + p [MOD 2 ^ 31] := by
        unfold Nat.ModEq; simpa using h1
      have h3 := Nat.ModEq.add_right_cancel' p h2
      exact (Nat.modEq_zero_iff_dvd).1 h3
    have := Nat.Coprime.dvd_of_dvd_mul_right hcop hdvd
    have h4 := Nat.mod_eq_zero_of_dvd this
    norm_num at h4
    exact h4
  · intro h
    have hd : 2147483648 ∣ p := Nat.dvd_of_mod_eq_zero h
    obtain ⟨k, rfl⟩ := hd
    simp [Nat.mul_assoc, Nat.mul_add_mod, Nat.mul_mod_right]

/-- C27. When the first command item of the main menu that carries the command
id of the button, in depth-first order, is a top-level entry, or no command
item carries it, `findPluginParentMenuString` writes no parent label: the buffer
still holds the stripped menu label `a` when the second loop of
`calcPluginButtonMenuHash` runs, and the result is the single-string hash of
`a ++ a`. That value is the single-string hash of `a` alone only when
`31^(n-1) a_1 + ... + a_n` is a multiple of `2^31` (as for the empty label). -/
theorem calcPluginButtonMenuHash_no_parent (env : Session) (b : TBBUTTON)
    (h : ∀ l, (Menu.leaves env.g_hMainMenu).find?
        (fun l => decide (l.id = toDWORD b.idCommand)) = some l → l.path = []) :
    (findPluginParentMenuString env.g_hMainMenu (toDWORD b.idCommand)
        (resolvedMenuLabel env b) MAXSIZE).2 = resolvedMenuLabel env b ∧
      resolvedParentMenuLabel env b = none ∧
      calcPluginButtonMenuHash env b
        = stringHash (resolvedMenuLabel env b ++ resolvedMenuLabel env b) ∧
      (calcPluginButtonMenuHash env b = stringHash (resolvedMenuLabel env b) ↔
        polyHash (resolvedMenuLabel env b) % 2147483648 = 0) := by
  have hres : ∀ buf, findPluginParentMenuString env.g_hMainMenu (toDWORD b.idCommand) buf MAXSIZE
      = (if ((Menu.leaves env.g_hMainMenu).find?
          (fun l => decide (l.id = toDWORD b.idCommand))).isSome then 1 else -1, buf) := by
    intro buf
    rw [findPluginParentMenuString_leaves]
    cases hf : (Menu.leaves env.g_hMainMenu).find?
        (fun l => decide (l.id = toDWORD b.idCommand)) with
    | none => simp
    | some l => simp [h l hf]
  have hne : (findPluginParentMenuString env.g_hMainMenu (toDWORD b.idCommand) [] MAXSIZE).1
      ≠ 0 := by
    rw [hres]
    split_ifs <;> decide
  have hnone : resolvedParentMenuLabel env b = none := by
    unfold resolvedParentMenuLabel
    rw [if_neg hne]
  have hcalc : calcPluginButtonMenuHash env b
      = stringHash (resolvedMenuLabel env b ++ resolvedMenuLabel env b) := by
    rw [calcPluginButtonMenuHash_labels, hnone]
    unfold stringHash resolvedMenuLabel
    rw [hashLoop_append _ _ _ (stripMenuString_ne_zero _)]
    rfl
  refine ⟨by rw [hres], hnone, hcalc, ?_⟩
  rw [hcalc]
  exact stringHash_double_iff _ (stripMenuString_ne_zero _)

/-- C27 (witness): the plugin command 22005 is a top-level entry `Go` of the
main menu; its hash is that of `GoGo`, not that of `Go`. -/
theorem calcPluginButtonMenuHash_no_parent_witness :
    resolvedMenuLabel topLevelSession (exampleButton 22005 0) = [71, 111] ∧
      calcPluginButtonMenuHash topLevelSession (exampleButton 22005 0)
        = stringHash [71, 111, 71, 111] ∧
      calcPluginButtonMenuHash topLevelSession (exampleButton 22005 0)
        ≠ stringHash [71, 111] :=
  ⟨by decide,
    (calcPluginButtonMenuHash_no_parent topLevelSession (exampleButton 22005 0)
      (by decide)).2.2.1,
    by decide⟩

/-! ## The search for the menu strings of a custom button -/

theorem labelMatches_iff (m text : List TCHAR) :
    labelMatches m text = true ↔ strippedLabel text = cString m ∧ strippedLabel text ≠ [] := by
  have hz : ∀ c ∈ strippedLabel text, c ≠ 0 := stripMenuString_ne_zero _
  have hc : cString (strippedLabel text) = strippedLabel text := cString_of_ne_zero _ hz
  unfold labelMatches lstrcmp
  rw [hc]
  cases hs : strippedLabel text with
  | nil => simp
  | cons a as =>
    have ha : a ≠ 0 := hz a (by rw [hs]; simp)
    by_cases he : cString m = a :: as
    · simp [he, ha]
    · have he2 : ¬ (a :: as = cString m) := fun h => he h.symm
      simp [he, he2]

theorem Leaf.labels_cons (l : Leaf) (t : List TCHAR) :
    Leaf.labels { l with path := t :: l.path } = strippedLabel t :: l.labels := by
  simp [Leaf.labels]

theorem Leaf.labels_ne_nil (l : Leaf) : l.labels ≠ [] := by
  simp [Leaf.labels]

theorem Leaf.matchesChain_nil (l : Leaf) : ¬ l.matchesChain [] := by
  intro h
  have h1 := h.1
  have h2 := Leaf.labels_ne_nil l
  cases hl : l.labels with
  | nil => exact h2 hl
  | cons a as => rw [hl] at h1; simp at h1

theorem Leaf.matchesChain_cons (l : Leaf) (t m : List TCHAR) (ms : List (List TCHAR)) :
    Leaf.matchesChain (m :: ms) { l with path := t :: l.path } ↔
      labelMatches m t = true ∧ l.matchesChain ms := by
  rw [labelMatches_iff]
  unfold Leaf.matchesChain
  rw [Leaf.labels_cons]
  simp only [List.length_cons, List.map_cons, List.take_succ_cons, List.cons.injEq,
    List.mem_cons, forall_eq_or_imp, Nat.add_le_add_iff_right]
  tauto

theorem Leaf.matchesChain_leaf (id : DWORD) (text m : List TCHAR) (ms : List (List TCHAR)) :
    Leaf.matchesChain (m :: ms) { id := id, text := text, path := [] } ↔
      labelMatches m text = true := by
  rw [labelMatches_iff]
  unfold Leaf.matchesChain
  simp [Leaf.labels]

theorem find?_matchesChain_map (t m : List TCHAR) (ms : List (List TCHAR)) (ls : List Leaf) :
    (ls.map (fun l => { l with path := t :: l.path })).find?
        (fun l => decide (l.matchesChain (m :: ms)))
      = if labelMatches m t = true then
          (ls.find? (fun l => decide (l.matchesChain ms))).map
            (fun l => { l with path := t :: l.path })
        else none := by
  induction ls with
  | nil => simp
  | cons a rest ih =>
    simp only [List.map_cons, List.find?_cons, Leaf.matchesChain_cons, ih]
    by_cases hm : labelMatches m t = true
    · by_cases ha : a.matchesChain ms
      · simp [hm, ha]
      · simp [hm, ha]
    · simp [hm]

theorem findCmdIDLoop3_cons (m3 : List TCHAR) (item : MenuItem) (rest : Menu) :
    findCmdIDLoop3 m3 (.cons item rest)
      = if labelMatches m3 item.text = true then
          (match item with
          | .command id _ => some (toInt id)
          | .popup _ _ => findCmdIDLoop3 m3 rest)
        else findCmdIDLoop3 m3 rest := by
  simp only [findCmdIDLoop3, labelMatches, strippedLabel, decide_eq_true_eq]

theorem find?_matchesChain_nil (ls : List Leaf) :
    ls.find? (fun l => decide (l.matchesChain [])) = none := by
  rw [List.find?_eq_none]
  intro l _
  simpa using Leaf.matchesChain_nil l

theorem findCmdIDLoop3_eq (m3 : List TCHAR) : ∀ hMenu3 : Menu,
    findCmdIDLoop3 m3 hMenu3
      = ((Menu.leaves hMenu3).find? (fun l => decide (l.matchesChain [m3]))).map
          (fun l => toInt l.id)
  | .nil => by simp [findCmdIDLoop3, Menu.leaves]
  | .cons item rest => by
    have ih := findCmdIDLoop3_eq m3 rest
    rw [findCmdIDLoop3_cons]
    unfold Menu.leaves
    rw [List.find?_append]
    cases item with
    | command id text =>
      simp only [MenuItem.leaves, MenuItem.text, List.find?_cons, List.find?_nil,
        Leaf.matchesChain_leaf]
      by_cases hm : labelMatches m3 text = true
      · simp [hm]
      · simp [hm, ih]
    | popup text sub =>
      simp only [MenuItem.leaves, MenuItem.text, find?_matchesChain_map,
        find?_matchesChain_nil]
      split_ifs <;> simp [ih]

theorem findCmdIDLoop2_cons (m2 m3 : List TCHAR) (item : MenuItem) (rest : Menu) :
    findCmdIDLoop2 m2 m3 (.cons item rest)
      = if labelMatches m2 item.text = true then
          (match item with
          | .command id _ => some (toInt id)
          | .popup _ hMenu3 =>
            match findCmdIDLoop3 m3 hMenu3 with
            | some result => some result
            | none => findCmdIDLoop2 m2 m3 rest)
        else findCmdIDLoop2 m2 m3 rest := by
  simp only [findCmdIDLoop2, labelMatches, strippedLabel, decide_eq_true_eq]

theorem findCmdIDLoop2_eq (m2 m3 : List TCHAR) : ∀ hMenu2 : Menu,
    findCmdIDLoop2 m2 m3 hMenu2
      = ((Menu.leaves hMenu2).find? (fun l => decide (l.matchesChain [m2, m3]))).map
          (fun l => toInt l.id)
  | .nil => by simp [findCmdIDLoop2, Menu.leaves]
  | .cons item rest => by
    have ih := findCmdIDLoop2_eq m2 m3 rest
    rw [findCmdIDLoop2_cons]
    unfold Menu.leaves
    rw [List.find?_append]
    cases item with
    | command id text =>
      simp only [MenuItem.leaves, MenuItem.text, List.find?_cons, List.find?_nil,
        Leaf.matchesChain_leaf]
      by_cases hm : labelMatches m2 text = true
      · simp [hm]
      · simp [hm, ih]
    | popup text sub =>
      simp only [MenuItem.leaves, MenuItem.text, find?_matchesChain_map, findCmdIDLoop3_eq]
      by_cases hm : labelMatches m2 text = true
      · simp only [hm, if_true]
        cases hf : (Menu.leaves sub).find? (fun l => decide (l.matchesChain [m3])) with
        | none => simp [ih]
        | some l => simp
      · simp [hm, ih]

theorem findCmdIDLoop1_cons (m1 m2 m3 : List TCHAR) (item : MenuItem) (rest : Menu) :
    findCmdIDLoop1 m1 m2 m3 (.cons item rest)
      = if labelMatches m1 item.text = true then
          (match item with
          | .command id _ => some (toInt id)
          | .popup _ hMenu2 =>
            match findCmdIDLoop2 m2 m3 hMenu2 with
            | some result => some result
            | none => findCmdIDLoop1 m1 m2 m3 rest)
        else findCmdIDLoop1 m1 m2 m3 rest := by
  simp only [findCmdIDLoop1, labelMatches, strippedLabel, decide_eq_true_eq]

theorem findCmdIDLoop1_eq (m1 m2 m3 : List TCHAR) : ∀ hMenu1 : Menu,
    findCmdIDLoop1 m1 m2 m3 hMenu1
      = ((Menu.leaves hMenu1).find? (fun l => decide (l.matchesChain [m1, m2, m3]))).map
          (fun l => toInt l.id)
  | .nil => by simp [findCmdIDLoop1, Menu.leaves]
  | .cons item rest => by
    have ih := findCmdIDLoop1_eq m1 m2 m3 rest
    rw [findCmdIDLoop1_cons]
    unfold Menu.leaves
    rw [List.find?_append]
    cases item with
    | command id text =>
      simp only [MenuItem.leaves, MenuItem.text, List.find?_cons, List.find?_nil,
        Leaf.matchesChain_leaf]
      by_cases hm : labelMatches m1 text = true
      · simp [hm]
      · simp [hm, ih]
    | popup text sub =>
      simp only [MenuItem.leaves, MenuItem.text, find?_matchesChain_map, findCmdIDLoop2_eq]
      by_cases hm : labelMatches m1 text = true
      · simp only [hm, if_true]
        cases hf : (Menu.leaves sub).find? (fun l => decide (l.matchesChain [m2, m3])) with
        | none => simp [ih]
        | some l => simp
      · simp [hm, ih]

theorem findCmdIDLoop0_cons (m0 m1 m2 m3 : List TCHAR) (item : MenuItem) (rest : Menu) :
    findCmdIDLoop0 m0 m1 m2 m3 (.cons item rest)
      = if labelMatches m0 item.text = true then
          (match item with
          | .command id _ => some (toInt id)
          | .popup _ hMenu1 =>
            match findCmdIDLoop1 m1 m2 m3 hMenu1 with
            | some result => some result
            | none => findCmdIDLoop0 m0 m1 m2 m3 rest)
        else findCmdIDLoop0 m0 m1 m2 m3 rest := by
  simp only [findCmdIDLoop0, labelMatches, strippedLabel, decide_eq_true_eq]

theorem findCmdIDLoop0_eq (m0 m1 m2 m3 : List TCHAR) : ∀ hMenu0 : Menu,
    findCmdIDLoop0 m0 m1 m2 m3 hMenu0
      = ((Menu.leaves hMenu0).find? (fun l => decide (l.matchesChain [m0, m1, m2, m3]))).map
          (fun l => toInt l.id)
  | .nil => by simp [findCmdIDLoop0, Menu.leaves]
  | .cons item rest => by
    have ih := findCmdIDLoop0_eq m0 m1 m2 m3 rest
    rw [findCmdIDLoop0_cons]
    unfold Menu.leaves
    rw [List.find?_append]
    cases item with
    | command id text =>
      simp only [MenuItem.leaves, MenuItem.text, List.find?_cons, List.find?_nil,
        Leaf.matchesChain_leaf]
      by_cases hm : labelMatches m0 text = true
      · simp [hm]
      · simp [hm, ih]
    | popup text sub =>
      simp only [MenuItem.leaves, MenuItem.text, find?_matchesChain_map, findCmdIDLoop1_eq]
      by_cases hm : labelMatches m0 text = true
      · simp only [hm, if_true]
        cases hf : (Menu.leaves sub).find? (fun l => decide (l.matchesChain [m1, m2, m3])) with
        | none => simp [ih]
        | some l => simp
      · simp [hm, ih]

theorem Leaf.matchesStrings_iff (m0 m1 m2 m3 : List TCHAR) (l : Leaf) :
    l.matchesStrings [m0, m1, m2, m3] ↔ l.matchesChain [m0, m1, m2, m3] := by
  unfold Leaf.matchesStrings Leaf.matchesChain
  simp

theorem Leaf.matchesChain_head (m : List TCHAR) (ms : List (List TCHAR)) (l : Leaf)
    (h : l.matchesChain (m :: ms)) : cString m ≠ [] := by
  obtain ⟨_, h2, h3⟩ := h
  cases hl : l.labels with
  | nil => exact absurd hl (Leaf.labels_ne_nil l)
  | cons a as =>
    rw [hl] at h2 h3
    simp only [List.length_cons, List.map_cons, List.take_succ_cons, List.cons.injEq] at h2
    rw [← h2.1]
    exact h3 a (by simp)

/-- C29. `findCmdIDForMenuStrings` returns the command id (as `int`) of the
first command item, in depth-first order, that lies at depth `d <= 4` and whose
chain of stripped labels from the top level down equals the first `d` of the
four given strings, each of these labels non-empty; the strings after position
`d` are not looked at. It returns -1 when the tree holds no such item, in
particular whenever the first menu string is empty. A label is the text that
`GetMenuString` copies into `MAXSIZE` units, after `stripMenuString`. -/
theorem findCmdIDForMenuStrings_first_leaf (hMenu0 : Menu)
    (menuString0 menuString1 menuString2 menuString3 : List TCHAR) :
    findCmdIDForMenuStrings hMenu0 menuString0 menuString1 menuString2 menuString3
        = (match (Menu.leaves hMenu0).find? (fun l => decide
              (l.matchesStrings [menuString0, menuString1, menuString2, menuString3])) with
          | some l => toInt l.id
          | none => -1) ∧
      (cString menuString0 = [] →
        findCmdIDForMenuStrings hMenu0 menuString0 menuString1 menuString2 menuString3 = -1) := by
  have hfun : (fun l : Leaf => decide
        (l.matchesStrings [menuString0, menuString1, menuString2, menuString3]))
      = (fun l : Leaf => decide
        (l.matchesChain [menuString0, menuString1, menuString2, menuString3])) := by
    funext l
    exact decide_eq_decide.2 (Leaf.matchesStrings_iff _ _ _ _ l)
  have hmain : findCmdIDForMenuStrings hMenu0 menuString0 menuString1 menuString2 menuString3
      = (match (Menu.leaves hMenu0).find? (fun l => decide
            (l.matchesStrings [menuString0, menuString1, menuString2, menuString3])) with
        | some l => toInt l.id
        | none => -1) := by
    unfold findCmdIDForMenuStrings
    rw [findCmdIDLoop0_eq, hfun]
    cases (Menu.leaves hMenu0).find? (fun l => decide
        (l.matchesChain [menuString0, menuString1, menuString2, menuString3])) <;> rfl
  refine ⟨hmain, fun hempty => ?_⟩
  rw [hmain, hfun]
  cases hf : (Menu.leaves hMenu0).find? (fun l => decide
      (l.matchesChain [menuString0, menuString1, menuString2, menuString3])) with
  | none => rfl
  | some l =>
    have hm : l.matchesChain [menuString0, menuString1, menuString2, menuString3] := by
      simpa using List.find?_some hf
    exact absurd hempty (Leaf.matchesChain_head _ _ l hm)

/-- C29 (witness): with an empty first string the search of the example menu
returns -1, and the chain `P`, `C`, `Se` leads to the command 22001. -/
theorem findCmdIDForMenuStrings_first_leaf_witness :
    cString [0, 80] = [] ∧
      findCmdIDForMenuStrings exampleSession.g_hMainMenu [0, 80] [67] [83, 101] [] = -1 ∧
      findCmdIDForMenuStrings exampleSession.g_hMainMenu [80] [67] [83, 101] [7] = 22001 :=
  ⟨by decide,
    (findCmdIDForMenuStrings_first_leaf exampleSession.g_hMainMenu [0, 80] [67] [83, 101] []).2
      (by decide),
    by decide⟩

/-! ## The loops over the `.btn` file -/

theorem splitLine_eq_splitFields (buffer : Nat → TCHAR) (log : LineLog) :
    splitLine buffer log = splitFields buffer 7 0 log := rfl

theorem readLineLoop_le : ∀ (n : Nat) (r : BtnReader) (i : Nat) (b : Nat → TCHAR)
    (w : List Nat), i ≤ (readLineLoop n r i b w).2.1
  | 0, r, i, b, w => by simp [readLineLoop]
  | n + 1, r, i, b, w => by
    unfold readLineLoop
    split_ifs
    · exact le_trans (Nat.le_succ i) (readLineLoop_le n _ _ _ _)
    · exact le_refl _

theorem readLineLoop_bounds : ∀ (n : Nat) (r : BtnReader) (i : Nat) (buffer : Nat → TCHAR)
    (writes : List Nat),
    (readLineLoop n r i buffer writes).2.1 ≤ i + n ∧
      ∀ x ∈ (readLineLoop n r i buffer writes).2.2.2,
        x ∈ writes ∨ x < (readLineLoop n r i buffer writes).2.1
  | 0, r, i, buffer, writes => by
    unfold readLineLoop
    exact ⟨le_refl _, fun x hx => Or.inl hx⟩
  | n + 1, r, i, buffer, writes => by
    unfold readLineLoop
    split_ifs with h
    · obtain ⟨h1, h2⟩ := readLineLoop_bounds n (ReadFileTCHAR r) (i + 1)
        (setCell buffer i r.nextChar) (writes ++ [i])
      have hmono := readLineLoop_le n (ReadFileTCHAR r) (i + 1)
        (setCell buffer i r.nextChar) (writes ++ [i])
      refine ⟨by omega, fun x hx => ?_⟩
      rcases h2 x hx with hm | hlt
      · rcases List.mem_append.1 hm with hm | hm
        · exact Or.inl hm
        · right
          have hxi : x = i := by simpa using hm
          omega
      · exact Or.inr hlt
    · exact ⟨Nat.le_add_right _ _, fun x hx => Or.inl hx⟩

theorem splitLoop_bounds (buffer : Nat → TCHAR) (c T : Nat) (hc : buffer c = 44) (hcT : c < T) :
    ∀ (n i : Nat) (field : List TCHAR) (log : LineLog), i ≤ c →
      field.length + n ≤ MAXSIZE - 1 →
      (∀ r ∈ log.bufferReads, r < T) → (∀ j ∈ log.fieldWrites, j < MAXSIZE) →
      (splitLoop buffer n i field log).1 ≤ c ∧
        (splitLoop buffer n i field log).2.1.length ≤ MAXSIZE - 1 ∧
        (∀ r ∈ (splitLoop buffer n i field log).2.2.bufferReads, r < T) ∧
        (∀ j ∈ (splitLoop buffer n i field log).2.2.fieldWrites, j < MAXSIZE) ∧
        (splitLoop buffer n i field log).2.2.terminator = log.terminator ∧
        (splitLoop buffer n i field log).2.2.bufferWrites = log.bufferWrites
  | 0, i, field, log, hi, hlen, hr, hw => by
    unfold splitLoop
    exact ⟨hi, by simpa using hlen, hr, hw, rfl, rfl⟩
  | n + 1, i, field, log, hi, hlen, hr, hw => by
    have hM : MAXSIZE = 300 := rfl
    unfold splitLoop
    split_ifs with h
    · have hic : i ≠ c := fun hEq => h (hEq ▸ hc)
      have ih := splitLoop_bounds buffer c T hc hcT n (i + 1) (field ++ [buffer i])
        { log with
          bufferReads := log.bufferReads ++ [i]
          fieldWrites := log.fieldWrites ++ [field.length] }
        (by omega) (by simp only [List.length_append, List.length_singleton]; omega)
        (by
          intro r hr1
          rcases List.mem_append.1 hr1 with hm | hm
          · exact hr r hm
          · have : r = i := by simpa using hm
            omega)
        (by
          intro j hj
          rcases List.mem_append.1 hj with hm | hm
          · exact hw j hm
          · have : j = field.length := by simpa using hm
            rw [hM] at hlen ⊢
            omega)
      exact ih
    · refine ⟨hi, ?_, ?_, hw, rfl, rfl⟩
      · show field.length ≤ MAXSIZE - 1
        omega
      intro r hr1
      rcases List.mem_append.1 hr1 with hm | hm
      · exact hr r hm
      · have : r = i := by simpa using hm
        omega

theorem splitField_bounds (buffer : Nat → TCHAR) (c T : Nat) (hc : buffer c = 44) (hcT : c < T)
    (i : Nat) (log : LineLog) (hi : i ≤ c)
    (hr : ∀ r ∈ log.bufferReads, r < T) (hw : ∀ j ∈ log.fieldWrites, j < MAXSIZE) :
    (splitField buffer i log).1 ≤ c ∧
      (∀ r ∈ (splitField buffer i log).2.2.bufferReads, r < T) ∧
      (∀ j ∈ (splitField buffer i log).2.2.fieldWrites, j < MAXSIZE) ∧
      (splitField buffer i log).2.2.terminator = log.terminator ∧
      (splitField buffer i log).2.2.bufferWrites = log.bufferWrites := by
  obtain ⟨h1, h2, h3, h4, h5, h6⟩ := splitLoop_bounds buffer c T hc hcT (MAXSIZE - 1) i [] log hi
    (by simp) hr hw
  unfold splitField
  refine ⟨h1, h3, ?_, h5, h6⟩
  intro j hj
  rcases List.mem_append.1 hj with hm | hm
  · exact h4 j hm
  · have hjl : j = (splitLoop buffer (MAXSIZE - 1) i [] log).2.1.length := by simpa using hm
    have hM : MAXSIZE = 300 := rfl
    rw [hM] at h2 ⊢
    rw [hM] at hjl
    omega

theorem splitFields_bounds (buffer : Nat → TCHAR) (T : Nat) :
    ∀ (k c i : Nat) (log : LineLog), (∀ m, m < k → buffer (c + m) = 44) → c + k ≤ T → i ≤ c →
      (∀ r ∈ log.bufferReads, r < T) → (∀ j ∈ log.fieldWrites, j < MAXSIZE) →
      (∀ r ∈ (splitFields buffer k i log).2.bufferReads, r < T) ∧
        (∀ j ∈ (splitFields buffer k i log).2.fieldWrites, j < MAXSIZE) ∧
        (splitFields buffer k i log).2.terminator = log.terminator ∧
        (splitFields buffer k i log).2.bufferWrites = log.bufferWrites
  | 0, c, i, log, _, _, _, hr, hw => by
    unfold splitFields
    exact ⟨hr, hw, rfl, rfl⟩
  | k + 1, c, i, log, hcomma, hT, hi, hr, hw => by
    obtain ⟨h1, h2, h3, h4, h5⟩ := splitField_bounds buffer c T (by simpa using hcomma 0 (by omega))
      (by omega) i log hi hr hw
    obtain ⟨g1, g2, g3, g4⟩ := splitFields_bounds buffer T k (c + 1)
      ((splitField buffer i log).1 + 1) (splitField buffer i log).2.2
      (fun m hm => by
        have := hcomma (m + 1) (by omega)
        rw [← this]; congr 1; omega)
      (by omega) (by omega) h2 h3
    unfold splitFields
    exact ⟨g1, g2, g3.trans h4, g4.trans h5⟩

theorem addToolbarButtons_line_logs (st : BtnState) :
    ∃ log : LineLog, (addToolbarButtons_line st).logs = st.logs ++ [log] ∧ log.InBounds := by
  have hM : MAXSIZE = 300 := rfl
  obtain ⟨hle, hwr⟩ := readLineLoop_bounds (MAXSIZE * 7) st.reader 0 st.buffer []
  unfold addToolbarButtons_line
  generalize readLineLoop (MAXSIZE * 7) st.reader 0 st.buffer [] = res at hle hwr ⊢
  obtain ⟨reader, i, buffer, writes⟩ := res
  simp only at hle hwr
  have hi : i ≤ 2100 := by rw [hM] at hle; omega
  have hwrites : ∀ w ∈ writes ++ [i + 6, i + 5, i + 4, i + 3, i + 2, i + 1, i, i + 7],
      w < MAXSIZE * 7 + 10 := by
    intro w hw
    rw [hM]
    rcases List.mem_append.1 hw with hm | hm
    · rcases hwr w hm with h | h
      · simp at h
      · omega
    · simp only [List.mem_cons, List.mem_singleton, List.not_mem_nil, or_false] at hm
      omega
  generalize hsl : splitLine = sl
  simp only
  by_cases h0 : i > 0
  · rw [if_pos h0]
    by_cases h59 : setCell (setCell (setCell (setCell (setCell (setCell (setCell (setCell buffer
      (i + 6) 44) (i + 5) 44) (i + 4) 44) (i + 3) 44) (i + 2) 44) (i + 1) 44) i 44) (i + 7) 0 0
        ≠ 59
    · rw [if_pos h59]
      subst hsl
      set buf := setCell (setCell (setCell (setCell (setCell (setCell (setCell (setCell buffer
        (i + 6) 44) (i + 5) 44) (i + 4) 44) (i + 3) 44) (i + 2) 44) (i + 1) 44) i 44) (i + 7) 0
        with hbuf
      have hcomma : ∀ m, m < 7 → buf (i + m) = 44 := by
        intro m hm
        simp only [hbuf, setCell]
        have : m = 0 ∨ m = 1 ∨ m = 2 ∨ m = 3 ∨ m = 4 ∨ m = 5 ∨ m = 6 := by omega
        rcases this with rfl | rfl | rfl | rfl | rfl | rfl | rfl <;> simp
      obtain ⟨g1, g2, g3, g4⟩ := splitFields_bounds buf (i + 7) 7 i 0
        { terminator := i + 7
          bufferWrites := writes ++ [i + 6, i + 5, i + 4, i + 3, i + 2, i + 1, i, i + 7]
          bufferReads := [0]
          fieldWrites := [] }
        hcomma (le_refl _) (Nat.zero_le _) (by simp) (by simp)
      rw [splitLine_eq_splitFields]
      generalize splitFields buf 7 0
        { terminator := i + 7
          bufferWrites := writes ++ [i + 6, i + 5, i + 4, i + 3, i + 2, i + 1, i, i + 7]
          bufferReads := [0]
          fieldWrites := [] } = res at g1 g2 g3 g4 ⊢
      obtain ⟨fields, log⟩ := res
      simp only at g1 g2 g3 g4
      refine ⟨log, rfl, ?_, ?_, ?_, g2⟩
      · rw [g3, hM]; omega
      · rw [g4]; exact hwrites
      · intro r hr
        rw [g3]
        have := g1 r hr
        rw [hM]
        omega
    · rw [if_neg h59]
      refine ⟨_, rfl, ?_, hwrites, ?_, by simp⟩
      · rw [hM]; show i + 7 < _; omega
      · intro r hr
        have : r = 0 := by simpa using hr
        rw [hM]
        show r < _ ∧ r < i + 7
        omega
  · rw [if_neg h0]
    refine ⟨_, rfl, ?_, hwrites, by simp, by simp⟩
    rw [hM]; show i + 7 < _; omega

theorem ReadFileTCHAR_stream (r : BtnReader) : (ReadFileTCHAR r).stream = r.btnFile := by
  unfold ReadFileTCHAR BtnReader.stream
  cases h : r.btnFile with
  | nil => simp
  | cons c rest => simp

theorem BtnReader.stream_of_pos (r : BtnReader) (h : r.bytesRead > 0) :
    r.stream = r.nextChar :: r.btnFile := by
  unfold BtnReader.stream
  rw [if_pos h]

theorem BtnReader.stream_of_zero (r : BtnReader) (h : ¬ r.bytesRead > 0) : r.stream = [] := by
  unfold BtnReader.stream
  rw [if_neg h]

theorem guardedRead_stream_length (r : BtnReader) :
    (if r.bytesRead > 0 then ReadFileTCHAR r else r).stream.length ≤ r.stream.length ∧
      (r.bytesRead > 0 →
        (if r.bytesRead > 0 then ReadFileTCHAR r else r).stream.length < r.stream.length) := by
  by_cases h : r.bytesRead > 0
  · rw [if_pos h, ReadFileTCHAR_stream, BtnReader.stream_of_pos r h]
    simp
  · rw [if_neg h]
    exact ⟨le_refl _, fun h1 => absurd h1 h⟩

theorem readLineLoop_stream_length : ∀ (n : Nat) (r : BtnReader) (i : Nat) (b : Nat → TCHAR)
    (w : List Nat), (readLineLoop n r i b w).1.stream.length ≤ r.stream.length
  | 0, r, i, b, w => by simp [readLineLoop]
  | n + 1, r, i, b, w => by
    unfold readLineLoop
    split_ifs with h
    · have ih := readLineLoop_stream_length n (ReadFileTCHAR r) (i + 1)
        (setCell b i r.nextChar) (w ++ [i])
      rw [ReadFileTCHAR_stream] at ih
      rw [BtnReader.stream_of_pos r h.1]
      exact le_trans ih (by simp)
    · exact le_refl _

theorem addToolbarButtons_line_reader (st : BtnState) :
    (addToolbarButtons_line st).reader
      = (if (if (readLineLoop (MAXSIZE * 7) st.reader 0 st.buffer []).1.bytesRead > 0
            then ReadFileTCHAR (readLineLoop (MAXSIZE * 7) st.reader 0 st.buffer []).1
            else (readLineLoop (MAXSIZE * 7) st.reader 0 st.buffer []).1).bytesRead > 0
          then ReadFileTCHAR
            (if (readLineLoop (MAXSIZE * 7) st.reader 0 st.buffer []).1.bytesRead > 0
              then ReadFileTCHAR (readLineLoop (MAXSIZE * 7) st.reader 0 st.buffer []).1
              else (readLineLoop (MAXSIZE * 7) st.reader 0 st.buffer []).1)
          else
            (if (readLineLoop (MAXSIZE * 7) st.reader 0 st.buffer []).1.bytesRead > 0
              then ReadFileTCHAR (readLineLoop (MAXSIZE * 7) st.reader 0 st.buffer []).1
              else (readLineLoop (MAXSIZE * 7) st.reader 0 st.buffer []).1)) := by
  unfold addToolbarButtons_line
  generalize readLineLoop (MAXSIZE * 7) st.reader 0 st.buffer [] = res
  obtain ⟨reader, i, buffer, writes⟩ := res
  rfl

theorem addToolbarButtons_line_stream (st : BtnState) (h : st.reader.bytesRead > 0) :
    (addToolbarButtons_line st).reader.stream.length < st.reader.stream.length := by
  rw [addToolbarButtons_line_reader]
  have h1 := readLineLoop_stream_length (MAXSIZE * 7) st.reader 0 st.buffer []
  generalize (readLineLoop (MAXSIZE * 7) st.reader 0 st.buffer []).1 = r1 at h1 ⊢
  have h2 := guardedRead_stream_length r1
  have h3 := guardedRead_stream_length (if r1.bytesRead > 0 then ReadFileTCHAR r1 else r1)
  have hpos : 0 < st.reader.stream.length := by
    rw [BtnReader.stream_of_pos _ h]; simp
  by_cases hr : r1.bytesRead > 0
  · have := h2.2 hr
    omega
  · have hz : (if r1.bytesRead > 0 then ReadFileTCHAR r1 else r1).stream.length = 0 := by
      rw [if_neg hr, BtnReader.stream_of_zero r1 hr]; rfl
    omega

theorem addToolbarButtons_loop_inv (Inv : BtnState → Prop)
    (hstep : ∀ st, Inv st → Inv (addToolbarButtons_line st)) :
    ∀ (fuel : Nat) (st : BtnState), st.reader.stream.length ≤ fuel → Inv st →
      ∃ st1, addToolbarButtons_loop fuel st = some st1 ∧ Inv st1 ∧ st1.reader.bytesRead = 0
  | 0, st, hlen, hinv => by
    have hz : ¬ st.reader.bytesRead > 0 := by
      intro h
      rw [BtnReader.stream_of_pos _ h] at hlen
      simp at hlen
    unfold addToolbarButtons_loop
    rw [if_neg hz]
    exact ⟨st, rfl, hinv, by omega⟩
  | fuel + 1, st, hlen, hinv => by
    unfold addToolbarButtons_loop
    by_cases h : st.reader.bytesRead > 0
    · rw [if_pos h]
      have hlt := addToolbarButtons_line_stream st h
      exact addToolbarButtons_loop_inv Inv hstep fuel (addToolbarButtons_line st) (by omega)
        (hstep st hinv)
    · rw [if_neg h]
      exact ⟨st, rfl, hinv, by omega⟩

theorem addToolbarButtons_custom_inv (Inv : BtnState → Prop)
    (hstep : ∀ st, Inv st → Inv (addToolbarButtons_line st))
    (g_customButtonsState g_customButtonsCount : Int) (btnFile : List TCHAR) (nextChar : TCHAR)
    (buffer : Nat → TCHAR)
    (hskip : ∀ r : BtnReader, Inv
      { reader := r
        buffer := buffer
        g_customButtonsCount := g_customButtonsCount
        defined := []
        logs := [] })
    (hinit : ∀ r : BtnReader, Inv
      { reader := r
        buffer := buffer
        g_customButtonsCount := 0
        defined := []
        logs := [] }) :
    ∃ st, addToolbarButtons_custom g_customButtonsState g_customButtonsCount btnFile nextChar
        buffer = some st ∧ Inv st := by
  unfold addToolbarButtons_custom
  by_cases h0 : g_customButtonsState = 0
  · rw [if_pos h0]
    exact ⟨_, rfl, hskip _⟩
  · rw [if_neg h0]
    simp only
    have h1 : (ReadFileTCHAR { nextChar := nextChar, bytesRead := 0, btnFile := btnFile
        }).stream.length ≤ btnFile.length := by
      rw [ReadFileTCHAR_stream]
    have h2 := guardedRead_stream_length
      (ReadFileTCHAR { nextChar := nextChar, bytesRead := 0, btnFile := btnFile })
    generalize ReadFileTCHAR { nextChar := nextChar, bytesRead := 0, btnFile := btnFile } = r0
      at h1 h2 ⊢
    have h3 : (if r0.bytesRead > 0 ∧ r0.nextChar = 0xFEFF then ReadFileTCHAR r0 else r0
        ).stream.length ≤ btnFile.length := by
      by_cases hb : r0.bytesRead > 0 ∧ r0.nextChar = 0xFEFF
      · rw [if_pos hb]
        have := h2.1
        rw [if_pos hb.1] at this
        omega
      · rw [if_neg hb]; exact h1
    obtain ⟨st1, hs1, hs2, _⟩ := addToolbarButtons_loop_inv Inv hstep (btnFile.length + 1)
      { reader := if r0.bytesRead > 0 ∧ r0.nextChar = 0xFEFF then ReadFileTCHAR r0 else r0
        buffer := buffer
        g_customButtonsCount := 0
        defined := []
        logs := [] }
      (by simp only; omega) (hinit _)
    exact ⟨st1, hs1, hs2⟩

/-- C30. For every content of the `.btn` file, every state of the custom
buttons feature and every content of the uninitialised locals,
`addToolbarButtons` runs to the end of the file, and in every pass of its loop
over the lines: the terminating zero and every store into the line buffer lie
below its size `MAXSIZE*7+10 = 2110`, every read of the line buffer (the test
for `;` and the seven splitting loops) lies below the index of the terminating
zero stored after the seven appended commas, and every store into a field lies
below `MAXSIZE = 300`. -/
theorem addToolbarButtons_custom_bounds (g_customButtonsState g_customButtonsCount : Int)
    (btnFile : List TCHAR) (nextChar : TCHAR) (buffer : Nat → TCHAR) :
    MAXSIZE * 7 + 10 = 2110 ∧ MAXSIZE = 300 ∧
      ∃ st, addToolbarButtons_custom g_customButtonsState g_customButtonsCount btnFile nextChar
          buffer = some st ∧
        ∀ log ∈ st.logs,
          log.terminator < MAXSIZE * 7 + 10 ∧ (∀ w ∈ log.bufferWrites, w < MAXSIZE * 7 + 10) ∧
            (∀ r ∈ log.bufferReads, r < MAXSIZE * 7 + 10 ∧ r < log.terminator) ∧
            ∀ j ∈ log.fieldWrites, j < MAXSIZE := by
  refine ⟨rfl, rfl, ?_⟩
  have h := addToolbarButtons_custom_inv (fun st => ∀ log ∈ st.logs, log.InBounds)
    (fun st hst => by
      obtain ⟨log, hl, hb⟩ := addToolbarButtons_line_logs st
      intro l hmem
      rw [hl] at hmem
      rcases List.mem_append.1 hmem with hm | hm
      · exact hst l hm
      · have : l = log := by simpa using hm
        rw [this]; exact hb)
    g_customButtonsState g_customButtonsCount btnFile nextChar buffer
    (fun r => by simp) (fun r => by simp)
  exact h

/-- The bounds of the array indices on the example file: four passes, the
first and the last of which split a line. -/
theorem addToolbarButtons_custom_example :
    (addToolbarButtons_custom 1 5 exampleBtnFile 0 (fun _ => 7)).map
        (fun st => (st.g_customButtonsCount, st.defined.map CustomButton.fields,
          st.logs.map (fun log => (log.terminator, log.bufferReads))))
      = some (2,
          [[[69, 100, 105, 116], [83, 101, 108, 101, 99, 116, 32, 65, 108, 108], [], [],
            [42, 82, 58, 83, 65], [], []], [[97], [98], [], [], [], [], []]],
          [(30, [0, 0, 1, 2, 3, 4, 5, 6, 7, 8, 9, 10, 11, 12, 13, 14, 15, 16, 17, 18, 19, 20,
            21, 22, 23, 24, 25]), (9, [0]), (7, []), (10, [0, 0, 1, 2, 3, 4, 5, 6, 7, 8])]) := by
  decide

/-! ## Splitting a line of the `.btn` file -/

theorem bufferHolds_append (buffer : Nat → TCHAR) (a b : List TCHAR) (i : Nat) :
    bufferHolds buffer i (a ++ b) ↔ bufferHolds buffer i a ∧ bufferHolds buffer (i + a.length) b := by
  induction a generalizing i with
  | nil => simp [bufferHolds]
  | cons c cs ih =>
    show (buffer i = c ∧ bufferHolds buffer (i + 1) (cs ++ b)) ↔
      (buffer i = c ∧ bufferHolds buffer (i + 1) cs) ∧
        bufferHolds buffer (i + (cs.length + 1)) b
    rw [ih, show i + 1 + cs.length = i + (cs.length + 1) by omega]
    tauto

theorem bufferHolds_setCell (buffer : Nat → TCHAR) (l : List TCHAR) (i j : Nat) (v : TCHAR)
    (hj : i + l.length ≤ j) (h : bufferHolds buffer i l) : bufferHolds (setCell buffer j v) i l := by
  induction l generalizing i with
  | nil => trivial
  | cons c cs ih =>
    simp only [bufferHolds, List.length_cons] at h hj ⊢
    refine ⟨?_, ih (i + 1) (by omega) h.2⟩
    unfold setCell
    rw [if_neg (by omega)]
    exact h.1

theorem bufferHolds_congr (b1 b2 : Nat → TCHAR) (l : List TCHAR) (i : Nat)
    (heq : ∀ k, i ≤ k → b1 k = b2 k) (h : bufferHolds b2 i l) : bufferHolds b1 i l := by
  induction l generalizing i with
  | nil => trivial
  | cons c cs ih =>
    simp only [bufferHolds] at h ⊢
    exact ⟨(heq i (le_refl _)).trans h.1, ih (i + 1) (fun k hk => heq k (by omega)) h.2⟩

theorem readLineLoop_preserves : ∀ (n : Nat) (r : BtnReader) (i : Nat) (b : Nat → TCHAR)
    (w : List Nat) (k : Nat), k < i → (readLineLoop n r i b w).2.2.1 k = b k
  | 0, r, i, b, w, k, _ => by simp [readLineLoop]
  | n + 1, r, i, b, w, k, hk => by
    unfold readLineLoop
    split_ifs with h
    · rw [readLineLoop_preserves n _ (i + 1) _ _ k (by omega)]
      unfold setCell
      rw [if_neg (by omega)]
    · rfl

theorem readLineLoop_line : ∀ (line : List TCHAR) (n : Nat) (r : BtnReader) (i : Nat)
    (b : Nat → TCHAR) (w : List Nat) (tail : List TCHAR),
    13 ∉ line → line.length ≤ n → r.stream = line ++ tail → (tail = [] ∨ ∃ t, tail = 13 :: t) →
    (readLineLoop n r i b w).2.1 = i + line.length ∧
      bufferHolds (readLineLoop n r i b w).2.2.1 i line
  | [], n, r, i, b, w, tail, _, _, hs, ht => by
    have hstop : ¬ (r.bytesRead > 0 ∧ r.nextChar ≠ 13) := by
      rintro ⟨h1, h2⟩
      rw [BtnReader.stream_of_pos r h1] at hs
      rcases ht with ht | ⟨t, ht⟩
      · rw [ht] at hs; simp at hs
      · rw [ht] at hs
        simp only [List.nil_append, List.cons.injEq] at hs
        exact h2 hs.1
    cases n with
    | zero => simp [readLineLoop, bufferHolds]
    | succ n =>
      unfold readLineLoop
      rw [if_neg hstop]
      simp [bufferHolds]
  | c :: cs, n, r, i, b, w, tail, h13, hn, hs, ht => by
    have hpos : r.bytesRead > 0 := by
      by_contra h
      rw [BtnReader.stream_of_zero r h] at hs
      simp at hs
    rw [BtnReader.stream_of_pos r hpos] at hs
    simp only [List.cons_append, List.cons.injEq] at hs
    obtain ⟨hc, hrest⟩ := hs
    have hc13 : r.nextChar ≠ 13 := by
      rw [hc]; intro h; exact h13 (by simp [h])
    cases n with
    | zero => simp at hn
    | succ n =>
      have ih := readLineLoop_line cs n (ReadFileTCHAR r) (i + 1) (setCell b i r.nextChar)
        (w ++ [i]) tail (fun h => h13 (by simp [h])) (by simpa using hn)
        (by rw [ReadFileTCHAR_stream]; exact hrest) ht
      have hpres := readLineLoop_preserves n (ReadFileTCHAR r) (i + 1) (setCell b i r.nextChar)
        (w ++ [i]) i (by omega)
      unfold readLineLoop
      rw [if_pos ⟨hpos, hc13⟩]
      refine ⟨by rw [ih.1, List.length_cons]; omega, ?_⟩
      simp only [bufferHolds]
      refine ⟨?_, ih.2⟩
      rw [hpres]
      simp [setCell, hc]

theorem splitLoop_field (buffer : Nat → TCHAR) : ∀ (f : List TCHAR) (n i : Nat)
    (acc : List TCHAR) (log : LineLog) (rest : List TCHAR),
    44 ∉ f → f.length ≤ n → bufferHolds buffer i (f ++ 44 :: rest) →
    (splitLoop buffer n i acc log).1 = i + f.length ∧
      (splitLoop buffer n i acc log).2.1 = acc ++ f
  | [], n, i, acc, log, rest, _, _, hb => by
    have h44 : buffer i = 44 := by simpa [bufferHolds] using hb.1
    cases n with
    | zero => simp [splitLoop]
    | succ n =>
      unfold splitLoop
      rw [if_neg (by simp [h44])]
      simp
  | c :: cs, n, i, acc, log, rest, h44, hn, hb => by
    simp only [List.cons_append, bufferHolds] at hb
    have hc : buffer i ≠ 44 := by
      rw [hb.1]; intro h; exact h44 (by simp [h])
    cases n with
    | zero => simp at hn
    | succ n =>
      have ih := splitLoop_field buffer cs n (i + 1) (acc ++ [buffer i])
        { log with
          bufferReads := log.bufferReads ++ [i]
          fieldWrites := log.fieldWrites ++ [acc.length] } rest
        (fun h => h44 (by simp [h])) (by simpa using hn) hb.2
      unfold splitLoop
      rw [if_pos hc]
      rw [ih.1, ih.2, hb.1]
      simp only [List.length_cons, List.append_assoc, List.singleton_append, and_true]
      omega

theorem splitField_field (buffer : Nat → TCHAR) (f : List TCHAR) (i : Nat) (log : LineLog)
    (rest : List TCHAR) (h44 : 44 ∉ f) (hlen : f.length ≤ MAXSIZE - 1)
    (hb : bufferHolds buffer i (f ++ 44 :: rest)) :
    (splitField buffer i log).1 = i + f.length ∧ (splitField buffer i log).2.1 = f := by
  have h := splitLoop_field buffer f (MAXSIZE - 1) i [] log rest h44 hlen hb
  unfold splitField
  exact ⟨h.1, by simpa using h.2⟩

theorem splitFields_fields (buffer : Nat → TCHAR) : ∀ (fs : List (List TCHAR)) (i : Nat)
    (log : LineLog) (rest : List TCHAR),
    (∀ f ∈ fs, 44 ∉ f ∧ f.length ≤ MAXSIZE - 1) →
    bufferHolds buffer i (joinFields fs ++ rest) →
    (splitFields buffer fs.length i log).1 = fs
  | [], i, log, rest, _, _ => by simp [splitFields]
  | f :: fs, i, log, rest, hf, hb => by
    have hb1 : bufferHolds buffer i (f ++ 44 :: (joinFields fs ++ rest)) := by
      simpa [joinFields] using hb
    obtain ⟨h1, h2⟩ := splitField_field buffer f i log (joinFields fs ++ rest)
      (hf f (by simp)).1 (hf f (by simp)).2 hb1
    have hb2 : bufferHolds buffer (i + f.length + 1) (joinFields fs ++ rest) := by
      have := (bufferHolds_append buffer f (44 :: (joinFields fs ++ rest)) i).1 hb1
      simpa [bufferHolds] using this.2.2
    have ih := splitFields_fields buffer fs (i + f.length + 1) (splitField buffer i log).2.2 rest
      (fun g hg => hf g (by simp [hg])) hb2
    simp only [List.length_cons, splitFields]
    rw [h1, h2, ih]

theorem joinFields_append (a b : List (List TCHAR)) :
    joinFields (a ++ b) = joinFields a ++ joinFields b := by
  induction a with
  | nil => rfl
  | cons f fs ih => simp [joinFields, ih]

theorem joinFields_replicate (m : Nat) : joinFields (List.replicate m []) = List.replicate m 44 := by
  induction m with
  | zero => rfl
  | succ m ih => simp [List.replicate_succ, joinFields, ih]

theorem joinFields_intercalate (fs : List (List TCHAR)) (h : fs ≠ []) :
    joinFields fs = List.intercalate [44] fs ++ [44] := by
  induction fs with
  | nil => exact absurd rfl h
  | cons f gs ih =>
    cases gs with
    | nil => simp [joinFields, List.intercalate]
    | cons g gs =>
      have := ih (by simp)
      simp only [joinFields] at this ⊢
      rw [this]
      simp [List.intercalate, List.intersperse]

theorem joinFields_length (fs : List (List TCHAR)) (h : ∀ f ∈ fs, f.length < 299) :
    (joinFields fs).length ≤ 299 * fs.length := by
  induction fs with
  | nil => simp [joinFields]
  | cons f gs ih =>
    have h1 := h f (by simp)
    have h2 := ih (fun g hg => h g (by simp [hg]))
    simp only [joinFields, List.length_append, List.length_cons]
    omega

theorem fields_of_length_seven (l : List (List TCHAR)) (h : l.length = 7) :
    l.take 4 ++ [l.getD 4 [], l.getD 5 [], l.getD 6 []] = l := by
  match l, h with
  | [a, b, c, d, e, f, g], _ => rfl

theorem readLineLoop_stop (n : Nat) (r : BtnReader) (i : Nat) (b : Nat → TCHAR) (w : List Nat)
    (h : ¬ (r.bytesRead > 0 ∧ r.nextChar ≠ 13)) : readLineLoop n r i b w = (r, i, b, w) := by
  cases n with
  | zero => rfl
  | succ n =>
    unfold readLineLoop
    rw [if_neg h]

theorem readLineLoop_first (n : Nat) (r : BtnReader) (b : Nat → TCHAR) (w : List Nat)
    (h1 : r.bytesRead > 0) (h2 : r.nextChar ≠ 13) :
    0 < (readLineLoop (n + 1) r 0 b w).2.1 ∧
      (readLineLoop (n + 1) r 0 b w).2.2.1 0 = r.nextChar := by
  unfold readLineLoop
  rw [if_pos ⟨h1, h2⟩]
  have hle := readLineLoop_le n (ReadFileTCHAR r) (0 + 1) (setCell b 0 r.nextChar) (w ++ [0])
  have hpres := readLineLoop_preserves n (ReadFileTCHAR r) (0 + 1) (setCell b 0 r.nextChar)
    (w ++ [0]) 0 (by omega)
  refine ⟨by omega, ?_⟩
  rw [hpres]
  simp [setCell]

theorem addToolbarButtons_line_skips (st : BtnState) (hpos : st.reader.bytesRead > 0)
    (hc : st.reader.nextChar = 13 ∨ st.reader.nextChar = 59) :
    (addToolbarButtons_line st).g_customButtonsCount = st.g_customButtonsCount ∧
      (addToolbarButtons_line st).defined = st.defined := by
  rcases hc with hc | hc
  · have hstop := readLineLoop_stop (MAXSIZE * 7) st.reader 0 st.buffer []
      (by rintro ⟨_, h2⟩; exact h2 hc)
    unfold addToolbarButtons_line
    rw [hstop]
    generalize hsl : splitLine = sl
    simp only
    rw [if_neg (by omega)]
    exact ⟨rfl, rfl⟩
  · have hfirst := readLineLoop_first 2099 st.reader st.buffer [] hpos (by rw [hc]; decide)
    have hfirst2 : 0 < (readLineLoop (MAXSIZE * 7) st.reader 0 st.buffer []).2.1 ∧
        (readLineLoop (MAXSIZE * 7) st.reader 0 st.buffer []).2.2.1 0 = st.reader.nextChar :=
      hfirst
    unfold addToolbarButtons_line
    generalize readLineLoop (MAXSIZE * 7) st.reader 0 st.buffer [] = res at hfirst2 ⊢
    obtain ⟨reader, i, buffer, writes⟩ := res
    simp only at hfirst2
    obtain ⟨hi, hb⟩ := hfirst2
    generalize hsl : splitLine = sl
    simp only
    rw [if_pos hi]
    have hsemi : ¬ (setCell (setCell (setCell (setCell (setCell (setCell (setCell (setCell buffer
        (i + 6) 44) (i + 5) 44) (i + 4) 44) (i + 3) 44) (i + 2) 44) (i + 1) 44) i 44) (i + 7) 0 0
          ≠ 59) := by
      have h0 : ∀ m, (0 : Nat) ≠ i + m := fun m => by omega
      have h00 : (0 : Nat) ≠ i := by omega
      simp only [setCell, if_neg (h0 _), if_neg h00, hb, hc]
      simp
    rw [if_neg hsemi]
    exact ⟨rfl, rfl⟩

/-- C22. Let a line of the `.btn` file be made of `k <= 7` fields separated by
commas, each field without comma and shorter than 299 units, the line not
empty, not starting with `;`, and ended by a carriage return or by the end of
the file. The pass of the loop of `addToolbarButtons` that reads it defines one
button: `g_customButtonsCount` grows by one, and the seven fields stored (four
menu strings in the row `g_customButtonsCount` of `g_customMenuStrings`, then
the bitmap, icon and dark icon names, each followed by its terminating zero)
are the `k` fields in order followed by `7 - k` empty strings. A pass that
starts at an empty line (a carriage return) or at a `;` defines no button and
leaves `g_customButtonsCount` unchanged. -/
theorem addToolbarButtons_line_fields (st : BtnState) (fields : List (List TCHAR))
    (tail : List TCHAR) (hk : fields.length ≤ 7)
    (hfield : ∀ f ∈ fields, 44 ∉ f ∧ f.length < 299)
    (hne : List.intercalate [44] fields ≠ [])
    (hsemi : (List.intercalate [44] fields).head? ≠ some 59)
    (h13 : 13 ∉ List.intercalate [44] fields)
    (hstream : st.reader.stream = List.intercalate [44] fields ++ tail)
    (htail : tail = [] ∨ ∃ t, tail = 13 :: t) :
    ((addToolbarButtons_line st).g_customButtonsCount = st.g_customButtonsCount + 1 ∧
      ∃ b : CustomButton, (addToolbarButtons_line st).defined = st.defined ++ [b] ∧
        b.fields = fields ++ List.replicate (7 - fields.length) [] ∧
        b.menuStrings.length = 4 ∧ b.row = st.g_customButtonsCount ∧
        b.idCmd = ID_CMD_CUSTOM + st.g_customButtonsCount) ∧
      ∀ st2 : BtnState, st2.reader.bytesRead > 0 →
        st2.reader.nextChar = 13 ∨ st2.reader.nextChar = 59 →
        (addToolbarButtons_line st2).g_customButtonsCount = st2.g_customButtonsCount ∧
          (addToolbarButtons_line st2).defined = st2.defined := by
  refine ⟨?_, fun st2 h1 h2 => addToolbarButtons_line_skips st2 h1 h2⟩
  have hM : MAXSIZE = 300 := rfl
  have hfne : fields ≠ [] := by
    intro h; rw [h] at hne; exact hne rfl
  have hk1 : 1 ≤ fields.length := by
    cases fields with
    | nil => exact absurd rfl hfne
    | cons a as => simp
  have hjoin := joinFields_intercalate fields hfne
  have hjlen := joinFields_length fields (fun f hf => (hfield f hf).2)
  generalize hline : List.intercalate [44] fields = line at hne hsemi h13 hstream hjoin
  have hlen : line.length ≤ MAXSIZE * 7 := by
    rw [hjoin] at hjlen
    simp only [List.length_append, List.length_singleton] at hjlen
    rw [hM]
    omega
  have hpadlen : (fields ++ List.replicate (7 - fields.length) []).length = 7 := by
    simp only [List.length_append, List.length_replicate]
    omega
  have hpad : ∀ f ∈ fields ++ List.replicate (7 - fields.length) [],
      44 ∉ f ∧ f.length ≤ MAXSIZE - 1 := by
    intro f hf
    rcases List.mem_append.1 hf with h | h
    · have := hfield f h
      rw [hM]
      exact ⟨this.1, by omega⟩
    · have : f = [] := (List.mem_replicate.1 h).2
      rw [this]; simp
  have hjoinpad : joinFields (fields ++ List.replicate (7 - fields.length) [])
      ++ List.replicate (fields.length - 1) 44 = line ++ List.replicate 7 44 := by
    rw [joinFields_append, joinFields_replicate, hjoin]
    have h1 : ([44] : List TCHAR) = List.replicate 1 44 := rfl
    rw [h1, List.append_assoc, List.append_assoc, List.append_replicate_replicate,
      List.append_replicate_replicate]
    congr 2
    omega
  obtain ⟨hi, hh⟩ := readLineLoop_line line (MAXSIZE * 7) st.reader 0 st.buffer [] tail h13 hlen
    hstream htail
  unfold addToolbarButtons_line
  generalize readLineLoop (MAXSIZE * 7) st.reader 0 st.buffer [] = res at hi hh ⊢
  obtain ⟨reader, i, buffer, writes⟩ := res
  simp only [Nat.zero_add] at hi hh
  subst hi
  generalize hsl : splitLine = sl
  simp only
  have h0 : line.length > 0 := List.length_pos.2 hne
  rw [if_pos h0]
  have hholds : bufferHolds (setCell (setCell (setCell (setCell (setCell (setCell (setCell
      (setCell buffer (line.length + 6) 44) (line.length + 5) 44) (line.length + 4) 44)
      (line.length + 3) 44) (line.length + 2) 44) (line.length + 1) 44) line.length 44)
      (line.length + 7) 0) 0 (line ++ List.replicate 7 44) := by
    rw [bufferHolds_append]
    constructor
    · have hs : ∀ (b : Nat → TCHAR) (m : Nat) (v : TCHAR), bufferHolds b 0 line →
          bufferHolds (setCell b (line.length + m) v) 0 line :=
        fun b m v hb => bufferHolds_setCell b line 0 (line.length + m) v (by omega) hb
      exact hs _ 7 _ (hs _ 0 _ (hs _ 1 _ (hs _ 2 _ (hs _ 3 _ (hs _ 4 _ (hs _ 5 _
        (hs _ 6 _ hh)))))))
    · simp [List.replicate, bufferHolds, setCell]
  have hsemi2 : setCell (setCell (setCell (setCell (setCell (setCell (setCell
      (setCell buffer (line.length + 6) 44) (line.length + 5) 44) (line.length + 4) 44)
      (line.length + 3) 44) (line.length + 2) 44) (line.length + 1) 44) line.length 44)
      (line.length + 7) 0 0 ≠ 59 := by
    obtain ⟨c, cs, hl⟩ := List.exists_cons_of_ne_nil hne
    subst hl
    simp only [List.cons_append, bufferHolds] at hholds
    rw [hholds.1]
    intro h
    exact hsemi (by simp [h])
  rw [if_pos hsemi2]
  subst hsl
  rw [splitLine_eq_splitFields]
  have hfs := splitFields_fields _ (fields ++ List.replicate (7 - fields.length) []) 0
    { terminator := line.length + 7
      bufferWrites := writes ++ [line.length + 6, line.length + 5, line.length + 4,
        line.length + 3, line.length + 2, line.length + 1, line.length, line.length + 7]
      bufferReads := [0]
      fieldWrites := [] }
    (List.replicate (fields.length - 1) 44) hpad (by rw [hjoinpad]; exact hholds)
  rw [hpadlen] at hfs
  generalize splitFields _ 7 0 _ = res at hfs ⊢
  obtain ⟨fs, lg⟩ := res
  simp only at hfs
  subst hfs
  refine ⟨rfl, _, rfl, ?_, ?_, rfl, rfl⟩
  · exact fields_of_length_seven _ hpadlen
  · simp only [List.length_take, hpadlen]
    rfl

/-- C22 (witness): the line `a,b` in front of CR LF defines the third button
with the fields `a`, `b` and five empty strings. -/
theorem addToolbarButtons_line_fields_witness :
    exampleBtnState.reader.stream = List.intercalate [44] [[97], [98]] ++ [13, 10] ∧
      (addToolbarButtons_line exampleBtnState).g_customButtonsCount = 3 ∧
      (addToolbarButtons_line exampleBtnState).defined.map CustomButton.fields
        = [[[97], [98], [], [], [], [], []]] :=
  ⟨by decide,
    (addToolbarButtons_line_fields exampleBtnState [[97], [98]] [13, 10] (by decide)
      (by decide) (by decide) (by decide) (by decide) (by decide) (Or.inr ⟨[10], rfl⟩)).1.1,
    by decide⟩

/-! ## Claims on saving and restoring -/

theorem restoreMatches_identity (env : Session) (e : DWORD) (b : TBBUTTON)
    (hm : restoreMatches env e b = true)
    (hraw : e &&& HASHFLAG = 0 → ¬ inHashedRange env b.idCommand) :
    resolvedIdentity env b = e := by
  by_cases hf : e &&& HASHFLAG ≠ 0
  · exact ((restoreMatches_hashed env e b hf).1 hm).2.symm
  · have hz : e &&& HASHFLAG = 0 := by simpa using hf
    rw [resolvedIdentity_raw env b (hraw hz)]
    exact ((restoreMatches_raw env e b hz).1 hm).symm

theorem restoreMatches_self (env : Session) (b : TBBUTTON)
    (hraw : ¬ inHashedRange env b.idCommand → toDWORD b.idCommand &&& HASHFLAG = 0) :
    restoreMatches env (resolvedIdentity env b) b = true := by
  by_cases hb : inHashedRange env b.idCommand
  · exact (restoreMatches_hashed env _ b (resolvedIdentity_hashed_flag env b hb)).2 ⟨hb, rfl⟩
  · have hz := hraw hb
    rw [resolvedIdentity_raw env b hb]
    exact (restoreMatches_raw env _ b hz).2 rfl

theorem onToolbarPart_identity (env : Session) (es : List DWORD) (btns : List TBBUTTON)
    (h : ∀ e ∈ es, ∀ b ∈ btns, restoreMatches env e b = true → resolvedIdentity env b = e) :
    (onToolbarPart env es btns).map (resolvedIdentity env)
      = es.filter (fun e => (btns.find? (restoreMatches env e)).isSome) := by
  induction es with
  | nil => simp [onToolbarPart]
  | cons e es ih =>
    have ih1 := ih (fun x hx => h x (by simp [hx]))
    rw [onToolbarPart_cons, List.map_append, ih1, List.filter_cons]
    cases hf : btns.find? (restoreMatches env e) with
    | none => simp
    | some t =>
      have hid := h e (by simp) t (List.mem_of_find?_eq_some hf) (List.find?_some hf)
      simp [hid]

theorem resolvedIdentity_congr (env : Session) (a b : TBBUTTON)
    (h1 : a.idCommand = b.idCommand) (h2 : a.iString = b.iString) :
    resolvedIdentity env a = resolvedIdentity env b := by
  simp [resolvedIdentity, calcPluginButtonMenuHash, calcButtonStringHash, h1, h2]

theorem unmatchedPart_eq_nil (env : Session) (available : List DWORD) (btns : List TBBUTTON)
    (h : ∀ b ∈ btns, ∃ e ∈ available, restoreMatches env e b = true) :
    unmatchedPart env available btns = [] := by
  unfold unmatchedPart
  rw [List.map_eq_nil_iff, List.filter_eq_nil_iff]
  intro b hb
  obtain ⟨e, he, hm⟩ := h b hb
  have : available.any (fun e => restoreMatches env e b) = true :=
    List.any_eq_true.2 ⟨e, he, hm⟩
  simp [this]

theorem and_HASHFLAG_of_nonneg (x : Int) (h0 : 0 ≤ x) (h1 : x < 2147483648) :
    toDWORD x &&& HASHFLAG = 0 := by
  apply and_HASHFLAG_of_lt
  unfold toDWORD
  show (_ : Nat) < _
  omega

/-- C25. Saving then restoring with an unchanged button set reproduces the
layout. Let every toolbar button agree in command id and string index with some
entry of `g_tbButtons`, and let the entries of `g_tbButtons` in hashed ranges
have pairwise distinct hashes; the command ids are values of type `int`, and,
as the data model requires of every raw command id, those outside the hashed
ranges do not have the `HASHFLAG` bit. Then `saveToolbarLayout` followed by
`restoreToolbarLayout` over the same `g_tbButtons` installs a toolbar whose
identity sequence equals, in length and order, that of the toolbar that was
saved: no button is added and none is lost. -/
theorem restoreToolbarLayout_saveToolbarLayout (env : Session) (menuStates : Bool)
    (u : Locals) (s : State)
    (hn : s.toolbar.length < 2147483648) (hm : s.g_tbButtons.length < 2147483648)
    (hcopy : ∀ t ∈ s.toolbar, ∃ b ∈ s.g_tbButtons,
      b.idCommand = t.idCommand ∧ b.iString = t.iString)
    (hd : s.g_tbButtons.Pairwise (distinctHashes env))
    (hint : ∀ b ∈ s.g_tbButtons, IsInt32 b.idCommand)
    (hraw : ∀ b ∈ s.g_tbButtons, ¬ inHashedRange env b.idCommand →
      toDWORD b.idCommand &&& HASHFLAG = 0) :
    (restoreToolbarLayout env menuStates u (saveToolbarLayout env s)).toolbar.map
          (resolvedIdentity env)
        = s.toolbar.map (resolvedIdentity env) ∧
      (restoreToolbarLayout env menuStates u (saveToolbarLayout env s)).toolbar.length
        = s.toolbar.length := by
  have hflag : ∀ b ∈ s.g_tbButtons, ¬ inHashedRange env b.idCommand →
      toDWORD b.idCommand &&& HASHFLAG = 0 := hraw
  suffices hseq : (restoreToolbarLayout env menuStates u (saveToolbarLayout env s)).toolbar.map
      (resolvedIdentity env) = s.toolbar.map (resolvedIdentity env) by
    refine ⟨hseq, ?_⟩
    have := congrArg List.length hseq
    simpa using this
  have hrec : ValidRecord (s.toolbar.map (resolvedIdentity env))
      (s.g_tbButtons.map (resolvedIdentity env)) := by
    refine ⟨by simpa using hn, by simpa using hm, ?_, ?_⟩
    · intro e he
      obtain ⟨b, _, rfl⟩ := List.mem_map.1 he
      exact resolvedIdentity_lt env b
    · intro e he
      obtain ⟨b, _, rfl⟩ := List.mem_map.1 he
      exact resolvedIdentity_lt env b
  have hfile : (saveToolbarLayout env s).datFile
      = datRecord (toDWORD s.g_customButtonsState) (toDWORD s.g_wrapToolbarState)
          (s.toolbar.map (resolvedIdentity env)) (s.g_tbButtons.map (resolvedIdentity env))
        ++ [] := by
    rw [List.append_nil]; exact saveToolbarLayout_datFile env s
  have hg : (saveToolbarLayout env s).g_tbButtons = s.g_tbButtons := rfl
  rw [restoreToolbarLayout_distinct env menuStates u (saveToolbarLayout env s) _ _ _ _ []
    hrec hfile (by rw [hg]; exact hd), hg]
  unfold claimedToolbar
  rw [unmatchedPart_eq_nil env _ _ (fun b hb =>
    ⟨resolvedIdentity env b, List.mem_map.2 ⟨b, hb, rfl⟩,
      restoreMatches_self env b (hflag b hb)⟩), List.append_nil]
  have hident : ∀ e ∈ s.toolbar.map (resolvedIdentity env), ∀ b ∈ s.g_tbButtons,
      restoreMatches env e b = true → resolvedIdentity env b = e := by
    intro e he b hb hmatch
    obtain ⟨t, ht, rfl⟩ := List.mem_map.1 he
    obtain ⟨c, hc, hc1, hc2⟩ := hcopy t ht
    have hct : resolvedIdentity env c = resolvedIdentity env t :=
      resolvedIdentity_congr env c t hc1 hc2
    apply restoreMatches_identity env _ b hmatch
    intro hz hbh
    rw [← hct] at hz hmatch
    have hcn : ¬ inHashedRange env c.idCommand := fun hch =>
      resolvedIdentity_hashed_flag env c hch hz
    rw [resolvedIdentity_raw env c hcn] at hmatch hz
    have heq := (restoreMatches_raw env _ b hz).1 hmatch
    have := toDWORD_injective _ _ (hint c hc) (hint b hb) heq
    rw [this] at hcn
    exact hcn hbh
  rw [onToolbarPart_identity env _ _ hident, List.filter_eq_self]
  intro e he
  obtain ⟨t, ht, rfl⟩ := List.mem_map.1 he
  obtain ⟨c, hc, hc1, hc2⟩ := hcopy t ht
  have hct : resolvedIdentity env c = resolvedIdentity env t :=
    resolvedIdentity_congr env c t hc1 hc2
  rw [List.find?_isSome]
  exact ⟨c, hc, by rw [← hct]; exact restoreMatches_self env c (hflag c hc)⟩

/-- C25 (witness): the example state with three of its four buttons on the
toolbar is saved and restored; the identities on the toolbar are the same. -/
theorem restoreToolbarLayout_saveToolbarLayout_witness :
    saveState.g_tbButtons.Pairwise (distinctHashes exampleSession) ∧
      (restoreToolbarLayout exampleSession true zeroLocals
          (saveToolbarLayout exampleSession saveState)).toolbar.map
          (resolvedIdentity exampleSession)
        = [100, 2147484203, 300] :=
  ⟨by decide,
    (restoreToolbarLayout_saveToolbarLayout exampleSession true zeroLocals saveState
      (by decide) (by decide) (by decide) (by decide) (by decide) (by decide)).1⟩

theorem unmatchedPart_identity (env : Session) (available : List DWORD) (btns : List TBBUTTON) :
    (unmatchedPart env available btns).map (resolvedIdentity env)
      = (btns.filter (fun b => !available.any (fun e => restoreMatches env e b))).map
          (resolvedIdentity env) := by
  unfold unmatchedPart
  rw [List.map_map]
  apply List.map_congr_left
  intro b _
  exact resolvedIdentity_dwData env b 0

/-- C26 (amended). Let the saved on-toolbar list repeat no entry, let each of
its entries occur in the saved available list, let the resolved identities of
the entries of `g_tbButtons` be pairwise distinct, and let no on-toolbar entry
without `HASHFLAG` equal the command id of a button in a hashed range. Then the
identities on the toolbar installed by `restoreToolbarLayout` are pairwise
distinct, so for each entry of `g_tbButtons` at most one installed button
carries its identity. -/
theorem restoreToolbarLayout_nodup (env : Session) (menuStates : Bool) (u : Locals)
    (s : State) (custom wrap : DWORD) (onToolbar available : List DWORD) (extra : List Nat)
    (hrec : ValidRecord onToolbar available)
    (hfile : s.datFile = datRecord custom wrap onToolbar available ++ extra)
    (hnd : onToolbar.Nodup) (hsub : ∀ e ∈ onToolbar, e ∈ available)
    (hid : (s.g_tbButtons.map (resolvedIdentity env)).Nodup)
    (hraw : ∀ e ∈ onToolbar, e &&& HASHFLAG = 0 →
      ∀ b ∈ s.g_tbButtons, inHashedRange env b.idCommand → toDWORD b.idCommand ≠ e) :
    ((restoreToolbarLayout env menuStates u s).toolbar.map (resolvedIdentity env)).Nodup ∧
      ∀ b ∈ s.g_tbButtons,
        ((restoreToolbarLayout env menuStates u s).toolbar.map (resolvedIdentity env)).count
          (resolvedIdentity env b) ≤ 1 := by
  have hd : s.g_tbButtons.Pairwise (distinctHashes env) := by
    have h1 := List.pairwise_map.1 hid
    exact h1.imp (fun hne _ _ => hne)
  have hident : ∀ e ∈ onToolbar, ∀ b ∈ s.g_tbButtons,
      restoreMatches env e b = true → resolvedIdentity env b = e := by
    intro e he b hb hm
    apply restoreMatches_identity env e b hm
    intro hz hbh
    exact hraw e he hz b hb hbh ((restoreMatches_raw env e b hz).1 hm).symm
  have hmain : ((restoreToolbarLayout env menuStates u s).toolbar.map
      (resolvedIdentity env)).Nodup := by
    rw [restoreToolbarLayout_distinct env menuStates u s custom wrap onToolbar available extra
      hrec hfile hd]
    unfold claimedToolbar
    rw [List.map_append, onToolbarPart_identity env _ _ hident, unmatchedPart_identity]
    rw [List.nodup_append]
    refine ⟨hnd.sublist (List.filter_sublist _),
      hid.sublist ((List.filter_sublist _).map _), ?_⟩
    intro x hx1 hx2
    obtain ⟨hxon, hxs⟩ := List.mem_filter.1 hx1
    obtain ⟨b2, hb2, hb2x⟩ := List.mem_map.1 hx2
    obtain ⟨hb2mem, hb2un⟩ := List.mem_filter.1 hb2
    obtain ⟨b1, hb1mem, hb1m⟩ := List.find?_isSome.1 hxs
    have hb1x : resolvedIdentity env b1 = x := hident x hxon b1 hb1mem hb1m
    have hsame : b1 = b2 :=
      List.inj_on_of_nodup_map hid hb1mem hb2mem (hb1x.trans hb2x.symm)
    subst hsame
    have hany : available.any (fun e => restoreMatches env e b1) = true :=
      List.any_eq_true.2 ⟨x, hsub x hxon, hb1m⟩
    simp [hany] at hb2un
  exact ⟨hmain, fun b _ => List.nodup_iff_count_le_one.1 hmain _⟩

/-- C26 (witness): the scenario of the specification satisfies the premises;
the installed identities `[100, HASHFLAG|555, 300]` are pairwise distinct. -/
theorem restoreToolbarLayout_nodup_witness :
    [100, 2147484203].Nodup ∧
      (scenarioState.g_tbButtons.map (resolvedIdentity exampleSession)).Nodup ∧
      ((restoreToolbarLayout exampleSession true zeroLocals scenarioState).toolbar.map
        (resolvedIdentity exampleSession)).Nodup :=
  ⟨by decide, by decide,
    (restoreToolbarLayout_nodup exampleSession true zeroLocals scenarioState 1 0
      [100, 2147484203] [100, 200, 2147484203] [] (by decide) (by decide) (by decide)
      (by decide) (by decide) (by decide)).1⟩

/-- C26 (counterexample). One plugin button, 22600, under the plugin limit
22999, and a record whose on-toolbar and available lists both hold the raw
value 22600 and the menu hash of the button: the on-toolbar list repeats no
identity, each of its entries is in the available list, the identities of
`g_tbButtons` are pairwise distinct, and `restoreToolbarLayout` installs the
button twice. -/
theorem restoreToolbarLayout_nodup_raw_and_hash :
    [22600, calcPluginButtonMenuHash upgradedSession (exampleButton 22600 0)].Nodup ∧
      (doubleEntryState.g_tbButtons.map (resolvedIdentity upgradedSession)).Nodup ∧
      doubleEntryState.datFile = datRecord 1 0
        [22600, calcPluginButtonMenuHash upgradedSession (exampleButton 22600 0)]
        [22600, calcPluginButtonMenuHash upgradedSession (exampleButton 22600 0)] ∧
      (restoreToolbarLayout upgradedSession true zeroLocals doubleEntryState).toolbar
        = [exampleButton 22600 0, exampleButton 22600 0] := by
  decide

/-! ## The capacity of the custom button table -/

set_option maxRecDepth 100000

/-- C23 (code). With the custom buttons feature enabled and a `.btn` file of
101 definition lines, `addToolbarButtons` ends with `g_customButtonsCount = 101`:
the last line is stored with the first index 100 into
`g_customMenuStrings[100]` and is registered under the temporary command id
26100, beyond `ID_CMD_CUSTOM_LIMIT = 26099`. -/
theorem addToolbarButtons_custom_overflow :
    manyLinesFile.length = 303 ∧
      (addToolbarButtons_custom 1 0 manyLinesFile 0 (fun _ => 0)).map
          (fun st => (st.g_customButtonsCount,
            (st.defined.map (fun b => (b.row, b.idCmd))).getLast?))
        = some (101, some (100, 26100)) ∧
      ¬ ((26100 : Int) ≤ ID_CMD_CUSTOM_LIMIT) :=
  ⟨by decide, by decide, by decide⟩

end CustomizeToolbar
